import Mathlib

/-!
# SourceXtractor++ : the iterative flexible model fitting task and its collaborators

A shallow embedding of
`SEImplementation/src/lib/Plugin/FlexibleModelFitting/FlexibleModelFittingIterativeTask.cpp`,
followed by the sigmoid converter (`ModelFitting/Parameters/SigmoidConverter.h`), the Jacobian
tasks (`SEImplementation/src/lib/Plugin/Jacobian/JacobianTask.cpp`), the measurement frame task
factory, the property access of the source interface, the registry of least-squares engines and
the Levenberg-Marquardt engine, the cast of FITS header values, the stamp of a group, the
conversion of the weight map, the grid of the histogram image and the cleaning of a group.

Conventions of the embedding of the fitting task.

* `SeFloat` and `double` are read as one numeric type `F` whose operations are the fields of
  `FloatOps F`; nothing is assumed about them, so every theorem holds for IEEE arithmetic as well
  as for exact arithmetic.
* The classes that the task only calls (the parameter manager, the frame model, the priors, the
  least-squares engine) are the fields of `Collaborators F M`, where `M` is the state of the
  `FlexibleModelFittingParameterManager` / `EngineParameterManager` pair.  They are total
  functions: an exception thrown inside a collaborator is outside the model.
* `std::unordered_map<int, double>` is a function `Int → Option F`; `at` is the function itself
  (`none` is `std::out_of_range`), `operator[]` on a missing key reads the default `0.0`.
* `int` counters are unbounded integers (signed overflow is undefined behaviour and needs more than
  `2^31` pixels).
* `updateCheckImages` only writes to the `CheckImages` singleton, which is not part of the state
  described here.
-/

namespace SourceXtractor

/-! ## Data model -/

/-- Arithmetic and comparisons of the floating point pixel type. -/
structure FloatOps (F : Type) where
  zero : F
  one : F
  quiet_NaN : F
  add : F → F → F
  sub : F → F → F
  mul : F → F → F
  div : F → F → F
  sqrt : F → F
  ofInt : Int → F
  gt : F → F → Bool
  ne : F → F → Bool

/-- The members of the `Flags` bit set that the task uses; `NONE` has no bit set. -/
structure Flags where
  outside : Bool
  insufficient_data : Bool
  error : Bool
deriving DecidableEq, Repr

namespace Flags

def NONE : Flags := ⟨false, false, false⟩

def OUTSIDE : Flags := ⟨true, false, false⟩

def INSUFFICIENT_DATA : Flags := ⟨false, true, false⟩

def ERROR : Flags := ⟨false, false, true⟩

/-- The operator `|` of the bit set. -/
def or (a b : Flags) : Flags :=
  ⟨a.outside || b.outside, a.insufficient_data || b.insufficient_data, a.error || b.error⟩

end Flags

structure PixelCoordinate where
  m_x : Int
  m_y : Int
deriving DecidableEq, Repr

/-- What the task reads of a `PixelRectangle`: `getTopLeft`, `getWidth`, `getHeight`. -/
structure PixelRectangle where
  topLeft : PixelCoordinate
  width : Int
  height : Int
deriving DecidableEq, Repr

/-- A `VectorImage<SeFloat>`: its size and the pixel read by `at(x, y)`. -/
structure VectorImage (F : Type) where
  width : Int
  height : Int
  pixel : Int → Int → F

/-- The map type `std::unordered_map<int, double>`. -/
abbrev ParameterMap (F : Type) := Int → Option F

namespace ParameterMap

def empty {F : Type} : ParameterMap F := fun _ => none

/-- The assignment `m[key] = value`. -/
def insert {F : Type} (m : ParameterMap F) (key : Int) (value : F) : ParameterMap F :=
  fun k => if k = key then some value else m k

/-- The read `m[key]`, which yields a value-initialised `0.0` for a missing key. -/
def index {F : Type} (ops : FloatOps F) (m : ParameterMap F) (key : Int) : F :=
  (m key).getD ops.zero

end ParameterMap

/-- The `FlexibleModelFitting` property (the fit result record of a source). -/
structure FlexibleModelFitting (F : Type) where
  iterations : Nat
  stop_reason : Int
  reduced_chi_squared : F
  flags : Flags
  parameter_values : ParameterMap F
  parameter_sigmas : ParameterMap F

/-- The per-frame properties of a source that the task reads: `MeasurementFrameRectangle`,
the subtracted layer and the variance map of `MeasurementFrameImages`, and the gain and the
saturation of `MeasurementFrameInfo`. -/
structure MeasurementFrameData (F : Type) where
  rect : PixelRectangle
  subtracted : Int → Int → F
  variance : Int → Int → F
  gain : F
  saturation : F

/-- A source: its per-frame properties, indexed by frame number, and the slot of the
`FlexibleModelFitting` property (empty until `setProperty` is called). -/
structure Source (F : Type) where
  frameData : Int → MeasurementFrameData F
  modelFitting : Option (FlexibleModelFitting F)

/-- The three classes of fitting parameters, told apart by `dynamic_pointer_cast`. -/
inductive ParameterKind where
  | Constant
  | Free
  | Dependent
deriving DecidableEq, Repr

/-- A `FlexibleModelFittingParameter`; `getInitialValue` is read for free parameters only. -/
structure FlexibleModelFittingParameter (F : Type) where
  id : Int
  kind : ParameterKind
  getInitialValue : Source F → F

/-- A `FlexibleModelFittingFrame`: its frame number and the (uninterpreted) models. -/
structure FlexibleModelFittingFrame where
  frameNb : Int
  models : List Nat
deriving DecidableEq, Repr

/-- The `status_flag` of a `LeastSquareSummary`; the task only tests it against `ERROR`. -/
inductive StatusFlag where
  | SUCCESS
  | MAX_ITER
  | ERROR
deriving DecidableEq, Repr

structure LeastSquareSummary (F : Type) where
  status_flag : StatusFlag
  iteration_no : Nat
  engine_stop_reason : Int
  parameter_sigmas : List F

/-- A block registered with the `ResidualEstimator`: the data-versus-model residuals of one
frame (deblended image, the frame and rectangle of its frame model, weights, comparator scale),
or whatever a prior registers. -/
inductive ResidualBlock (F : Type) where
  | dataVsModel (image : VectorImage F) (frame : FlexibleModelFittingFrame)
      (rect : PixelRectangle) (weight : VectorImage F) (scale : F)
  | prior (id : Nat)

abbrev ResidualEstimator (F : Type) := List (ResidualBlock F)

/-- The classes the task calls but does not define, over the parameter manager state `M`. -/
structure Collaborators (F M : Type) where
  /-- A default constructed parameter manager (with its engine parameter manager). -/
  newManager : M
  /-- The call `addParameter(src, p, free_parameter->create(manager, engine_manager, src, v))`. -/
  addFreeParameter : M → Source F → FlexibleModelFittingParameter F → F → M
  /-- The call `addParameter(src, p, p->create(manager, engine_manager, src))`. -/
  addParameter : M → Source F → FlexibleModelFittingParameter F → M
  clearAccessCheck : M → M
  isParamAccessed : M → Source F → FlexibleModelFittingParameter F → Bool
  /-- The effect on the manager of `createFrameModel(src, pixel_scale, manager, frame, rect)`. -/
  createFrameModel : M → Source F → F → FlexibleModelFittingFrame → PixelRectangle → M
  /-- The pixels of `getImage()` of the frame model built by `createFrameModel`; the frame
  model is constructed with the width and the height of the rectangle (lines 141-143). -/
  getImage : M → Source F → F → FlexibleModelFittingFrame → PixelRectangle → Int → Int → F
  setupPrior : Nat → M → Source F → ResidualEstimator F → M × ResidualEstimator F
  /-- The calls `LeastSquareEngineManager::create(name, max_iterations)->solveProblem(..)`. -/
  solveProblem : String → Nat → M → ResidualEstimator F → LeastSquareSummary F × M
  /-- The effect on the manager of `getParameter(src, p)`. -/
  getParameter : M → Source F → FlexibleModelFittingParameter F → M
  /-- The call `getParameter(src, p)->getValue()`. -/
  getValue : M → Source F → FlexibleModelFittingParameter F → F
  /-- The call `p->getSigma(manager, src, sigmas)`. -/
  getSigma : M → Source F → FlexibleModelFittingParameter F → List F → F × M

/-- The members of `FlexibleModelFittingIterativeTask`. -/
structure FlexibleModelFittingIterativeTask (F : Type) where
  m_least_squares_engine : String
  m_max_iterations : Nat
  m_modified_chi_squared_scale : F
  m_parameters : List (FlexibleModelFittingParameter F)
  m_frames : List FlexibleModelFittingFrame
  m_priors : List Nat
  m_scale_factor : F

structure SourceState (F : Type) where
  iterations : Nat
  stop_reason : Int
  reduced_chi_squared : F
  parameters_values : ParameterMap F
  parameters_sigmas : ParameterMap F

structure FittingState (F : Type) where
  source_states : List (SourceState F)

/-- What an execution does that is not visible in its result: calls of `fitSource` (with the
index passed), creations of an engine, and calls of `solveProblem`. -/
inductive Event where
  | fitSource (index : Nat)
  | engineCreate (name : String) (max_iterations : Nat)
  | solveProblem
deriving DecidableEq, Repr

/-! ## Loops and images -/

/-- The loop `for (int i = 0; i < n; i++) body`. -/
def forRange {σ : Type} (n : Int) (body : Int → σ → σ) (s : σ) : σ :=
  (List.range n.toNat).foldl (fun acc i => body (Int.ofNat i) acc) s

/-- The nested loops `for (y < height) for (x < width) body`. -/
def forPixels {σ : Type} (width height : Int) (body : Int → Int → σ → σ) (s : σ) : σ :=
  forRange height (fun y acc => forRange width (fun x acc2 => body x y acc2) acc) s

namespace VectorImage

/-- The factory `VectorImage<SeFloat>::create(width, height)`, filled with zeros. -/
def create {F : Type} (ops : FloatOps F) (width height : Int) : VectorImage F :=
  ⟨width, height, fun _ _ => ops.zero⟩

/-- The assignment `image->at(x, y) = value`. -/
def setValue {F : Type} (image : VectorImage F) (x y : Int) (value : F) : VectorImage F :=
  { image with pixel := fun x2 y2 => if x2 = x ∧ y2 = y then value else image.pixel x2 y2 }

end VectorImage

/-! ## The helpers in the anonymous namespace -/

section Task

variable {F M : Type}

def getFittingRect (source : Source F) (frame_index : Int) : PixelRectangle :=
  (source.frameData frame_index).rect

def isFrameValid (source : Source F) (frame_index : Int) : Bool :=
  let stamp_rect := getFittingRect source frame_index
  decide (stamp_rect.width > 0) && decide (stamp_rect.height > 0)

def createImageCopy (source : Source F) (frame_index : Int) : VectorImage F :=
  let frame_images := source.frameData frame_index
  let rect := getFittingRect source frame_index
  ⟨rect.width, rect.height,
    fun x y => frame_images.subtracted (rect.topLeft.m_x + x) (rect.topLeft.m_y + y)⟩

def createWeightImage (ops : FloatOps F) (source : Source F) (frame_index : Int) :
    VectorImage F :=
  let frame_images := source.frameData frame_index
  let gain := frame_images.gain
  let saturation := frame_images.saturation
  let rect := getFittingRect source frame_index
  let weight := VectorImage.create ops rect.width rect.height
  forPixels rect.width rect.height (fun x y weight =>
    let back_var := frame_images.variance (rect.topLeft.m_x + x) (rect.topLeft.m_y + y)
    let pixel_val := frame_images.subtracted (rect.topLeft.m_x + x) (rect.topLeft.m_y + y)
    if ops.gt saturation ops.zero && ops.gt pixel_val saturation then
      weight.setValue x y ops.zero
    else if ops.gt gain ops.zero && ops.gt pixel_val ops.zero then
      weight.setValue x y (ops.sqrt (ops.div ops.one (ops.add back_var (ops.div pixel_val gain))))
    else
      weight.setValue x y (ops.sqrt (ops.div ops.one back_var))) weight

/-! ## The task -/

/-- The loop over `m_parameters` that binds the parameters of `src` in the manager, free
parameters with the value of the current state (`parameters_values.at(id)`); it is the body
shared by `fitSource` (lines 263-279) and `createDeblendImage` (lines 216-231). -/
def addParameters (C : Collaborators F M) (src : Source F) (values : ParameterMap F) :
    List (FlexibleModelFittingParameter F) → M → Int → Option (M × Int)
  | [], manager, n_free_parameters => some (manager, n_free_parameters)
  | parameter :: rest, manager, n_free_parameters =>
    if parameter.kind = ParameterKind.Free then
      match values parameter.id with
      | none => none
      | some v =>
        addParameters C src values rest (C.addFreeParameter manager src parameter v)
          (n_free_parameters + 1)
    else
      addParameters C src values rest (C.addParameter manager src parameter) n_free_parameters

/-- The first loop of `createDeblendImage` (lines 213-234): every source of the group gets its
parameters bound, and `index` is incremented once per source. -/
def deblendParameters (task : FlexibleModelFittingIterativeTask F) (C : Collaborators F M)
    (state : FittingState F) : List (Source F) → M → Int → Nat → Option (M × Int × Nat)
  | [], manager, n_free_parameters, index => some (manager, n_free_parameters, index)
  | src :: rest, manager, n_free_parameters, index =>
    match state.source_states[index]? with
    | none => none
    | some source_state =>
      match addParameters C src source_state.parameters_values task.m_parameters manager
          n_free_parameters with
      | none => none
      | some (manager2, n2) => deblendParameters task C state rest manager2 n2 (index + 1)

/-- The second loop of `createDeblendImage` (lines 237-248); `index` is not changed by it. -/
def deblendAccumulate (ops : FloatOps F) (C : Collaborators F M) (pixel_scale : F)
    (frame : FlexibleModelFittingFrame) (rect : PixelRectangle) (index source_index : Nat) :
    List (Source F) → M → VectorImage F → VectorImage F
  | [], _, deblend_image => deblend_image
  | src :: rest, manager, deblend_image =>
    if index ≠ source_index then
      let manager2 := C.createFrameModel manager src pixel_scale frame rect
      let final_stamp : VectorImage F :=
        ⟨rect.width, rect.height, C.getImage manager2 src pixel_scale frame rect⟩
      let deblend_image2 := forPixels final_stamp.width final_stamp.height
        (fun x y img => img.setValue x y (ops.add (img.pixel x y) (final_stamp.pixel x y)))
        deblend_image
      deblendAccumulate ops C pixel_scale frame rect index source_index rest manager2
        deblend_image2
    else
      deblendAccumulate ops C pixel_scale frame rect index source_index rest manager
        deblend_image

def createDeblendImage (ops : FloatOps F) (task : FlexibleModelFittingIterativeTask F)
    (C : Collaborators F M) (group : List (Source F)) (source : Source F) (source_index : Nat)
    (frame : FlexibleModelFittingFrame) (state : FittingState F) : Option (VectorImage F) :=
  let frame_index := frame.frameNb
  let rect := getFittingRect source frame_index
  let pixel_scale := ops.div ops.one task.m_scale_factor
  match deblendParameters task C state group C.newManager 0 0 with
  | none => none
  | some (parameter_manager, _, index) =>
    let deblend_image := VectorImage.create ops rect.width rect.height
    some (deblendAccumulate ops C pixel_scale frame rect index source_index group
      parameter_manager deblend_image)

/-- The loop of `fitSource` over `m_frames` (lines 291-325), on the loop variables
`parameter_manager`, `valid_frames`, `n_good_pixels` and `res_estimator`. -/
def fitSourceFrames (ops : FloatOps F) (task : FlexibleModelFittingIterativeTask F)
    (C : Collaborators F M) (group : List (Source F)) (source : Source F) (index : Nat)
    (state : FittingState F) (pixel_scale : F) :
    List FlexibleModelFittingFrame → M → Int → Int → ResidualEstimator F →
      Option (M × Int × Int × ResidualEstimator F)
  | [], manager, valid_frames, n_good_pixels, res_estimator =>
    some (manager, valid_frames, n_good_pixels, res_estimator)
  | frame :: rest, manager, valid_frames, n_good_pixels, res_estimator =>
    let frame_index := frame.frameNb
    if isFrameValid source frame_index then
      let stamp_rect := getFittingRect source frame_index
      let manager2 := C.createFrameModel manager source pixel_scale frame stamp_rect
      let image := createImageCopy source frame_index
      match createDeblendImage ops task C group source index frame state with
      | none => none
      | some deblend_image =>
        let image2 := forPixels image.width image.height
          (fun x y img => img.setValue x y (ops.sub (img.pixel x y) (deblend_image.pixel x y)))
          image
        let weight := createWeightImage ops source frame_index
        let n_good_pixels2 := forPixels weight.width weight.height
          (fun x y n => n + (if ops.ne (weight.pixel x y) ops.zero then 1 else 0)) n_good_pixels
        fitSourceFrames ops task C group source index state pixel_scale rest manager2
          (valid_frames + 1) n_good_pixels2
          (res_estimator ++ [ResidualBlock.dataVsModel image2 frame stamp_rect weight
            task.m_modified_chi_squared_scale])
    else
      fitSourceFrames ops task C group source index state pixel_scale rest manager
        valid_frames n_good_pixels res_estimator

/-- The map built by the loop of `setDummyProperty`. -/
def dummyValues (ops : FloatOps F) (task : FlexibleModelFittingIterativeTask F) :
    ParameterMap F :=
  task.m_parameters.foldl (fun dummy_values parameter =>
    dummy_values.insert parameter.id ops.quiet_NaN) ParameterMap.empty

def setDummyProperty (ops : FloatOps F) (task : FlexibleModelFittingIterativeTask F)
    (source : Source F) (flags : Flags) : Source F :=
  let dummy_values := dummyValues ops task
  { source with
    modelFitting := some ⟨0, 0, ops.quiet_NaN, flags, dummy_values, dummy_values⟩ }

/-- Returns the sum of the weighted squared residuals and, for the reference argument
`data_points`, the number of pixels with a weight above zero. -/
def computeChiSquaredForFrame (ops : FloatOps F) (image model weights : VectorImage F) :
    F × Int :=
  forPixels image.width image.height (fun x y (acc : F × Int) =>
    let tmp := ops.sub (image.pixel x y) (model.pixel x y)
    let reduced_chi_squared := ops.add acc.1
      (ops.mul (ops.mul (ops.mul tmp tmp) (weights.pixel x y)) (weights.pixel x y))
    if ops.gt (weights.pixel x y) ops.zero then
      (reduced_chi_squared, acc.2 + 1)
    else
      (reduced_chi_squared, acc.2)) (ops.zero, 0)

/-- The loop of `computeChiSquared` over `m_frames`, on `manager`, `total_chi_squared` and
`total_data_points`. -/
def computeChiSquaredFrames (ops : FloatOps F) (C : Collaborators F M) (source : Source F)
    (pixel_scale : F) : List FlexibleModelFittingFrame → M → F → Int → M × F × Int
  | [], manager, total_chi_squared, total_data_points =>
    (manager, total_chi_squared, total_data_points)
  | frame :: rest, manager, total_chi_squared, total_data_points =>
    let frame_index := frame.frameNb
    if isFrameValid source frame_index then
      let stamp_rect := getFittingRect source frame_index
      let manager2 := C.createFrameModel manager source pixel_scale frame stamp_rect
      let final_stamp : VectorImage F :=
        ⟨stamp_rect.width, stamp_rect.height,
          C.getImage manager2 source pixel_scale frame stamp_rect⟩
      let image := createImageCopy source frame_index
      let weight := createWeightImage ops source frame_index
      let r := computeChiSquaredForFrame ops image final_stamp weight
      computeChiSquaredFrames ops C source pixel_scale rest manager2
        (ops.add total_chi_squared r.1) (total_data_points + r.2)
    else
      computeChiSquaredFrames ops C source pixel_scale rest manager total_chi_squared
        total_data_points

/-- Returns the manager after the calls, the total chi squared and `total_data_points`. -/
def computeChiSquared (ops : FloatOps F) (task : FlexibleModelFittingIterativeTask F)
    (C : Collaborators F M) (source : Source F) (pixel_scale : F) (manager : M) :
    M × F × Int :=
  computeChiSquaredFrames ops C source pixel_scale task.m_frames manager ops.zero 0

/-- The loop of `fitSource` that counts `nb_of_free_parameters` (lines 367-374). -/
def countAccessedFreeParameters (C : Collaborators F M) (source : Source F) (manager : M)
    (parameters : List (FlexibleModelFittingParameter F)) : Int :=
  parameters.foldl (fun nb_of_free_parameters parameter =>
    let is_free_parameter := decide (parameter.kind = ParameterKind.Free)
    let accessed_by_modelfitting := C.isParamAccessed manager source parameter
    if is_free_parameter && accessed_by_modelfitting then nb_of_free_parameters + 1
    else nb_of_free_parameters) 0

/-- The loop of `fitSource` that collects the parameters for output (lines 382-403);
`previous` is `state.source_states[index]`. -/
def collectParameters (ops : FloatOps F) (C : Collaborators F M) (source : Source F)
    (previous : SourceState F) (solution_sigmas : List F) :
    List (FlexibleModelFittingParameter F) → M → ParameterMap F → ParameterMap F →
      M × ParameterMap F × ParameterMap F
  | [], manager, parameter_values, parameter_sigmas =>
    (manager, parameter_values, parameter_sigmas)
  | parameter :: rest, manager, parameter_values, parameter_sigmas =>
    let is_dependent_parameter := decide (parameter.kind = ParameterKind.Dependent)
    let accessed_by_modelfitting := C.isParamAccessed manager source parameter
    let manager2 := C.getParameter manager source parameter
    if is_dependent_parameter || accessed_by_modelfitting then
      let value := C.getValue manager2 source parameter
      let r := C.getSigma manager2 source parameter solution_sigmas
      collectParameters ops C source previous solution_sigmas rest r.2
        (parameter_values.insert parameter.id value) (parameter_sigmas.insert parameter.id r.1)
    else
      collectParameters ops C source previous solution_sigmas rest manager2
        (parameter_values.insert parameter.id
          (previous.parameters_values.index ops parameter.id))
        (parameter_sigmas.insert parameter.id
          (previous.parameters_sigmas.index ops parameter.id))

/-- The loop of `fitSource` over `m_priors` (lines 344-346). -/
def setupPriors (C : Collaborators F M) (source : Source F) :
    List Nat → M → ResidualEstimator F → M × ResidualEstimator F
  | [], manager, res_estimator => (manager, res_estimator)
  | prior :: rest, manager, res_estimator =>
    let r := C.setupPrior prior manager source res_estimator
    setupPriors C source rest r.1 r.2

structure FitSourceResult (F : Type) where
  /-- The source, after a possible `setProperty`. -/
  source : Source F
  state : FittingState F
  log : List Event

/-- The first part of `fitSource` (lines 254-325): the parameters are bound, the access checks
are reset and the frames are added.  Returns `n_free_parameters`, the manager, `valid_frames`,
`n_good_pixels` and `res_estimator`. -/
def fitSourcePrepare (ops : FloatOps F) (task : FlexibleModelFittingIterativeTask F)
    (C : Collaborators F M) (group : List (Source F)) (source : Source F) (index : Nat)
    (state : FittingState F) : Option (Int × M × Int × Int × ResidualEstimator F) :=
  let pixel_scale := ops.div ops.one task.m_scale_factor
  -- Prepare parameters
  let current_values : ParameterMap F := fun id =>
    (state.source_states[index]?).bind (fun source_state => source_state.parameters_values id)
  match addParameters C source current_values task.m_parameters C.newManager 0 with
  | none => none
  | some (manager0, n_free_parameters) =>
    -- Reset access checks, as a dependent parameter could have triggered it
    let manager1 := C.clearAccessCheck manager0
    -- Add models for all frames
    match fitSourceFrames ops task C group source index state pixel_scale task.m_frames
        manager1 0 0 [] with
    | none => none
    | some r => some (n_free_parameters, r)

/-- The manager after the priors are added and the problem is solved (lines 344-352), with the
solution. -/
def fitSourceSolve (task : FlexibleModelFittingIterativeTask F) (C : Collaborators F M)
    (source : Source F) (manager : M) (res_estimator : ResidualEstimator F) :
    LeastSquareSummary F × M :=
  -- Add priors
  let r := setupPriors C source task.m_priors manager res_estimator
  -- Model fitting
  C.solveProblem task.m_least_squares_engine task.m_max_iterations r.1 r.2

def fitSource (ops : FloatOps F) (task : FlexibleModelFittingIterativeTask F)
    (C : Collaborators F M) (group : List (Source F)) (source : Source F) (index : Nat)
    (state : FittingState F) : Option (FitSourceResult F) :=
  let pixel_scale := ops.div ops.one task.m_scale_factor
  match fitSourcePrepare ops task C group source index state with
  | none => none
  | some (n_free_parameters, manager2, valid_frames, n_good_pixels, res_estimator) =>
    -- Check that we had enough data for the fit
    let group_flags :=
      if valid_frames = 0 then Flags.OUTSIDE
      else if n_good_pixels < n_free_parameters then Flags.INSUFFICIENT_DATA
      else Flags.NONE
    if group_flags ≠ Flags.NONE then
      some ⟨setDummyProperty ops task source group_flags, state, []⟩
    else
      let solved := fitSourceSolve task C source manager2 res_estimator
      let solution := solved.1
      let iterations := solution.iteration_no
      let stop_reason := solution.engine_stop_reason
      let group_flags2 :=
        if solution.status_flag = StatusFlag.ERROR then group_flags.or Flags.ERROR
        else group_flags
      -- compute chi squared
      let chi := computeChiSquared ops task C source pixel_scale solved.2
      let manager3 := chi.1
      let total_data_points := chi.2.2
      let nb_of_free_parameters :=
        countAccessedFreeParameters C source manager3 task.m_parameters
      let avg_reduced_chi_squared :=
        ops.div chi.2.1 (ops.ofInt (total_data_points - nb_of_free_parameters))
      -- Collect parameters for output; `source_flags` is not read afterwards
      let _source_flags := group_flags2
      match state.source_states[index]? with
      | none => none
      | some previous =>
        let collected := collectParameters ops C source previous solution.parameter_sigmas
          task.m_parameters manager3 ParameterMap.empty ParameterMap.empty
        let source_state : SourceState F :=
          { iterations := iterations
            stop_reason := stop_reason
            reduced_chi_squared := avg_reduced_chi_squared
            parameters_values := collected.2.1
            parameters_sigmas := collected.2.2 }
        some ⟨source, ⟨state.source_states.set index source_state⟩,
          [Event.engineCreate task.m_least_squares_engine task.m_max_iterations,
           Event.solveProblem]⟩

/-- The first loop of `computeProperties` (lines 154-169): the initial state of one source. -/
def initialSourceState (ops : FloatOps F) (task : FlexibleModelFittingIterativeTask F)
    (source : Source F) : SourceState F :=
  { iterations := 0
    stop_reason := 0
    reduced_chi_squared := ops.zero
    parameters_values := task.m_parameters.foldl (fun values parameter =>
      if parameter.kind = ParameterKind.Free then
        values.insert parameter.id (parameter.getInitialValue source)
      else
        values.insert parameter.id ops.zero) ParameterMap.empty
    parameters_sigmas := ParameterMap.empty }

def initialFittingState (ops : FloatOps F) (task : FlexibleModelFittingIterativeTask F)
    (group : List (Source F)) : FittingState F :=
  ⟨group.map (initialSourceState ops task)⟩

/-- One round (lines 172-176): `fitSource` for the sources at `index`, `index + 1`, ... of the
group; `remaining` is the number of sources still to visit.  A source is modified in place, so
the group seen by the next call holds the modified source. -/
def fitRound (ops : FloatOps F) (task : FlexibleModelFittingIterativeTask F)
    (C : Collaborators F M) :
    Nat → Nat → List (Source F) → FittingState F → List Event →
      Option (List (Source F) × FittingState F × List Event)
  | 0, _, group, state, log => some (group, state, log)
  | remaining + 1, index, group, state, log =>
    match group[index]? with
    | none => none
    | some source =>
      match fitSource ops task C group source index state with
      | none => none
      | some r =>
        fitRound ops task C remaining (index + 1) (group.set index r.source) r.state
          (log ++ Event.fitSource index :: r.log)

/-- The loop `for (int iteration = 0; iteration < 3; iteration++)` (lines 171-177), counted
down from the number of rounds left. -/
def fitRounds (ops : FloatOps F) (task : FlexibleModelFittingIterativeTask F)
    (C : Collaborators F M) :
    Nat → List (Source F) → FittingState F → List Event →
      Option (List (Source F) × FittingState F × List Event)
  | 0, group, state, log => some (group, state, log)
  | rounds + 1, group, state, log =>
    match fitRound ops task C group.length 0 group state log with
    | none => none
    | some (group2, state2, log2) => fitRounds ops task C rounds group2 state2 log2

/-- The last loop of `computeProperties` (lines 179-188), from position `index` on. -/
def setProperties (state : FittingState F) : List (Source F) → Nat → Option (List (Source F))
  | [], _ => some []
  | source :: rest, index =>
    match state.source_states[index]? with
    | none => none
    | some source_state =>
      match setProperties state rest (index + 1) with
      | none => none
      | some rest2 =>
        some ({ source with
                modelFitting := some ⟨source_state.iterations, source_state.stop_reason,
                  source_state.reduced_chi_squared, Flags.NONE,
                  source_state.parameters_values, source_state.parameters_sigmas⟩ } :: rest2)

/-- Returns the group with the properties set and the log of the calls made. -/
def computeProperties (ops : FloatOps F) (task : FlexibleModelFittingIterativeTask F)
    (C : Collaborators F M) (group : List (Source F)) :
    Option (List (Source F) × List Event) :=
  let fitting_state := initialFittingState ops task group
  match fitRounds ops task C 3 group fitting_state [] with
  | none => none
  | some (group2, fitting_state2, log) =>
    match setProperties fitting_state2 group2 0 with
    | none => none
    | some group3 => some (group3, log)

/-! ## Quantities the claims speak of -/

/-- The frames of the task that are valid for the source. -/
def validFrames (task : FlexibleModelFittingIterativeTask F) (source : Source F) :
    List FlexibleModelFittingFrame :=
  task.m_frames.filter (fun frame => isFrameValid source frame.frameNb)

/-- The number of pixels of an image whose value satisfies `p`. -/
def pixelCount (image : VectorImage F) (p : F → Bool) : Nat :=
  ((List.range image.height.toNat).map (fun y =>
    (List.range image.width.toNat).countP (fun x => p (image.pixel (Int.ofNat x) (Int.ofNat y))))).sum

/-- The number of usable pixels of a source: pixels of non-zero weight, over the valid frames. -/
def usablePixels (ops : FloatOps F) (task : FlexibleModelFittingIterativeTask F)
    (source : Source F) : Nat :=
  ((validFrames task source).map (fun frame =>
    pixelCount (createWeightImage ops source frame.frameNb) (fun w => ops.ne w ops.zero))).sum

/-- The number of data points of a source: pixels of weight above zero, over the valid frames. -/
def dataPoints (ops : FloatOps F) (task : FlexibleModelFittingIterativeTask F)
    (source : Source F) : Nat :=
  ((validFrames task source).map (fun frame =>
    pixelCount (createWeightImage ops source frame.frameNb) (fun w => ops.gt w ops.zero))).sum

/-- The declared free parameters. -/
def freeParameters (task : FlexibleModelFittingIterativeTask F) :
    List (FlexibleModelFittingParameter F) :=
  task.m_parameters.filter (fun parameter => decide (parameter.kind = ParameterKind.Free))

/-- The free parameters that the manager reports as accessed for the source. -/
def accessedFreeParameters (task : FlexibleModelFittingIterativeTask F) (C : Collaborators F M)
    (source : Source F) (manager : M) : List (FlexibleModelFittingParameter F) :=
  task.m_parameters.filter (fun parameter =>
    decide (parameter.kind = ParameterKind.Free) && C.isParamAccessed manager source parameter)

/-- The pre-solve checks of `fitSource` pass: a frame is valid and the usable pixels are not
fewer than the declared free parameters. -/
def passesChecks (ops : FloatOps F) (task : FlexibleModelFittingIterativeTask F)
    (source : Source F) : Prop :=
  validFrames task source ≠ [] ∧ (freeParameters task).length ≤ usablePixels ops task source

instance (ops : FloatOps F) (task : FlexibleModelFittingIterativeTask F) (source : Source F) :
    Decidable (passesChecks ops task source) := by
  unfold passesChecks
  exact inferInstance

/-- The state has one entry per source of a group of `n` sources and every entry holds a value
for every declared free parameter. -/
def StateCovers (task : FlexibleModelFittingIterativeTask F) (state : FittingState F)
    (n : Nat) : Prop :=
  state.source_states.length = n ∧
    ∀ source_state ∈ state.source_states, ∀ parameter ∈ task.m_parameters,
      parameter.kind = ParameterKind.Free →
        (source_state.parameters_values parameter.id).isSome = true

/-! ## Loops -/

theorem foldl_add_map {α : Type} (g : α → Int) (l : List α) (a : Int) :
    l.foldl (fun acc i => acc + g i) a = a + (l.map g).sum := by
  induction l generalizing a with
  | nil => simp
  | cons x xs ih => simp [ih, add_assoc]

theorem sum_indicator_eq_countP {α : Type} (p : α → Bool) (l : List α) :
    (l.map (fun x => if p x then (1 : Int) else 0)).sum = ((l.countP p : Nat) : Int) := by
  induction l with
  | nil => simp
  | cons x xs ih =>
    by_cases h : p x = true
    · simp [h, ih, add_comm]
    · simp [h, ih]

theorem sum_map_natCast {α : Type} (f : α → Nat) (l : List α) :
    (l.map (fun i => ((f i : Nat) : Int))).sum = (((l.map f).sum : Nat) : Int) := by
  induction l with
  | nil => simp
  | cons x xs ih =>
    simp only [List.map_cons, List.sum_cons, Nat.cast_add, ih]

theorem forRange_add {g : Int → Int} (n : Int) (a : Int) :
    forRange n (fun i acc => acc + g i) a
      = a + ((List.range n.toNat).map (fun i => g (Int.ofNat i))).sum := by
  unfold forRange
  exact foldl_add_map (fun i => g (Int.ofNat i)) _ a

/-- The counting loops of `fitSource` add the number of pixels that satisfy the test. -/
theorem forPixels_count (image : VectorImage F) (p : F → Bool) (a : Int) :
    forPixels image.width image.height
        (fun x y n => n + (if p (image.pixel x y) then 1 else 0)) a
      = a + (pixelCount image p : Int) := by
  unfold forPixels
  have inner : ∀ (y : Int) (acc : Int),
      forRange image.width (fun x acc2 => acc2 + (if p (image.pixel x y) then 1 else 0)) acc
        = acc + (((List.range image.width.toNat).countP
            (fun x => p (image.pixel (Int.ofNat x) y)) : Nat) : Int) := by
    intro y acc
    rw [forRange_add, sum_indicator_eq_countP (fun x : Nat => p (image.pixel (Int.ofNat x) y))]
  simp only [inner]
  rw [forRange_add]
  unfold pixelCount
  congr 1
  exact sum_map_natCast _ _

/-! ## Binding the parameters never fails on a covering state -/

theorem addParameters_some (C : Collaborators F M) (src : Source F) (values : ParameterMap F)
    (parameters : List (FlexibleModelFittingParameter F))
    (h : ∀ parameter ∈ parameters, parameter.kind = ParameterKind.Free →
      (values parameter.id).isSome = true) (manager : M) (n : Int) :
    ∃ manager2, addParameters C src values parameters manager n
      = some (manager2, n + ((parameters.filter
          (fun parameter => decide (parameter.kind = ParameterKind.Free))).length : Int)) := by
  induction parameters generalizing manager n with
  | nil => exact ⟨manager, by simp [addParameters]⟩
  | cons q qs ih =>
    have hq := h q (List.mem_cons_self q qs)
    have hqs : ∀ parameter ∈ qs, parameter.kind = ParameterKind.Free →
        (values parameter.id).isSome = true :=
      fun x hx => h x (List.mem_cons_of_mem q hx)
    by_cases hk : q.kind = ParameterKind.Free
    · obtain ⟨v, hv⟩ := Option.isSome_iff_exists.mp (hq hk)
      obtain ⟨m2, hm2⟩ := ih hqs (C.addFreeParameter manager src q v) (n + 1)
      refine ⟨m2, ?_⟩
      simp only [addParameters, hk, if_true, hv, hm2, List.filter_cons, decide_True,
        List.length_cons, Nat.cast_add, Nat.cast_one]
      congr 2
      ring
    · obtain ⟨m2, hm2⟩ := ih hqs (C.addParameter manager src q) n
      refine ⟨m2, ?_⟩
      simp [addParameters, hk, hm2, List.filter_cons]

theorem deblendParameters_some (task : FlexibleModelFittingIterativeTask F)
    (C : Collaborators F M) (state : FittingState F) (n : Nat) (hc : StateCovers task state n)
    (sources : List (Source F)) (manager : M) (n_free : Int) (index : Nat)
    (hlen : index + sources.length ≤ n) :
    ∃ manager2 n_free2, deblendParameters task C state sources manager n_free index
      = some (manager2, n_free2, index + sources.length) := by
  induction sources generalizing manager n_free index with
  | nil => exact ⟨manager, n_free, by simp [deblendParameters]⟩
  | cons src rest ih =>
    have hlt : index < state.source_states.length := by
      rw [hc.1]
      simp only [List.length_cons] at hlen
      omega
    have hget : state.source_states[index]? = some (state.source_states[index]) :=
      List.getElem?_eq_getElem hlt
    have hmem : state.source_states[index] ∈ state.source_states := List.getElem_mem hlt
    obtain ⟨m2, hm2⟩ := addParameters_some C src (state.source_states[index]).parameters_values
      task.m_parameters (hc.2 _ hmem) manager n_free
    have hlen2 : index + 1 + rest.length ≤ n := by
      simp only [List.length_cons] at hlen
      omega
    obtain ⟨m3, n3, h3⟩ := ih m2 (n_free + ((task.m_parameters.filter
      (fun parameter => decide (parameter.kind = ParameterKind.Free))).length : Int))
      (index + 1) hlen2
    refine ⟨m3, n3, ?_⟩
    simp only [deblendParameters, hget, hm2, h3, List.length_cons]
    rw [show index + 1 + rest.length = index + (rest.length + 1) by omega]

theorem createDeblendImage_some (ops : FloatOps F) (task : FlexibleModelFittingIterativeTask F)
    (C : Collaborators F M) (group : List (Source F)) (state : FittingState F)
    (hc : StateCovers task state group.length) (source : Source F) (source_index : Nat)
    (frame : FlexibleModelFittingFrame) :
    ∃ manager, createDeblendImage ops task C group source source_index frame state
      = some (deblendAccumulate ops C (ops.div ops.one task.m_scale_factor) frame
          (getFittingRect source frame.frameNb) group.length source_index group manager
          (VectorImage.create ops (getFittingRect source frame.frameNb).width
            (getFittingRect source frame.frameNb).height)) := by
  obtain ⟨m, n, h⟩ := deblendParameters_some task C state group.length hc group C.newManager 0 0
    (by omega)
  refine ⟨m, ?_⟩
  simp only [createDeblendImage, h, Nat.zero_add]

/-- The loop over the frames counts the valid frames and the usable pixels. -/
theorem fitSourceFrames_some (ops : FloatOps F) (task : FlexibleModelFittingIterativeTask F)
    (C : Collaborators F M) (group : List (Source F)) (state : FittingState F)
    (hc : StateCovers task state group.length) (source : Source F) (index : Nat)
    (pixel_scale : F) (frames : List FlexibleModelFittingFrame) (manager : M)
    (valid_frames n_good_pixels : Int) (res_estimator : ResidualEstimator F) :
    ∃ manager2 res_estimator2,
      fitSourceFrames ops task C group source index state pixel_scale frames manager
          valid_frames n_good_pixels res_estimator
        = some (manager2,
            valid_frames + ((frames.filter
              (fun frame => isFrameValid source frame.frameNb)).length : Int),
            n_good_pixels + ((((frames.filter
              (fun frame => isFrameValid source frame.frameNb)).map (fun frame =>
                pixelCount (createWeightImage ops source frame.frameNb)
                  (fun w => ops.ne w ops.zero))).sum : Nat) : Int),
            res_estimator2) := by
  induction frames generalizing manager valid_frames n_good_pixels res_estimator with
  | nil => exact ⟨manager, res_estimator, by simp [fitSourceFrames]⟩
  | cons frame rest ih =>
    by_cases hv : isFrameValid source frame.frameNb = true
    · obtain ⟨md, hd⟩ := createDeblendImage_some ops task C group state hc source index frame
      simp only [fitSourceFrames, hv, if_true, hd, List.filter_cons]
      rw [forPixels_count (createWeightImage ops source frame.frameNb)
        (fun w => ops.ne w ops.zero) n_good_pixels]
      obtain ⟨m2, r2, h2⟩ := ih
        (C.createFrameModel manager source pixel_scale frame (getFittingRect source frame.frameNb))
        (valid_frames + 1)
        (n_good_pixels + (pixelCount (createWeightImage ops source frame.frameNb)
          (fun w => ops.ne w ops.zero) : Int))
        (res_estimator ++ [ResidualBlock.dataVsModel
          (forPixels (createImageCopy source frame.frameNb).width
            (createImageCopy source frame.frameNb).height
            (fun x y img => img.setValue x y (ops.sub (img.pixel x y)
              ((deblendAccumulate ops C (ops.div ops.one task.m_scale_factor) frame
                (getFittingRect source frame.frameNb) group.length index group md
                (VectorImage.create ops (getFittingRect source frame.frameNb).width
                  (getFittingRect source frame.frameNb).height)).pixel x y)))
            (createImageCopy source frame.frameNb))
          frame (getFittingRect source frame.frameNb)
          (createWeightImage ops source frame.frameNb) task.m_modified_chi_squared_scale])
      refine ⟨m2, r2, ?_⟩
      rw [h2]
      simp only [List.length_cons, List.map_cons, List.sum_cons, Nat.cast_add, Nat.cast_one]
      congr 3
      · ring
      · congr 1
        ring
    · obtain ⟨m2, r2, h2⟩ := ih manager valid_frames n_good_pixels res_estimator
      refine ⟨m2, r2, ?_⟩
      simp only [fitSourceFrames, hv, List.filter_cons]
      simpa using h2

/-! ## What `fitSource` does on a covering state -/

theorem fitSourcePrepare_some (ops : FloatOps F) (task : FlexibleModelFittingIterativeTask F)
    (C : Collaborators F M) (group : List (Source F)) (state : FittingState F)
    (hc : StateCovers task state group.length) (source : Source F) (index : Nat)
    (hi : index < group.length) :
    ∃ manager res_estimator,
      fitSourcePrepare ops task C group source index state
        = some (((freeParameters task).length : Int), manager,
            (((validFrames task source).length : Nat) : Int),
            ((usablePixels ops task source : Nat) : Int), res_estimator) := by
  have hlt : index < state.source_states.length := by rw [hc.1]; exact hi
  have hget : state.source_states[index]? = some (state.source_states[index]) :=
    List.getElem?_eq_getElem hlt
  have hmem : state.source_states[index] ∈ state.source_states := List.getElem_mem hlt
  obtain ⟨m0, hm0⟩ := addParameters_some C source
    (fun id => (state.source_states[index]?).bind
      (fun source_state => source_state.parameters_values id))
    task.m_parameters
    (by
      intro q hq hk
      simp only [hget, Option.some_bind]
      exact hc.2 _ hmem q hq hk)
    C.newManager 0
  obtain ⟨m2, r2, h2⟩ := fitSourceFrames_some ops task C group state hc source index
    (ops.div ops.one task.m_scale_factor) task.m_frames (C.clearAccessCheck m0) 0 0 []
  refine ⟨m2, r2, ?_⟩
  simp only [fitSourcePrepare, hm0, h2, zero_add, freeParameters, validFrames, usablePixels]

/-- A call that does not pass the checks sets the dummy property and does nothing else. -/
theorem fitSource_of_not_passesChecks (ops : FloatOps F)
    (task : FlexibleModelFittingIterativeTask F) (C : Collaborators F M)
    (group : List (Source F)) (state : FittingState F)
    (hc : StateCovers task state group.length) (source : Source F) (index : Nat)
    (hi : index < group.length) (h : ¬ passesChecks ops task source) :
    fitSource ops task C group source index state
      = some ⟨setDummyProperty ops task source
          (if validFrames task source = [] then Flags.OUTSIDE else Flags.INSUFFICIENT_DATA),
          state, []⟩ := by
  obtain ⟨m, r, hp⟩ := fitSourcePrepare_some ops task C group state hc source index hi
  simp only [fitSource, hp]
  by_cases hv : validFrames task source = []
  · simp [hv, Flags.OUTSIDE, Flags.NONE]
  · have hlt : usablePixels ops task source < (freeParameters task).length := by
      unfold passesChecks at h
      by_contra hcon
      exact h ⟨hv, by omega⟩
    have hne : (((validFrames task source).length : Nat) : Int) ≠ 0 := by
      simpa using hv
    have hlt2 : ((usablePixels ops task source : Nat) : Int)
        < (((freeParameters task).length : Nat) : Int) := by exact_mod_cast hlt
    simp [hv, hne, hlt2, Flags.INSUFFICIENT_DATA, Flags.NONE]

/-- A call that passes the checks creates an engine, solves, and stores the new source state;
the property of the source is left alone. -/
theorem fitSource_of_passesChecks (ops : FloatOps F)
    (task : FlexibleModelFittingIterativeTask F) (C : Collaborators F M)
    (group : List (Source F)) (state : FittingState F)
    (hc : StateCovers task state group.length) (source : Source F) (index : Nat)
    (hi : index < group.length) (h : passesChecks ops task source) :
    ∃ manager res_estimator previous,
      fitSourcePrepare ops task C group source index state
        = some (((freeParameters task).length : Int), manager,
            (((validFrames task source).length : Nat) : Int),
            ((usablePixels ops task source : Nat) : Int), res_estimator) ∧
      state.source_states[index]? = some previous ∧
      fitSource ops task C group source index state
        = some ⟨source,
            ⟨state.source_states.set index
              { iterations := (fitSourceSolve task C source manager res_estimator).1.iteration_no
                stop_reason :=
                  (fitSourceSolve task C source manager res_estimator).1.engine_stop_reason
                reduced_chi_squared :=
                  ops.div
                    (computeChiSquared ops task C source (ops.div ops.one task.m_scale_factor)
                      (fitSourceSolve task C source manager res_estimator).2).2.1
                    (ops.ofInt
                      ((computeChiSquared ops task C source
                          (ops.div ops.one task.m_scale_factor)
                          (fitSourceSolve task C source manager res_estimator).2).2.2
                        - countAccessedFreeParameters C source
                            (computeChiSquared ops task C source
                              (ops.div ops.one task.m_scale_factor)
                              (fitSourceSolve task C source manager res_estimator).2).1
                            task.m_parameters))
                parameters_values :=
                  (collectParameters ops C source previous
                    (fitSourceSolve task C source manager res_estimator).1.parameter_sigmas
                    task.m_parameters
                    (computeChiSquared ops task C source (ops.div ops.one task.m_scale_factor)
                      (fitSourceSolve task C source manager res_estimator).2).1
                    ParameterMap.empty ParameterMap.empty).2.1
                parameters_sigmas :=
                  (collectParameters ops C source previous
                    (fitSourceSolve task C source manager res_estimator).1.parameter_sigmas
                    task.m_parameters
                    (computeChiSquared ops task C source (ops.div ops.one task.m_scale_factor)
                      (fitSourceSolve task C source manager res_estimator).2).1
                    ParameterMap.empty ParameterMap.empty).2.2 }⟩,
            [Event.engineCreate task.m_least_squares_engine task.m_max_iterations,
             Event.solveProblem]⟩ := by
  obtain ⟨m, r, hp⟩ := fitSourcePrepare_some ops task C group state hc source index hi
  have hlt : index < state.source_states.length := by rw [hc.1]; exact hi
  have hget : state.source_states[index]? = some (state.source_states[index]) :=
    List.getElem?_eq_getElem hlt
  refine ⟨m, r, state.source_states[index], hp, hget, ?_⟩
  have hne : (((validFrames task source).length : Nat) : Int) ≠ 0 := by
    simpa using h.1
  have hge : ¬ ((usablePixels ops task source : Nat) : Int)
      < (((freeParameters task).length : Nat) : Int) := by
    have := h.2
    omega
  simp only [fitSource, hp, hget]
  simp [hne, hge, Flags.NONE]

/-! ## The state keeps covering the group -/

/-- The indices with which `fitSource` was called, in the order of the calls. -/
def fitSourceCalls (log : List Event) : List Nat :=
  log.filterMap (fun event =>
    match event with
    | Event.fitSource index => some index
    | _ => none)

theorem collectParameters_isSome (ops : FloatOps F) (C : Collaborators F M) (source : Source F)
    (previous : SourceState F) (sigmas : List F)
    (parameters : List (FlexibleModelFittingParameter F)) (manager : M)
    (values sigma_map : ParameterMap F) (key : Int)
    (h : (values key).isSome = true ∨ ∃ parameter ∈ parameters, parameter.id = key) :
    ((collectParameters ops C source previous sigmas parameters manager values
      sigma_map).2.1 key).isSome = true := by
  induction parameters generalizing manager values sigma_map with
  | nil =>
    rcases h with h | ⟨q, hq, _⟩
    · simpa [collectParameters] using h
    · cases hq
  | cons q qs ih =>
    have step : ∀ (v : F), ((values.insert q.id v) key).isSome = true ∨
        ∃ parameter ∈ qs, parameter.id = key := by
      intro v
      rcases h with h | ⟨x, hx, hxk⟩
      · left
        unfold ParameterMap.insert
        split <;> simp [h]
      · rcases List.mem_cons.mp hx with rfl | hx2
        · left
          simp [ParameterMap.insert, hxk]
        · exact Or.inr ⟨x, hx2, hxk⟩
    unfold collectParameters
    dsimp only
    split
    · exact ih _ _ _ (step _)
    · exact ih _ _ _ (step _)

theorem initialSourceState_isSome (ops : FloatOps F)
    (task : FlexibleModelFittingIterativeTask F) (source : Source F)
    (parameter : FlexibleModelFittingParameter F) (hp : parameter ∈ task.m_parameters) :
    ((initialSourceState ops task source).parameters_values parameter.id).isSome = true := by
  have gen : ∀ (parameters : List (FlexibleModelFittingParameter F)) (values : ParameterMap F)
      (key : Int),
      ((values key).isSome = true ∨ ∃ q ∈ parameters, q.id = key) →
      ((parameters.foldl (fun values parameter =>
        if parameter.kind = ParameterKind.Free then
          values.insert parameter.id (parameter.getInitialValue source)
        else
          values.insert parameter.id ops.zero) values) key).isSome = true := by
    intro parameters
    induction parameters with
    | nil =>
      intro values key h
      rcases h with h | ⟨q, hq, _⟩
      · simpa using h
      · cases hq
    | cons q qs ih =>
      intro values key h
      simp only [List.foldl_cons]
      apply ih
      rcases h with h | ⟨x, hx, hxk⟩
      · left
        split <;> (unfold ParameterMap.insert; split <;> simp [h])
      · rcases List.mem_cons.mp hx with rfl | hx2
        · left
          split <;> simp [ParameterMap.insert, hxk]
        · exact Or.inr ⟨x, hx2, hxk⟩
  exact gen task.m_parameters ParameterMap.empty parameter.id (Or.inr ⟨parameter, hp, rfl⟩)

theorem initialFittingState_covers (ops : FloatOps F)
    (task : FlexibleModelFittingIterativeTask F) (group : List (Source F)) :
    StateCovers task (initialFittingState ops task group) group.length := by
  refine ⟨by simp [initialFittingState], ?_⟩
  intro source_state hs parameter hp _
  simp only [initialFittingState, List.mem_map] at hs
  obtain ⟨source, _, rfl⟩ := hs
  exact initialSourceState_isSome ops task source parameter hp

/-- On a covering state `fitSource` returns, logs no call of `fitSource`, and leaves a covering
state. -/
theorem fitSource_covers (ops : FloatOps F) (task : FlexibleModelFittingIterativeTask F)
    (C : Collaborators F M) (group : List (Source F)) (state : FittingState F)
    (hc : StateCovers task state group.length) (source : Source F) (index : Nat)
    (hi : index < group.length) :
    ∃ r, fitSource ops task C group source index state = some r ∧
      StateCovers task r.state group.length ∧ fitSourceCalls r.log = [] := by
  by_cases h : passesChecks ops task source
  · obtain ⟨m, res, previous, _, _, hf⟩ :=
      fitSource_of_passesChecks ops task C group state hc source index hi h
    refine ⟨_, hf, ⟨?_, ?_⟩, by simp [fitSourceCalls]⟩
    · simp [hc.1]
    · intro source_state hs parameter hp hk
      rcases List.mem_or_eq_of_mem_set hs with hs2 | rfl
      · exact hc.2 source_state hs2 parameter hp hk
      · exact collectParameters_isSome ops C source previous _ task.m_parameters _ _ _ _
          (Or.inr ⟨parameter, hp, rfl⟩)
  · exact ⟨_, fitSource_of_not_passesChecks ops task C group state hc source index hi h, hc,
      by simp [fitSourceCalls]⟩

theorem setProperties_some (state : FittingState F) (sources : List (Source F)) (index : Nat)
    (h : index + sources.length ≤ state.source_states.length) :
    ∃ sources2, setProperties state sources index = some sources2 ∧
      sources2.length = sources.length := by
  induction sources generalizing index with
  | nil => exact ⟨[], by simp [setProperties], rfl⟩
  | cons src rest ih =>
    simp only [List.length_cons] at h
    have hlt : index < state.source_states.length := by omega
    have hget : state.source_states[index]? = some (state.source_states[index]) :=
      List.getElem?_eq_getElem hlt
    obtain ⟨r2, hr2, hl2⟩ := ih (index + 1) (by omega)
    simp only [setProperties, hget, hr2]
    exact ⟨_, rfl, by simp [hl2]⟩

/-! ## The dummy property -/

theorem foldl_insert_const (value : F) (parameters : List (FlexibleModelFittingParameter F))
    (values : ParameterMap F) (key : Int) :
    (parameters.foldl (fun dummy_values parameter =>
        dummy_values.insert parameter.id value) values) key
      = if key ∈ parameters.map (fun parameter => parameter.id) then some value
        else values key := by
  induction parameters generalizing values with
  | nil => simp
  | cons q qs ih =>
    simp only [List.foldl_cons, ih, List.map_cons, List.mem_cons]
    by_cases h1 : key ∈ qs.map (fun parameter => parameter.id)
    · simp [h1]
    · by_cases h2 : key = q.id
      · simp [h1, h2, ParameterMap.insert]
      · simp [h1, h2, ParameterMap.insert]

/-- The keys of the dummy map are the declared ids, each mapped to NaN. -/
theorem dummyValues_apply (ops : FloatOps F) (task : FlexibleModelFittingIterativeTask F)
    (key : Int) :
    dummyValues ops task key
      = if key ∈ task.m_parameters.map (fun parameter => parameter.id)
        then some ops.quiet_NaN else none := by
  unfold dummyValues
  rw [foldl_insert_const]
  rfl

/-! ## The reduced chi squared -/

theorem foldl_invariant {α σ : Type} (P : σ → Prop) (body : σ → α → σ)
    (h : ∀ s a, P s → P (body s a)) (l : List α) (s : σ) (hs : P s) : P (l.foldl body s) := by
  induction l generalizing s with
  | nil => exact hs
  | cons a as ih => exact ih (body s a) (h s a hs)

theorem forPixels_invariant {σ : Type} (P : σ → Prop) (width height : Int)
    (body : Int → Int → σ → σ) (h : ∀ x y s, P s → P (body x y s)) (s : σ) (hs : P s) :
    P (forPixels width height body s) := by
  unfold forPixels forRange
  apply foldl_invariant P _ _ _ s hs
  intro s2 y hs2
  exact foldl_invariant P _ (fun s3 x hs3 => h _ _ s3 hs3) _ s2 hs2

/-- The weight image has the size of the fitting rectangle. -/
theorem createWeightImage_size (ops : FloatOps F) (source : Source F) (frame_index : Int) :
    (createWeightImage ops source frame_index).width = (getFittingRect source frame_index).width ∧
    (createWeightImage ops source frame_index).height
      = (getFittingRect source frame_index).height := by
  unfold createWeightImage
  apply forPixels_invariant
    (fun image : VectorImage F => image.width = (getFittingRect source frame_index).width ∧
      image.height = (getFittingRect source frame_index).height)
  · intro x y image himage
    dsimp only
    split
    · exact himage
    · split
      · exact himage
      · exact himage
  · exact ⟨rfl, rfl⟩

theorem foldl_snd {α β γ : Type} (body : β × γ → α → β × γ) (body2 : γ → α → γ)
    (h : ∀ s a, (body s a).2 = body2 s.2 a) (l : List α) (s : β × γ) :
    (l.foldl body s).2 = l.foldl body2 s.2 := by
  induction l generalizing s with
  | nil => rfl
  | cons a as ih => simp only [List.foldl_cons, ih, h]

theorem forPixels_snd {β γ : Type} (width height : Int) (body : Int → Int → β × γ → β × γ)
    (body2 : Int → Int → γ → γ) (h : ∀ x y s, (body x y s).2 = body2 x y s.2) (s : β × γ) :
    (forPixels width height body s).2 = forPixels width height body2 s.2 := by
  unfold forPixels forRange
  apply foldl_snd
  intro s2 y
  exact foldl_snd _ _ (fun s3 x => h _ _ s3) _ s2

/-- The data points of a frame are the pixels of the weight image with a weight above zero. -/
theorem computeChiSquaredForFrame_data_points (ops : FloatOps F)
    (image model weights : VectorImage F) (hw : image.width = weights.width)
    (hh : image.height = weights.height) :
    (computeChiSquaredForFrame ops image model weights).2
      = (pixelCount weights (fun w => ops.gt w ops.zero) : Int) := by
  unfold computeChiSquaredForFrame
  rw [forPixels_snd image.width image.height _
    (fun x y n => n + (if ops.gt (weights.pixel x y) ops.zero then 1 else 0))]
  · rw [hw, hh, forPixels_count weights (fun w => ops.gt w ops.zero) 0]
    simp
  · intro x y acc
    dsimp only
    split <;> simp

theorem computeChiSquaredFrames_data_points (ops : FloatOps F) (C : Collaborators F M)
    (source : Source F) (pixel_scale : F) (frames : List FlexibleModelFittingFrame)
    (manager : M) (total_chi_squared : F) (total_data_points : Int) :
    (computeChiSquaredFrames ops C source pixel_scale frames manager total_chi_squared
        total_data_points).2.2
      = total_data_points + ((((frames.filter
          (fun frame => isFrameValid source frame.frameNb)).map (fun frame =>
            pixelCount (createWeightImage ops source frame.frameNb)
              (fun w => ops.gt w ops.zero))).sum : Nat) : Int) := by
  induction frames generalizing manager total_chi_squared total_data_points with
  | nil => simp [computeChiSquaredFrames]
  | cons frame rest ih =>
    by_cases hv : isFrameValid source frame.frameNb = true
    · simp only [computeChiSquaredFrames, hv, if_true, List.filter_cons, ih, List.map_cons,
        List.sum_cons, Nat.cast_add]
      rw [computeChiSquaredForFrame_data_points ops _ _ _
        (by rw [(createWeightImage_size ops source frame.frameNb).1]; rfl)
        (by rw [(createWeightImage_size ops source frame.frameNb).2]; rfl)]
      ring
    · have hv2 : isFrameValid source frame.frameNb = false := by simpa using hv
      simp only [computeChiSquaredFrames, hv2, List.filter_cons, Bool.false_eq_true, if_false]
      exact ih manager total_chi_squared total_data_points

/-- The reference argument `total_data_points` of `computeChiSquared`. -/
theorem computeChiSquared_data_points (ops : FloatOps F)
    (task : FlexibleModelFittingIterativeTask F) (C : Collaborators F M) (source : Source F)
    (pixel_scale : F) (manager : M) :
    (computeChiSquared ops task C source pixel_scale manager).2.2
      = (dataPoints ops task source : Int) := by
  unfold computeChiSquared dataPoints validFrames
  rw [computeChiSquaredFrames_data_points]
  simp

theorem countAccessedFreeParameters_eq (task : FlexibleModelFittingIterativeTask F)
    (C : Collaborators F M) (source : Source F) (manager : M) :
    countAccessedFreeParameters C source manager task.m_parameters
      = ((accessedFreeParameters task C source manager).length : Int) := by
  unfold countAccessedFreeParameters accessedFreeParameters
  have gen : ∀ (parameters : List (FlexibleModelFittingParameter F)) (n : Int),
      parameters.foldl (fun nb_of_free_parameters parameter =>
        if (decide (parameter.kind = ParameterKind.Free)
            && C.isParamAccessed manager source parameter) = true
        then nb_of_free_parameters + 1 else nb_of_free_parameters) n
      = n + ((parameters.filter (fun parameter =>
          decide (parameter.kind = ParameterKind.Free)
            && C.isParamAccessed manager source parameter)).length : Int) := by
    intro parameters
    induction parameters with
    | nil => simp
    | cons q qs ih =>
      intro n
      simp only [List.foldl_cons, ih, List.filter_cons]
      split
      · simp only [List.length_cons, Nat.cast_add, Nat.cast_one]
        ring
      · rfl
  simpa using gen task.m_parameters 0

/-! ## Writing the parameters back -/

/-- The manager after the iteration of the collect loop of `fitSource` for one parameter. -/
def collectStep (C : Collaborators F M) (source : Source F) (solution_sigmas : List F)
    (manager : M) (parameter : FlexibleModelFittingParameter F) : M :=
  if decide (parameter.kind = ParameterKind.Dependent)
      || C.isParamAccessed manager source parameter then
    (C.getSigma (C.getParameter manager source parameter) source parameter solution_sigmas).2
  else
    C.getParameter manager source parameter

/-- The manager with which the collect loop of `fitSource` reaches the parameter at
`position`, that is, the manager that `isParamAccessed` is asked about that parameter. -/
def collectManager (C : Collaborators F M) (source : Source F) (solution_sigmas : List F) :
    List (FlexibleModelFittingParameter F) → M → Nat → M
  | [], manager, _ => manager
  | _ :: _, manager, 0 => manager
  | parameter :: rest, manager, position + 1 =>
    collectManager C source solution_sigmas rest
      (collectStep C source solution_sigmas manager parameter) position

theorem collectParameters_cons (ops : FloatOps F) (C : Collaborators F M) (source : Source F)
    (previous : SourceState F) (sigmas : List F) (q : FlexibleModelFittingParameter F)
    (qs : List (FlexibleModelFittingParameter F)) (manager : M)
    (values sigma_map : ParameterMap F) :
    ∃ value sigma, collectParameters ops C source previous sigmas (q :: qs) manager values
        sigma_map
      = collectParameters ops C source previous sigmas qs (collectStep C source sigmas manager q)
          (values.insert q.id value) (sigma_map.insert q.id sigma) ∧
      ((decide (q.kind = ParameterKind.Dependent) || C.isParamAccessed manager source q) = false →
        value = previous.parameters_values.index ops q.id ∧
        sigma = previous.parameters_sigmas.index ops q.id) := by
  by_cases h : (decide (q.kind = ParameterKind.Dependent)
      || C.isParamAccessed manager source q) = true
  · refine ⟨C.getValue (C.getParameter manager source q) source q,
      (C.getSigma (C.getParameter manager source q) source q sigmas).1, ?_, ?_⟩
    · simp only [collectParameters, collectStep, h, if_true]
    · intro hf
      rw [hf] at h
      cases h
  · have hf : (decide (q.kind = ParameterKind.Dependent)
        || C.isParamAccessed manager source q) = false := by simpa using h
    refine ⟨previous.parameters_values.index ops q.id,
      previous.parameters_sigmas.index ops q.id, ?_, fun _ => ⟨rfl, rfl⟩⟩
    simp only [collectParameters, collectStep, hf, Bool.false_eq_true, if_false]

/-- A key that is the id of none of the parameters keeps its entry in the collect loop. -/
theorem collectParameters_of_not_mem (ops : FloatOps F) (C : Collaborators F M)
    (source : Source F) (previous : SourceState F) (sigmas : List F)
    (parameters : List (FlexibleModelFittingParameter F)) (manager : M)
    (values sigma_map : ParameterMap F) (key : Int)
    (h : key ∉ parameters.map (fun parameter => parameter.id)) :
    (collectParameters ops C source previous sigmas parameters manager values sigma_map).2.1 key
      = values key := by
  induction parameters generalizing manager values sigma_map with
  | nil => rfl
  | cons q qs ih =>
    simp only [List.map_cons, List.mem_cons, not_or] at h
    obtain ⟨value, sigma, heq, _⟩ :=
      collectParameters_cons ops C source previous sigmas q qs manager values sigma_map
    rw [heq, ih _ _ _ h.2]
    simp [ParameterMap.insert, h.1]

/-- A parameter that is not dependent and is not reported as accessed when the collect loop
reaches it keeps the value of the previous state, provided no other parameter has its id. -/
theorem collectParameters_carries_over (ops : FloatOps F) (C : Collaborators F M)
    (source : Source F) (previous : SourceState F) (sigmas : List F)
    (parameters : List (FlexibleModelFittingParameter F))
    (hnodup : (parameters.map (fun parameter => parameter.id)).Nodup) (manager : M)
    (values sigma_map : ParameterMap F) (position : Nat)
    (parameter : FlexibleModelFittingParameter F)
    (hpos : parameters[position]? = some parameter)
    (hkind : parameter.kind ≠ ParameterKind.Dependent)
    (hacc : C.isParamAccessed (collectManager C source sigmas parameters manager position)
      source parameter = false) :
    (collectParameters ops C source previous sigmas parameters manager values
        sigma_map).2.1 parameter.id
      = some (previous.parameters_values.index ops parameter.id) := by
  induction parameters generalizing manager values sigma_map position with
  | nil => simp at hpos
  | cons q qs ih =>
    simp only [List.map_cons, List.nodup_cons] at hnodup
    obtain ⟨value, sigma, heq, hval⟩ :=
      collectParameters_cons ops C source previous sigmas q qs manager values sigma_map
    rw [heq]
    cases position with
    | zero =>
      simp only [List.getElem?_cons_zero, Option.some.injEq] at hpos
      subst hpos
      simp only [collectManager] at hacc
      have hf : (decide (q.kind = ParameterKind.Dependent)
          || C.isParamAccessed manager source q) = false := by
        simp [hkind, hacc]
      rw [collectParameters_of_not_mem ops C source previous sigmas qs _ _ _ _ hnodup.1,
        (hval hf).1]
      simp [ParameterMap.insert]
    | succ k =>
      simp only [List.getElem?_cons_succ] at hpos
      simp only [collectManager] at hacc
      exact ih hnodup.2 _ _ _ k hpos hacc

/-! ## The initial state -/

/-- The value that the first loop of `computeProperties` stores for a parameter. -/
def initialValue (ops : FloatOps F) (source : Source F)
    (parameter : FlexibleModelFittingParameter F) : F :=
  if parameter.kind = ParameterKind.Free then parameter.getInitialValue source else ops.zero

theorem initialValues_foldl (ops : FloatOps F) (source : Source F)
    (parameters : List (FlexibleModelFittingParameter F)) (values : ParameterMap F) :
    parameters.foldl (fun values parameter =>
        if parameter.kind = ParameterKind.Free then
          values.insert parameter.id (parameter.getInitialValue source)
        else
          values.insert parameter.id ops.zero) values
      = parameters.foldl (fun values parameter =>
          values.insert parameter.id (initialValue ops source parameter)) values := by
  induction parameters generalizing values with
  | nil => rfl
  | cons q qs ih =>
    simp only [List.foldl_cons, ih]
    congr 1
    unfold initialValue
    split <;> rfl

/-- The keys of a map filled by successive assignments. -/
theorem foldl_insert_isSome (f : FlexibleModelFittingParameter F → F)
    (parameters : List (FlexibleModelFittingParameter F)) (values : ParameterMap F) (key : Int) :
    ((parameters.foldl (fun values parameter =>
        values.insert parameter.id (f parameter)) values) key).isSome = true
      ↔ (key ∈ parameters.map (fun parameter => parameter.id)
          ∨ (values key).isSome = true) := by
  induction parameters generalizing values with
  | nil => simp
  | cons q qs ih =>
    simp only [List.foldl_cons, ih, List.map_cons, List.mem_cons]
    by_cases hk : key = q.id
    · simp [hk, ParameterMap.insert]
    · simp [hk, ParameterMap.insert]

/-- With pairwise different ids, every parameter finds the value assigned for it. -/
theorem foldl_insert_apply (f : FlexibleModelFittingParameter F → F)
    (parameters : List (FlexibleModelFittingParameter F))
    (hnodup : (parameters.map (fun parameter => parameter.id)).Nodup)
    (values : ParameterMap F) (parameter : FlexibleModelFittingParameter F)
    (hp : parameter ∈ parameters) :
    (parameters.foldl (fun values parameter =>
        values.insert parameter.id (f parameter)) values) parameter.id
      = some (f parameter) := by
  induction parameters generalizing values with
  | nil => cases hp
  | cons q qs ih =>
    simp only [List.map_cons, List.nodup_cons] at hnodup
    simp only [List.foldl_cons]
    rcases List.mem_cons.mp hp with rfl | hp2
    · have hnot : parameter.id ∉ qs.map (fun parameter => parameter.id) := hnodup.1
      have hkeep : ∀ (ps : List (FlexibleModelFittingParameter F)) (m : ParameterMap F),
          parameter.id ∉ ps.map (fun parameter => parameter.id) →
          (ps.foldl (fun values parameter =>
            values.insert parameter.id (f parameter)) m) parameter.id = m parameter.id := by
        intro ps
        induction ps with
        | nil => intro m _; rfl
        | cons x xs ihx =>
          intro m hx
          simp only [List.map_cons, List.mem_cons, not_or] at hx
          simp only [List.foldl_cons]
          rw [ihx _ hx.2]
          simp [ParameterMap.insert, hx.1]
      rw [hkeep qs _ hnot]
      simp [ParameterMap.insert]
    · exact ih hnodup.2 _ hp2

/-! ## What a call changes in the state and in the group -/

/-- The checks only read the per-frame properties of a source. -/
theorem passesChecks_congr (ops : FloatOps F) (task : FlexibleModelFittingIterativeTask F)
    (source source2 : Source F) (h : source2.frameData = source.frameData) :
    passesChecks ops task source2 ↔ passesChecks ops task source := by
  cases source with
  | mk fd mf =>
    cases source2 with
    | mk fd2 mf2 =>
      simp only at h
      subst h
      exact Iff.rfl

/-- A call of `fitSource` leaves the per-frame properties of its source and the state of every
other source alone, and the whole state when the checks fail. -/
theorem fitSource_frame (ops : FloatOps F) (task : FlexibleModelFittingIterativeTask F)
    (C : Collaborators F M) (group : List (Source F)) (state : FittingState F)
    (hc : StateCovers task state group.length) (source : Source F) (index : Nat)
    (hi : index < group.length) :
    ∃ r, fitSource ops task C group source index state = some r ∧
      StateCovers task r.state group.length ∧
      r.source.frameData = source.frameData ∧
      (∀ j, j ≠ index → r.state.source_states[j]? = state.source_states[j]?) ∧
      (¬ passesChecks ops task source → r.state = state) ∧
      (passesChecks ops task source → Event.solveProblem ∈ r.log) := by
  obtain ⟨r, hr, hcov, _⟩ := fitSource_covers ops task C group state hc source index hi
  refine ⟨r, hr, hcov, ?_⟩
  by_cases h : passesChecks ops task source
  · obtain ⟨m, res, previous, _, _, hf⟩ :=
      fitSource_of_passesChecks ops task C group state hc source index hi h
    rw [hf] at hr
    cases hr
    refine ⟨rfl, ?_, fun hn => absurd h hn, fun _ => by simp⟩
    intro j hj
    simp only [List.getElem?_set, Ne.symm hj, if_false]
  · have hf := fitSource_of_not_passesChecks ops task C group state hc source index hi h
    rw [hf] at hr
    cases hr
    exact ⟨rfl, fun _ _ => rfl, fun _ => rfl, fun hp => absurd hp h⟩

theorem map_frameData_set (group : List (Source F)) (index : Nat) (source source2 : Source F)
    (hg : group[index]? = some source) (h : source2.frameData = source.frameData) :
    (group.set index source2).map (fun s => s.frameData)
      = group.map (fun s => s.frameData) := by
  apply List.ext_getElem?
  intro k
  simp only [List.getElem?_map, List.getElem?_set]
  by_cases hk : index = k
  · subst hk
    simp only [if_true]
    have hlt : index < group.length := by
      by_contra hcon
      rw [List.getElem?_eq_none (by omega)] at hg
      cases hg
    simp [hlt, hg, h]
  · simp [hk]

/-- A round leaves alone the state of every source it does not visit and of every visited
source that fails the checks, and the per-frame properties of all sources. -/
theorem fitRound_frame (ops : FloatOps F) (task : FlexibleModelFittingIterativeTask F)
    (C : Collaborators F M) (remaining index : Nat) (group : List (Source F))
    (state : FittingState F) (log : List Event)
    (hc : StateCovers task state group.length) (hlen : index + remaining ≤ group.length) :
    ∃ group2 state2 log2, fitRound ops task C remaining index group state log
        = some (group2, state2, log2) ∧
      group2.length = group.length ∧ StateCovers task state2 group.length ∧
      group2.map (fun s => s.frameData) = group.map (fun s => s.frameData) ∧
      ∀ j, (j < index ∨ index + remaining ≤ j ∨
          ∀ source, group[j]? = some source → ¬ passesChecks ops task source) →
        state2.source_states[j]? = state.source_states[j]? := by
  induction remaining generalizing index group state log with
  | zero => exact ⟨group, state, log, by simp [fitRound], rfl, hc, rfl, fun _ _ => rfl⟩
  | succ k ih =>
    have hi : index < group.length := by omega
    have hget : group[index]? = some (group[index]) := List.getElem?_eq_getElem hi
    obtain ⟨r, hr, hcov, hfd, hother, habort, _⟩ :=
      fitSource_frame ops task C group state hc (group[index]) index hi
    have hlen2 : (group.set index r.source).length = group.length := by simp
    obtain ⟨g2, s2, l2, h2, hg2, hs2, hm2, hj2⟩ := ih (index + 1) (group.set index r.source)
      r.state (log ++ Event.fitSource index :: r.log) (by rw [hlen2]; exact hcov)
      (by rw [hlen2]; omega)
    refine ⟨g2, s2, l2, ?_, by rw [hg2, hlen2], by rw [← hlen2]; exact hs2, ?_, ?_⟩
    · simp only [fitRound, hget, hr, h2]
    · rw [hm2]
      exact map_frameData_set group index (group[index]) r.source hget hfd
    · intro j hj
      by_cases hji : j = index
      · subst hji
        rw [hj2 j (Or.inl (by omega))]
        rcases hj with hj | hj | hj
        · omega
        · omega
        · rw [habort (hj _ hget)]
      · rw [← hother j hji]
        apply hj2
        rcases hj with hj | hj | hj
        · exact Or.inl (by omega)
        · exact Or.inr (Or.inl (by omega))
        · refine Or.inr (Or.inr ?_)
          intro source hs
          rw [List.getElem?_set_ne (Ne.symm hji)] at hs
          exact hj source hs

/-- A round of `a + b` visits is a round of `a` visits followed by one of `b` visits. -/
theorem fitRound_add (ops : FloatOps F) (task : FlexibleModelFittingIterativeTask F)
    (C : Collaborators F M) (a b index : Nat) (group : List (Source F))
    (state : FittingState F) (log : List Event) :
    fitRound ops task C (a + b) index group state log
      = (fitRound ops task C a index group state log).bind
          (fun r => fitRound ops task C b (index + a) r.1 r.2.1 r.2.2) := by
  induction a generalizing index group state log with
  | zero => simp [fitRound]
  | succ k ih =>
    rw [show k + 1 + b = (k + b) + 1 by omega]
    simp only [fitRound]
    rcases group[index]? with _ | source
    · rfl
    · simp only
      rcases fitSource ops task C group source index state with _ | r
      · rfl
      · simp only
        rw [ih, show index + 1 + k = index + (k + 1) by omega]

theorem getElem?_of_map_frameData_eq (group group2 : List (Source F))
    (h : group2.map (fun s => s.frameData) = group.map (fun s => s.frameData)) (j : Nat)
    (source : Source F) (hs : group[j]? = some source) :
    ∃ source2, group2[j]? = some source2 ∧ source2.frameData = source.frameData := by
  have hj := congrArg (fun l => l[j]?) h
  simp only [List.getElem?_map, hs, Option.map_some'] at hj
  rcases hg : group2[j]? with _ | source2
  · rw [hg] at hj
    cases hj
  · rw [hg] at hj
    simp only [Option.map_some', Option.some.injEq] at hj
    exact ⟨source2, rfl, hj⟩

/-- The rounds leave alone the state of every source that fails the checks, and the per-frame
properties of all sources. -/
theorem fitRounds_frame (ops : FloatOps F) (task : FlexibleModelFittingIterativeTask F)
    (C : Collaborators F M) (rounds : Nat) (group : List (Source F))
    (state : FittingState F) (log : List Event)
    (hc : StateCovers task state group.length) :
    ∃ group2 state2 log2, fitRounds ops task C rounds group state log
        = some (group2, state2, log2) ∧
      group2.length = group.length ∧ StateCovers task state2 group.length ∧
      group2.map (fun s => s.frameData) = group.map (fun s => s.frameData) ∧
      ∀ j : Nat, (∀ source, group[j]? = some source → ¬ passesChecks ops task source) →
        state2.source_states[j]? = state.source_states[j]? := by
  induction rounds generalizing group state log with
  | zero => exact ⟨group, state, log, by simp [fitRounds], rfl, hc, rfl, fun _ _ => rfl⟩
  | succ k ih =>
    obtain ⟨g1, s1, l1, h1, hg1, hs1, hm1, hj1⟩ := fitRound_frame ops task C group.length 0
      group state log hc (by omega)
    obtain ⟨g2, s2, l2, h2, hg2, hs2, hm2, hj2⟩ := ih g1 s1 l1 (by rw [hg1]; exact hs1)
    refine ⟨g2, s2, l2, ?_, by rw [hg2, hg1], by rw [← hg1]; exact hs2, by rw [hm2, hm1], ?_⟩
    · simp only [fitRounds, h1, h2]
    · intro j hj
      rw [← hj1 j (Or.inr (Or.inr hj))]
      apply hj2
      intro source1 hs1
      obtain ⟨source, hs, hfd⟩ := getElem?_of_map_frameData_eq g1 group hm1.symm j source1 hs1
      intro hp
      exact hj source hs ((passesChecks_congr ops task source1 source hfd).mpr hp)

/-- The last loop of `computeProperties` copies the state entry of each source into its
property, with the flags `NONE`. -/
theorem setProperties_getElem (state : FittingState F) (sources sources2 : List (Source F))
    (index : Nat) (h : setProperties state sources index = some sources2) (k : Nat)
    (source : Source F) (hs : sources[k]? = some source) :
    ∃ entry, state.source_states[index + k]? = some entry ∧
      sources2[k]? = some { source with
        modelFitting := some ⟨entry.iterations, entry.stop_reason, entry.reduced_chi_squared,
          Flags.NONE, entry.parameters_values, entry.parameters_sigmas⟩ } := by
  induction sources generalizing sources2 index k with
  | nil => simp at hs
  | cons src rest ih =>
    simp only [setProperties] at h
    rcases he : state.source_states[index]? with _ | entry
    · rw [he] at h
      cases h
    · rw [he] at h
      simp only at h
      rcases hr : setProperties state rest (index + 1) with _ | rest2
      · rw [hr] at h
        cases h
      · rw [hr] at h
        simp only [Option.some.injEq] at h
        subst h
        cases k with
        | zero =>
          simp only [List.getElem?_cons_zero, Option.some.injEq] at hs
          subst hs
          exact ⟨entry, by simpa using he, by simp⟩
        | succ k2 =>
          simp only [List.getElem?_cons_succ] at hs
          obtain ⟨entry2, he2, hs2⟩ := ih rest2 (index + 1) hr k2 hs
          refine ⟨entry2, ?_, by simpa using hs2⟩
          rw [show index + (k2 + 1) = index + 1 + k2 by omega]
          exact he2

/-- The rounds, taken from the last one. -/
theorem fitRounds_succ (ops : FloatOps F) (task : FlexibleModelFittingIterativeTask F)
    (C : Collaborators F M) (rounds : Nat) (group : List (Source F))
    (state : FittingState F) (log : List Event) :
    fitRounds ops task C (rounds + 1) group state log
      = (fitRounds ops task C rounds group state log).bind
          (fun r => fitRound ops task C r.1.length 0 r.1 r.2.1 r.2.2) := by
  induction rounds generalizing group state log with
  | zero =>
    simp only [fitRounds, Option.some_bind]
    rcases fitRound ops task C group.length 0 group state log with _ | ⟨g1, s1, l1⟩ <;> rfl
  | succ k ih =>
    rw [fitRounds]
    conv_rhs => rw [fitRounds]
    rcases fitRound ops task C group.length 0 group state log with _ | ⟨g1, s1, l1⟩
    · rfl
    · simp only
      exact ih g1 s1 l1

/-- The entry of a source after a round in which it passes the checks is the one written by
the call of `fitSource` for it, which solves. -/
theorem fitRound_entry (ops : FloatOps F) (task : FlexibleModelFittingIterativeTask F)
    (C : Collaborators F M) (group : List (Source F)) (state : FittingState F)
    (log : List Event) (hc : StateCovers task state group.length)
    (group3 : List (Source F)) (state3 : FittingState F) (log3 : List Event)
    (h3 : fitRound ops task C group.length 0 group state log = some (group3, state3, log3))
    (index : Nat) (source : Source F) (hs : group[index]? = some source)
    (hp : passesChecks ops task source) :
    ∃ gi si li source_i ri,
      fitRound ops task C index 0 group state log = some (gi, si, li) ∧
      gi[index]? = some source_i ∧
      fitSource ops task C gi source_i index si = some ri ∧
      Event.solveProblem ∈ ri.log ∧
      ri.state.source_states[index]? = state3.source_states[index]? := by
  have hi : index < group.length := by
    by_contra hcon
    rw [List.getElem?_eq_none (by omega)] at hs
    cases hs
  obtain ⟨gi, si, li, hgi, hleni, hcovi, hmi, _⟩ := fitRound_frame ops task C index 0 group
    state log hc (by omega)
  obtain ⟨source_i, hsi, hfdi⟩ := getElem?_of_map_frameData_eq group gi hmi index source hs
  have hpi : passesChecks ops task source_i :=
    (passesChecks_congr ops task source source_i hfdi).mpr hp
  obtain ⟨ri, hri, hcovr, _, _, _, hsolve⟩ := fitSource_frame ops task C gi si
    (by rw [hleni]; exact hcovi) source_i index (by rw [hleni]; exact hi)
  have hlenr : (gi.set index ri.source).length = group.length := by simp [hleni]
  obtain ⟨g4, s4, l4, h4, _, _, _, hj4⟩ := fitRound_frame ops task C
    (group.length - index - 1) (index + 1) (gi.set index ri.source) ri.state
    (li ++ Event.fitSource index :: ri.log) (by rw [hlenr, ← hleni]; exact hcovr)
    (by rw [hlenr]; omega)
  have hsplit := fitRound_add ops task C index (group.length - index - 1 + 1) 0 group state log
  rw [show index + (group.length - index - 1 + 1) = group.length by omega, h3, hgi] at hsplit
  simp only [Option.some_bind, Nat.zero_add, fitRound, hsi, hri, h4] at hsplit
  simp only [Option.some.injEq, Prod.mk.injEq] at hsplit
  refine ⟨gi, si, li, source_i, ri, hgi, hsi, hri, hsolve (hpi), ?_⟩
  rw [hsplit.2.1]
  exact (hj4 index (Or.inl (by omega))).symm

/-! ## Filling an image pixel by pixel -/

theorem foldl_setValue_row (g : Int → Int → F) (y : Int) (l : List Nat) (image : VectorImage F)
    (a b : Int) :
    (l.foldl (fun acc i => acc.setValue (Int.ofNat i) y (g (Int.ofNat i) y)) image).pixel a b
      = if b = y ∧ ∃ i ∈ l, a = Int.ofNat i then g a b else image.pixel a b := by
  induction l generalizing image with
  | nil => simp
  | cons i is ih =>
    rw [List.foldl_cons, ih]
    by_cases hb : b = y
    · by_cases hai : a = Int.ofNat i
      · simp [hb, hai, VectorImage.setValue]
      · by_cases hrest : ∃ k ∈ is, a = Int.ofNat k
        · have hrest2 : ∃ k ∈ is, a = (k : Int) := hrest
          simp [hb, hrest2, VectorImage.setValue]
        · have hai2 : ¬ a = (i : Int) := hai
          have hrest2 : ¬ ∃ k ∈ is, a = (k : Int) := hrest
          simp [hb, hai2, hrest2, VectorImage.setValue]
    · simp [hb, VectorImage.setValue]

/-- Nested loops that assign `g x y` to every pixel `(x, y)` leave an image that holds `g` on
the `width` x `height` rectangle and the earlier values elsewhere. -/
theorem forPixels_setValue (g : Int → Int → F) (width height : Int) (image : VectorImage F)
    (a b : Int) :
    (forPixels width height (fun x y acc => acc.setValue x y (g x y)) image).pixel a b
      = if (0 ≤ a ∧ a < width) ∧ (0 ≤ b ∧ b < height) then g a b else image.pixel a b := by
  have hrange : ∀ (n c : Int), (∃ i ∈ List.range n.toNat, c = Int.ofNat i) ↔ (0 ≤ c ∧ c < n) := by
    intro n c
    constructor
    · rintro ⟨i, hi, rfl⟩
      have := List.mem_range.mp hi
      constructor
      · exact Int.ofNat_nonneg i
      · simp only [Int.ofNat_eq_coe]
        omega
    · rintro ⟨h0, h1⟩
      refine ⟨c.toNat, List.mem_range.mpr (by omega), ?_⟩
      simp only [Int.ofNat_eq_coe]
      omega
  have rows : ∀ (l : List Nat) (img : VectorImage F),
      (l.foldl (fun acc j => forRange width
          (fun x acc2 => acc2.setValue x (Int.ofNat j) (g x (Int.ofNat j))) acc) img).pixel a b
        = if (0 ≤ a ∧ a < width) ∧ ∃ j ∈ l, b = Int.ofNat j then g a b else img.pixel a b := by
    intro l
    induction l with
    | nil => intro img; simp
    | cons j js ih =>
      intro img
      rw [List.foldl_cons, ih]
      unfold forRange
      rw [foldl_setValue_row g (Int.ofNat j) (List.range width.toNat) img a b]
      simp only [hrange]
      by_cases ha : 0 ≤ a ∧ a < width
      · by_cases hbj : b = Int.ofNat j
        · simp [ha, hbj]
        · by_cases hrest : ∃ k ∈ js, b = Int.ofNat k
          · have hrest2 : ∃ k ∈ js, b = (k : Int) := hrest
            simp [ha, hrest2]
          · have hbj2 : ¬ b = (j : Int) := hbj
            have hrest2 : ¬ ∃ k ∈ js, b = (k : Int) := hrest
            simp [ha, hbj2, hrest2]
      · simp [ha]
  unfold forPixels
  rw [forRange]
  refine (rows (List.range height.toNat) image).trans ?_
  simp only [hrange]

/-! ## The weight of a pixel -/

/-- The value that `createWeightImage` assigns to the pixel `(x, y)` of the rectangle. -/
def weightValue (ops : FloatOps F) (source : Source F) (frame_index : Int) (x y : Int) : F :=
  let frame_images := source.frameData frame_index
  let rect := getFittingRect source frame_index
  let back_var := frame_images.variance (rect.topLeft.m_x + x) (rect.topLeft.m_y + y)
  let pixel_val := frame_images.subtracted (rect.topLeft.m_x + x) (rect.topLeft.m_y + y)
  if ops.gt frame_images.saturation ops.zero && ops.gt pixel_val frame_images.saturation then
    ops.zero
  else if ops.gt frame_images.gain ops.zero && ops.gt pixel_val ops.zero then
    ops.sqrt (ops.div ops.one (ops.add back_var (ops.div pixel_val frame_images.gain)))
  else
    ops.sqrt (ops.div ops.one back_var)

theorem createWeightImage_pixel (ops : FloatOps F) (source : Source F) (frame_index : Int)
    (x y : Int) (hx : 0 ≤ x ∧ x < (getFittingRect source frame_index).width)
    (hy : 0 ≤ y ∧ y < (getFittingRect source frame_index).height) :
    (createWeightImage ops source frame_index).pixel x y
      = weightValue ops source frame_index x y := by
  unfold createWeightImage
  have hbody : (fun (x y : Int) (weight : VectorImage F) =>
      let back_var := (source.frameData frame_index).variance
        ((getFittingRect source frame_index).topLeft.m_x + x)
        ((getFittingRect source frame_index).topLeft.m_y + y)
      let pixel_val := (source.frameData frame_index).subtracted
        ((getFittingRect source frame_index).topLeft.m_x + x)
        ((getFittingRect source frame_index).topLeft.m_y + y)
      if (ops.gt (source.frameData frame_index).saturation ops.zero
          && ops.gt pixel_val (source.frameData frame_index).saturation) = true then
        weight.setValue x y ops.zero
      else if (ops.gt (source.frameData frame_index).gain ops.zero
          && ops.gt pixel_val ops.zero) = true then
        weight.setValue x y (ops.sqrt (ops.div ops.one
          (ops.add back_var (ops.div pixel_val (source.frameData frame_index).gain))))
      else
        weight.setValue x y (ops.sqrt (ops.div ops.one back_var)))
      = (fun x y weight => weight.setValue x y (weightValue ops source frame_index x y)) := by
    funext x y weight
    unfold weightValue
    dsimp only
    split
    · rfl
    · split <;> rfl
  dsimp only
  rw [hbody, forPixels_setValue]
  simp [hx, hy]

/-- The operations are those of the real numbers. -/
def FloatOps.IsReal (ops : FloatOps ℝ) : Prop :=
  ops.zero = 0 ∧ ops.one = 1 ∧
  (∀ a b, ops.add a b = a + b) ∧ (∀ a b, ops.sub a b = a - b) ∧
  (∀ a b, ops.mul a b = a * b) ∧ (∀ a b, ops.div a b = a / b) ∧
  (∀ a, ops.sqrt a = Real.sqrt a) ∧ (∀ i, ops.ofInt i = (i : ℝ)) ∧
  (∀ a b, ops.gt a b = true ↔ b < a) ∧ (∀ a b, ops.ne a b = true ↔ a ≠ b)

/-! ## Usable pixels and data points -/

theorem pixelCount_le_of_imp (image : VectorImage F) (p q : F → Bool)
    (h : ∀ x < image.width.toNat, ∀ y < image.height.toNat,
      p (image.pixel (Int.ofNat x) (Int.ofNat y)) = true →
      q (image.pixel (Int.ofNat x) (Int.ofNat y)) = true) :
    pixelCount image p ≤ pixelCount image q := by
  unfold pixelCount
  have rows : ∀ l : List Nat, (∀ y ∈ l, y < image.height.toNat) →
      (l.map (fun y => (List.range image.width.toNat).countP
          (fun x => p (image.pixel (Int.ofNat x) (Int.ofNat y))))).sum
        ≤ (l.map (fun y => (List.range image.width.toNat).countP
          (fun x => q (image.pixel (Int.ofNat x) (Int.ofNat y))))).sum := by
    intro l
    induction l with
    | nil => intro _; simp
    | cons y ys ih =>
      intro hl
      simp only [List.map_cons, List.sum_cons]
      have hrow : (List.range image.width.toNat).countP
            (fun x => p (image.pixel (Int.ofNat x) (Int.ofNat y)))
          ≤ (List.range image.width.toNat).countP
            (fun x => q (image.pixel (Int.ofNat x) (Int.ofNat y))) := by
        apply List.countP_mono_left
        intro x hx hpx
        exact h x (List.mem_range.mp hx) y (hl y (List.mem_cons_self y ys)) hpx
      have hrest := ih (fun z hz => hl z (List.mem_cons_of_mem y hz))
      omega
  exact rows _ (fun y hy => List.mem_range.mp hy)

/-- When every non-zero weight is above zero, the data points are at least as many as the
usable pixels. -/
theorem usablePixels_le_dataPoints (ops : FloatOps F)
    (task : FlexibleModelFittingIterativeTask F) (source : Source F)
    (hw : ∀ frame ∈ validFrames task source,
      ∀ x < (createWeightImage ops source frame.frameNb).width.toNat,
      ∀ y < (createWeightImage ops source frame.frameNb).height.toNat,
      ops.ne ((createWeightImage ops source frame.frameNb).pixel (Int.ofNat x) (Int.ofNat y))
        ops.zero = true →
      ops.gt ((createWeightImage ops source frame.frameNb).pixel (Int.ofNat x) (Int.ofNat y))
        ops.zero = true) :
    usablePixels ops task source ≤ dataPoints ops task source := by
  unfold usablePixels dataPoints
  generalize validFrames task source = frames at hw
  induction frames with
  | nil => simp
  | cons frame rest ih =>
    simp only [List.map_cons, List.sum_cons]
    have hfirst := pixelCount_le_of_imp (createWeightImage ops source frame.frameNb)
      (fun w => ops.ne w ops.zero) (fun w => ops.gt w ops.zero)
      (hw frame (List.mem_cons_self frame rest))
    have hrest := ih (fun f hf => hw f (List.mem_cons_of_mem frame hf))
    omega

theorem accessedFreeParameters_length_le (task : FlexibleModelFittingIterativeTask F)
    (C : Collaborators F M) (source : Source F) (manager : M) :
    (accessedFreeParameters task C source manager).length ≤ (freeParameters task).length := by
  unfold accessedFreeParameters freeParameters
  rw [← List.countP_eq_length_filter, ← List.countP_eq_length_filter]
  apply List.countP_mono_left
  intro parameter _ h
  simp only [Bool.and_eq_true] at h
  exact h.1

/-! ## The total weighted squared residual -/

/-- The pixels of an image of the given size, row by row. -/
def pixelsOf (width height : Int) : List (Int × Int) :=
  (List.range height.toNat).flatMap
    (fun y => (List.range width.toNat).map (fun x => (Int.ofNat x, Int.ofNat y)))

/-- The weighted squared residual of the pixel `(x, y)`: the difference of image and model,
squared, times the weight, times the weight. -/
def weightedSquaredResidual (ops : FloatOps F) (image model weights : VectorImage F)
    (x y : Int) : F :=
  ops.mul
    (ops.mul
      (ops.mul (ops.sub (image.pixel x y) (model.pixel x y))
        (ops.sub (image.pixel x y) (model.pixel x y)))
      (weights.pixel x y))
    (weights.pixel x y)

/-- The weighted squared residuals of the pixels of one frame, added one after the other to
zero, row by row. -/
def frameResidual (ops : FloatOps F) (image model weights : VectorImage F) : F :=
  ((pixelsOf image.width image.height).map
    (fun p => weightedSquaredResidual ops image model weights p.1 p.2)).foldl ops.add ops.zero

/-- The total weighted squared residual of a source: the residuals of the valid frames, added
one after the other to zero.  The model image of a frame is the image of the frame model that
the manager creates for it; the first component is the manager after these calls. -/
def totalResidual (ops : FloatOps F) (task : FlexibleModelFittingIterativeTask F)
    (C : Collaborators F M) (source : Source F) (pixel_scale : F) (manager : M) : M × F :=
  (validFrames task source).foldl
    (fun acc frame =>
      (C.createFrameModel acc.1 source pixel_scale frame (getFittingRect source frame.frameNb),
        ops.add acc.2
          (frameResidual ops (createImageCopy source frame.frameNb)
            ⟨(getFittingRect source frame.frameNb).width,
              (getFittingRect source frame.frameNb).height,
              C.getImage
                (C.createFrameModel acc.1 source pixel_scale frame
                  (getFittingRect source frame.frameNb))
                source pixel_scale frame (getFittingRect source frame.frameNb)⟩
            (createWeightImage ops source frame.frameNb))))
    (manager, ops.zero)

theorem forPixels_eq_foldl {σ : Type} (width height : Int) (body : Int → Int → σ → σ)
    (s : σ) :
    forPixels width height body s
      = (pixelsOf width height).foldl (fun acc p => body p.1 p.2 acc) s := by
  unfold forPixels forRange pixelsOf
  generalize List.range height.toNat = ys
  induction ys generalizing s with
  | nil => rfl
  | cons y rest ih =>
    rw [List.foldl_cons, ih, List.flatMap_cons, List.foldl_append, List.foldl_map]

theorem foldl_fst {α β γ : Type} (body : β × γ → α → β × γ) (body1 : β → α → β)
    (h : ∀ s a, (body s a).1 = body1 s.1 a) (l : List α) (s : β × γ) :
    (l.foldl body s).1 = l.foldl body1 s.1 := by
  induction l generalizing s with
  | nil => rfl
  | cons a as ih => simp only [List.foldl_cons, ih, h]

/-- The value that `computeChiSquaredForFrame` returns is the sum of the weighted squared
residuals of the pixels. -/
theorem computeChiSquaredForFrame_residual (ops : FloatOps F)
    (image model weights : VectorImage F) :
    (computeChiSquaredForFrame ops image model weights).1
      = frameResidual ops image model weights := by
  unfold computeChiSquaredForFrame frameResidual
  rw [forPixels_eq_foldl, foldl_fst _
    (fun sum (p : Int × Int) => ops.add sum (weightedSquaredResidual ops image model weights
      p.1 p.2)), List.foldl_map]
  intro acc p
  dsimp only [weightedSquaredResidual]
  split <;> rfl

theorem computeChiSquaredFrames_residual (ops : FloatOps F) (C : Collaborators F M)
    (source : Source F) (pixel_scale : F) (frames : List FlexibleModelFittingFrame)
    (manager : M) (total_chi_squared : F) (total_data_points : Int) :
    ((computeChiSquaredFrames ops C source pixel_scale frames manager total_chi_squared
        total_data_points).1,
      (computeChiSquaredFrames ops C source pixel_scale frames manager total_chi_squared
        total_data_points).2.1)
      = (frames.filter (fun frame => isFrameValid source frame.frameNb)).foldl
          (fun (acc : M × F) frame =>
            (C.createFrameModel acc.1 source pixel_scale frame
                (getFittingRect source frame.frameNb),
              ops.add acc.2
                (frameResidual ops (createImageCopy source frame.frameNb)
                  ⟨(getFittingRect source frame.frameNb).width,
                    (getFittingRect source frame.frameNb).height,
                    C.getImage
                      (C.createFrameModel acc.1 source pixel_scale frame
                        (getFittingRect source frame.frameNb))
                      source pixel_scale frame (getFittingRect source frame.frameNb)⟩
                  (createWeightImage ops source frame.frameNb))))
          (manager, total_chi_squared) := by
  induction frames generalizing manager total_chi_squared total_data_points with
  | nil => simp [computeChiSquaredFrames]
  | cons frame rest ih =>
    by_cases hv : isFrameValid source frame.frameNb = true
    · simp only [computeChiSquaredFrames, hv, if_true, List.filter_cons, List.foldl_cons, ih,
        computeChiSquaredForFrame_residual]
    · have hv2 : isFrameValid source frame.frameNb = false := by simpa using hv
      simp only [computeChiSquaredFrames, hv2, List.filter_cons, Bool.false_eq_true, if_false]
      exact ih manager total_chi_squared total_data_points

/-- The function `computeChiSquared` returns the total weighted squared residual. -/
theorem computeChiSquared_residual (ops : FloatOps F)
    (task : FlexibleModelFittingIterativeTask F) (C : Collaborators F M) (source : Source F)
    (pixel_scale : F) (manager : M) :
    (computeChiSquared ops task C source pixel_scale manager).1
      = (totalResidual ops task C source pixel_scale manager).1 ∧
    (computeChiSquared ops task C source pixel_scale manager).2.1
      = (totalResidual ops task C source pixel_scale manager).2 := by
  have h := computeChiSquaredFrames_residual ops C source pixel_scale task.m_frames manager
    ops.zero 0
  unfold computeChiSquared totalResidual validFrames
  rw [← h]
  exact ⟨rfl, rfl⟩

end Task

/-! ## Concrete inputs

Small integers with a NaN, on which the operations below agree with IEEE arithmetic for the
values that occur in the examples (`0`, `1`, `5`, `7`, their sums and differences); the square
root is given on `0` and `1` only, and a division by zero is a NaN. -/

inductive Num where
  | nan
  | val (v : Int)
deriving DecidableEq, Repr

def numOps : FloatOps Num where
  zero := Num.val 0
  one := Num.val 1
  quiet_NaN := Num.nan
  add := fun a b =>
    match a, b with
    | Num.val x, Num.val y => Num.val (x + y)
    | _, _ => Num.nan
  sub := fun a b =>
    match a, b with
    | Num.val x, Num.val y => Num.val (x - y)
    | _, _ => Num.nan
  mul := fun a b =>
    match a, b with
    | Num.val x, Num.val y => Num.val (x * y)
    | _, _ => Num.nan
  div := fun a b =>
    match a, b with
    | Num.val x, Num.val y => if y = 0 then Num.nan else Num.val (x / y)
    | _, _ => Num.nan
  sqrt := fun a =>
    match a with
    | Num.val x => if x = 0 ∨ x = 1 then Num.val x else Num.nan
    | Num.nan => Num.nan
  ofInt := fun i => Num.val i
  gt := fun a b =>
    match a, b with
    | Num.val x, Num.val y => decide (x > y)
    | _, _ => false
  ne := fun a b =>
    match a, b with
    | Num.val x, Num.val y => decide (x ≠ y)
    | _, _ => true

/-- Collaborators without a manager state: every frame model renders the pixel value `model`
everywhere, the engine reports `status` after `4` iterations with stop reason `2`, every
parameter has the value `7` and the sigma `1`, and `isParamAccessed` answers `accessed`. -/
def testCollaborators (model : Num) (status : StatusFlag) (accessed : Bool) :
    Collaborators Num Unit where
  newManager := ()
  addFreeParameter := fun _ _ _ _ => ()
  addParameter := fun _ _ _ => ()
  clearAccessCheck := fun _ => ()
  isParamAccessed := fun _ _ _ => accessed
  createFrameModel := fun _ _ _ _ _ => ()
  getImage := fun _ _ _ _ _ _ _ => model
  setupPrior := fun _ _ _ res_estimator => ((), res_estimator)
  solveProblem := fun _ _ _ _ => (⟨status, 4, 2, [Num.val 1]⟩, ())
  getParameter := fun _ _ _ => ()
  getValue := fun _ _ _ => Num.val 7
  getSigma := fun _ _ _ _ => (Num.val 1, ())

/-- A source whose fitting rectangle is `width` x `height` at the origin on every frame, with
pixel value `1`, variance `1`, gain `0` and saturation `saturation`. -/
def testSource (width height : Int) (saturation : Num) : Source Num where
  frameData := fun _ =>
    { rect := ⟨⟨0, 0⟩, width, height⟩
      subtracted := fun _ _ => Num.val 1
      variance := fun _ _ => Num.val 1
      gain := Num.val 0
      saturation := saturation }
  modelFitting := none

/-- A task with one frame (number `0`), no prior, and the given parameters. -/
def testTask (parameters : List (FlexibleModelFittingParameter Num)) :
    FlexibleModelFittingIterativeTask Num where
  m_least_squares_engine := "levmar"
  m_max_iterations := 100
  m_modified_chi_squared_scale := Num.val 1
  m_parameters := parameters
  m_frames := [⟨0, []⟩]
  m_priors := []
  m_scale_factor := Num.val 1

def testFree (id : Int) : FlexibleModelFittingParameter Num :=
  ⟨id, ParameterKind.Free, fun _ => Num.val 0⟩

def testDependent (id : Int) : FlexibleModelFittingParameter Num :=
  ⟨id, ParameterKind.Dependent, fun _ => Num.val 0⟩

/-- The flags of the `FlexibleModelFitting` property of every source of a group. -/
def groupFlags {F : Type} (group : List (Source F)) : List (Option Flags) :=
  group.map (fun source => source.modelFitting.map (fun property => property.flags))

/-! ## The sigmoid converter (`ModelFitting/Parameters/SigmoidConverter.h`)

The converter is read over an ordered field `R`; the functions `log` and `exp` of `math.h` are
the fields of `MathFunctions R`.  An exception is the result `none`. -/

/-- The functions of `math.h` that the converter calls. -/
structure MathFunctions (R : Type) where
  log : R → R
  exp : R → R

/-- The members of a `SigmoidConverter`. -/
structure SigmoidConverter (R : Type) where
  m_min_value : R
  m_max_value : R

namespace SigmoidConverter

/-- The constructor, which throws when `min_value` is larger than `max_value`. -/
def create {R : Type} [LinearOrderedField R] (min_value max_value : R) :
    Option (SigmoidConverter R) :=
  if min_value > max_value then none else some ⟨min_value, max_value⟩

def worldToEngine {R : Type} [LinearOrderedField R] (math : MathFunctions R)
    (converter : SigmoidConverter R) (world_value : R) : Option R :=
  if world_value < converter.m_min_value ∨ world_value > converter.m_max_value then
    none
  else
    some (math.log
      ((world_value - converter.m_min_value) / (converter.m_max_value - world_value)))

def engineToWorld {R : Type} [LinearOrderedField R] (math : MathFunctions R)
    (converter : SigmoidConverter R) (engine_value : R) : R :=
  converter.m_min_value
    + (converter.m_max_value - converter.m_min_value) / (1 + math.exp (-engine_value))

end SigmoidConverter

/-! ## The Jacobian tasks (`SEImplementation/src/lib/Plugin/Jacobian/JacobianTask.cpp`)

Coordinates are read over a field `K` (exact arithmetic).  The lines written to `std::cout` are
not part of the model. -/

structure ImageCoordinate (K : Type) where
  m_x : K
  m_y : K

structure WorldCoordinate (K : Type) where
  m_alpha : K
  m_delta : K

/-- The two virtual functions of a `CoordinateSystem`. -/
structure CoordinateSystem (K : Type) where
  imageToWorld : ImageCoordinate K → WorldCoordinate K
  worldToImage : WorldCoordinate K → ImageCoordinate K

/-- What the tasks read of `DetectionFrameGroupStamp`: `getTopLeft()`, `getStamp().getWidth()`
and `getStamp().getHeight()`. -/
structure DetectionFrameGroupStamp where
  topLeft : PixelCoordinate
  stampWidth : Int
  stampHeight : Int

/-- What the tasks read of `PixelBoundaries`: `getMin()`, `getWidth()` and `getHeight()`. -/
structure PixelBoundaries where
  min : PixelCoordinate
  width : Int
  height : Int

/-- The properties of a source that the Jacobian tasks read: `MeasurementFrameCoordinates`
(indexed by the instance), `DetectionFrameCoordinates` and `PixelBoundaries`. -/
structure JacobianSourceInput (K : Type) where
  measurementFrameCoordinates : Nat → CoordinateSystem K
  detectionFrameCoordinates : CoordinateSystem K
  pixelBoundaries : PixelBoundaries

/-- A group as the Jacobian group task reads it: its sources and its
`DetectionFrameGroupStamp`. -/
structure JacobianGroupInput (K : Type) where
  sources : List (JacobianSourceInput K)
  detectionFrameGroupStamp : DetectionFrameGroupStamp

/-- The four arguments with which `JacobianGroup` and `JacobianSource` are constructed, which
`asTuple()` returns. -/
abbrev JacobianTuple (K : Type) := K × K × K × K

/-- The part that the two tasks share (lines 50-58 and 73-81): the images of `(x, y)`,
`(x + 1, y)` and `(x, y + 1)` in the measurement frame, and their differences. -/
def jacobianAround {K : Type} [Field K] (measurement_frame_coordinates
    detection_frame_coordinates : CoordinateSystem K) (x y : K) : JacobianTuple K :=
  let frame_origin := measurement_frame_coordinates.worldToImage
    (detection_frame_coordinates.imageToWorld ⟨x, y⟩)
  let frame_dx := measurement_frame_coordinates.worldToImage
    (detection_frame_coordinates.imageToWorld ⟨x + 1, y⟩)
  let frame_dy := measurement_frame_coordinates.worldToImage
    (detection_frame_coordinates.imageToWorld ⟨x, y + 1⟩)
  (frame_dx.m_x - frame_origin.m_x, frame_dx.m_y - frame_origin.m_y,
    frame_dy.m_x - frame_origin.m_x, frame_dy.m_y - frame_origin.m_y)

namespace JacobianGroupTask

/-- Returns the tuple stored for the instance `m_instance`; `none` for an empty group, whose
`begin()` must not be dereferenced. -/
def computeProperties {K : Type} [Field K] (m_instance : Nat) (group : JacobianGroupInput K) :
    Option (JacobianTuple K) :=
  match group.sources with
  | [] => none
  | first :: _ =>
    let measurement_frame_coordinates := first.measurementFrameCoordinates m_instance
    let detection_group_stamp := group.detectionFrameGroupStamp
    let detection_frame_coordinates := first.detectionFrameCoordinates
    let x : K := (detection_group_stamp.topLeft.m_x : K)
      + (detection_group_stamp.stampWidth : K) / 2
    let y : K := (detection_group_stamp.topLeft.m_y : K)
      + (detection_group_stamp.stampHeight : K) / 2
    some (jacobianAround measurement_frame_coordinates detection_frame_coordinates x y)

end JacobianGroupTask

namespace JacobianSourceTask

/-- Returns the tuple stored for the instance `m_instance`. -/
def computeProperties {K : Type} [Field K] (m_instance : Nat) (source : JacobianSourceInput K) :
    JacobianTuple K :=
  let measurement_frame_coordinates := source.measurementFrameCoordinates m_instance
  let detection_boundaries := source.pixelBoundaries
  let detection_frame_coordinates := source.detectionFrameCoordinates
  let x : K := (detection_boundaries.min.m_x : K) + (detection_boundaries.width : K) / 2
  let y : K := (detection_boundaries.min.m_y : K) + (detection_boundaries.height : K) / 2
  jacobianAround measurement_frame_coordinates detection_frame_coordinates x y

end JacobianSourceTask

/-! The coordinate systems of `JacobianGroupTask_test.cpp`. -/

def NoopCoordinateSystem {K : Type} : CoordinateSystem K where
  imageToWorld := fun image_coordinate => ⟨image_coordinate.m_x, image_coordinate.m_y⟩
  worldToImage := fun world_coordinate => ⟨world_coordinate.m_alpha, world_coordinate.m_delta⟩

def ShearCoordinates {K : Type} [Field K] : CoordinateSystem K where
  imageToWorld := fun image_coordinate =>
    ⟨image_coordinate.m_x - image_coordinate.m_y, image_coordinate.m_y⟩
  worldToImage := fun world_coordinate =>
    ⟨world_coordinate.m_alpha + world_coordinate.m_delta, world_coordinate.m_delta⟩

/-- The group of the tests: one source with the given coordinate systems, and a group stamp of
100 x 100 pixels with its top left corner at `(100, 100)`. -/
def jacobianTestGroup {K : Type} (measurement_coord_system detection_coord_system :
    CoordinateSystem K) : JacobianGroupInput K where
  sources := [⟨fun _ => measurement_coord_system, detection_coord_system, ⟨⟨0, 0⟩, 0, 0⟩⟩]
  detectionFrameGroupStamp := ⟨⟨100, 100⟩, 100, 100⟩

/-! ## The measurement frame task factory
(`trunk/SEImplementation/src/lib/Plugin/MeasurementFrame/MeasurementFrameTaskFactory.cpp`) -/

/-- What `createTask` reads of a `PropertyId`: `getTypeId()` and `getIndex()`. -/
structure PropertyId where
  typeId : Nat
  index : Nat
deriving DecidableEq, Repr

/-- The tasks that the factory makes, with their constructor arguments. -/
inductive MeasurementTask (Image : Type) where
  | MeasurementFrameTask (index : Nat) (measurement_image : Image)
  | DefaultMeasurementFrameTask (index : Nat)
deriving DecidableEq, Repr

namespace MeasurementFrameTaskFactory

/-- The function `createTask`; `measurementFrameTypeId` is the type id of
`PropertyId::create<MeasurementFrame>()` and `none` is the null pointer. -/
def createTask {Image : Type} (measurementFrameTypeId : Nat) (m_measurement_images : List Image)
    (property_id : PropertyId) : Option (MeasurementTask Image) :=
  if property_id.typeId = measurementFrameTypeId then
    let index := property_id.index
    if h : index < m_measurement_images.length then
      some (MeasurementTask.MeasurementFrameTask index (m_measurement_images.get ⟨index, h⟩))
    else if index = 0 then
      -- By default if no measurement image is provided we use the detection image
      some (MeasurementTask.DefaultMeasurementFrameTask index)
    else
      none
  else
    none

end MeasurementFrameTaskFactory

/-! ## The source interface of the data model (`DataModel/tests/src/SourceInterface_test.cpp`)

Only the test of `SourceInterface` is among the sources. -/

namespace DataModel

/-- Modelled from the spec: the `PropertyId` of the data model (`DataModel/PropertyId.h` is
missing), a type tag with a discriminator that is either absent or an explicit name; equality
is structural. -/
structure PropertyId where
  typeId : Nat
  name : Option String
deriving DecidableEq, Repr

/-- Modelled from the spec: `SourceInterface::getProperty<T>()` (`DataModel/SourceInterface.h`
is missing), which resolves the property through the virtual `getPropertyImpl` under the key of
the type with no discriminator.  Returns the property together with the keys with which
`getPropertyImpl` was called. -/
def getProperty {P : Type} (getPropertyImpl : PropertyId → P) (T : Nat) :
    P × List PropertyId :=
  (getPropertyImpl ⟨T, none⟩, [⟨T, none⟩])

/-- Modelled from the spec: `SourceInterface::getProperty<T>(name)`
(`DataModel/SourceInterface.h` is missing), which resolves the property through the virtual
`getPropertyImpl` under the key of the type with the discriminator `name`.  Returns the
property together with the keys with which `getPropertyImpl` was called. -/
def getPropertyNamed {P : Type} (getPropertyImpl : PropertyId → P) (T : Nat) (name : String) :
    P × List PropertyId :=
  (getPropertyImpl ⟨T, some name⟩, [⟨T, some name⟩])

/-- The `ExampleProperty` of the test. -/
structure ExampleProperty where
  m_value : Int
deriving DecidableEq, Repr

/-- The mock of the test: `getPropertyImpl` returns `example_property_one` for the key of
`ExampleProperty` alone, `example_property_two` for the key with the name `"test"`, and no
other call is expected. -/
def mockGetPropertyImpl (exampleType : Nat) (property_id : PropertyId) :
    Option ExampleProperty :=
  if property_id = ⟨exampleType, none⟩ then some ⟨1⟩
  else if property_id = ⟨exampleType, some "test"⟩ then some ⟨2⟩
  else none

end DataModel

/-! ## The registry of least-squares engines
(`ModelFitting/ModelFitting/Engine/LeastSquareEngineManager.h`)

Only the declarations of the manager are among the sources. -/

namespace LeastSquareEngineManager

/-- Two names are equal up to the case of their letters. -/
def equalsIgnoreCase (a b : List Char) : Bool :=
  decide (a.map Char.toLower = b.map Char.toLower)

/-- Modelled from the spec: the global registry of the manager
(`LeastSquareEngineManager.cpp` is missing), the registrations made so far, each a name with
its factory method from the maximum number of iterations to an engine. -/
abbrev Registry (E : Type) := List (List Char × (Nat → E))

/-- Modelled from the spec: `registerEngine(name, factory_method)`
(`LeastSquareEngineManager.cpp` is missing) records the factory under the name. -/
def registerEngine {E : Type} (registry : Registry E) (name : List Char)
    (factory_method : Nat → E) : Registry E :=
  registry ++ [(name, factory_method)]

/-- Modelled from the spec: `create(name, max_iterations)` (`LeastSquareEngineManager.cpp` is
missing) looks the name up without regard to case and calls the factory found with
`max_iterations`; `none` is the exception for an unknown engine. -/
def create {E : Type} (registry : Registry E) (name : List Char) (max_iterations : Nat) :
    Option E :=
  match registry.find? (fun entry => equalsIgnoreCase entry.1 name) with
  | none => none
  | some entry => some (entry.2 max_iterations)

end LeastSquareEngineManager

/-! ## The Levenberg-Marquardt engine (`ModelFitting/src/lib/Engine/LevmarEngine.cpp`)

The branch compiled with the levmar library.  `D` is the type `double`, `E` the state of the
`EngineParameterManager` and `R` the `ResidualEstimator`. -/

/-- The classes and the library that `LevmarEngine::solveProblem` calls. -/
structure LevmarCollaborators (D E R : Type) where
  numberOfParameters : E → Nat
  getEngineValues : E → List D
  numberOfResiduals : R → Nat
  /-- The call of `dlevmar_dif` with the parameter values, the number of parameters, the number
  of residuals, the maximum number of iterations and the options: its return code, the `info`
  array, the covariance it writes, and the manager after the calls of the residual function. -/
  dlevmar_dif : E → R → List D → Nat → Nat → Nat → List D →
    Int × (Nat → D) × (Nat → D) × E
  convertCovarianceMatrixToWorldSpace : E → List D → List D
  sqrt : D → D
  /-- The conversion of a `double` to `size_t`. -/
  toSize : D → Nat

/-- The members of `LevmarEngine`. -/
structure LevmarEngine (D : Type) where
  m_itmax : Nat
  m_opts : List D

/-- The fields of `LeastSquareSummary` that this engine fills. -/
structure LevmarSummary (D : Type) where
  success_flag : Bool
  iteration_no : Nat
  parameter_sigmas : List D
  underlying_framework_info : List D

namespace LevmarEngine

/-- The loop of `solveProblem` that fills `summary.parameter_sigmas` (lines 101-103), for
`n = numberOfParameters()`, from the index `i` on, `remaining` indices being left; `none` when
the converted matrix is read outside its bounds. -/
def pushSigmas {D : Type} (sqrt : D → D) (converted_covariance_matrix : List D) (n : Nat) :
    Nat → Nat → List D → Option (List D)
  | 0, _, parameter_sigmas => some parameter_sigmas
  | remaining + 1, i, parameter_sigmas =>
    match converted_covariance_matrix[i * (n + 1)]? with
    | none => none
    | some element =>
      pushSigmas sqrt converted_covariance_matrix n remaining (i + 1)
        (parameter_sigmas ++ [sqrt element])

/-- Returns the summary and the manager after the minimisation. -/
def solveProblem {D E R : Type} (L : LevmarCollaborators D E R) (engine : LevmarEngine D)
    (parameter_manager : E) (residual_estimator : R) : Option (LevmarSummary D × E) :=
  let param_values := L.getEngineValues parameter_manager
  let size := L.numberOfParameters parameter_manager * L.numberOfParameters parameter_manager
  -- Call the levmar library
  let res := L.dlevmar_dif parameter_manager residual_estimator param_values
    (L.numberOfParameters parameter_manager) (L.numberOfResiduals residual_estimator)
    engine.m_itmax engine.m_opts
  let info := (List.range 10).map res.2.1
  let covariance_matrix := (List.range size).map res.2.2.1
  let manager2 := res.2.2.2
  -- Create and return the summary object
  let converted_covariance_matrix :=
    L.convertCovarianceMatrixToWorldSpace manager2 covariance_matrix
  match pushSigmas L.sqrt converted_covariance_matrix (L.numberOfParameters manager2)
      (L.numberOfParameters manager2) 0 [] with
  | none => none
  | some parameter_sigmas =>
    some ({ success_flag := decide (res.1 ≠ -1)
            iteration_no := L.toSize (res.2.1 5)
            parameter_sigmas := parameter_sigmas
            underlying_framework_info := info }, manager2)

end LevmarEngine

/-! ## The engines -/

theorem pushSigmas_some {D : Type} (sqrt : D → D) (converted : List D) (n : Nat)
    (hsize : converted.length = n * n) (remaining i : Nat) (acc : List D)
    (hle : i + remaining ≤ n) :
    ∃ out, LevmarEngine.pushSigmas sqrt converted n remaining i acc = some (acc ++ out) ∧
      out.length = remaining ∧
      ∀ j, j < remaining → ∃ element, converted[(i + j) * (n + 1)]? = some element ∧
        out[j]? = some (sqrt element) := by
  induction remaining generalizing i acc with
  | zero => exact ⟨[], by simp [LevmarEngine.pushSigmas], rfl, fun j hj => absurd hj (by omega)⟩
  | succ k ih =>
    have hlt : i * (n + 1) < converted.length := by
      rw [hsize]
      have h1 : i + 1 ≤ n := by omega
      have h2 : (i + 1) * n ≤ n * n := Nat.mul_le_mul_right n h1
      have h3 : i * (n + 1) < (i + 1) * n := by
        rw [Nat.mul_add, Nat.add_mul]
        omega
      omega
    have hget : converted[i * (n + 1)]? = some (converted[i * (n + 1)]) :=
      List.getElem?_eq_getElem hlt
    obtain ⟨out, hout, hlen, hall⟩ := ih (i + 1) (acc ++ [sqrt (converted[i * (n + 1)])])
      (by omega)
    refine ⟨sqrt (converted[i * (n + 1)]) :: out, ?_, by simp [hlen], ?_⟩
    · simp only [LevmarEngine.pushSigmas, hget, hout, List.append_assoc, List.singleton_append]
    · intro j hj
      cases j with
      | zero => exact ⟨converted[i * (n + 1)], by simp, by simp⟩
      | succ j2 =>
        obtain ⟨element, he, ho⟩ := hall j2 (by omega)
        refine ⟨element, ?_, by simpa using ho⟩
        rw [show i + (j2 + 1) = i + 1 + j2 by omega]
        exact he

/-! ## Casting the values of a FITS header (`SEFramework/src/lib/FITS/FitsImageSource.cpp`)

A `std::string` is read as the list of its characters; an exception is the result `none`. -/

/-- The alternatives of `MetadataEntry::value_t` that `valueAutoCast` returns. -/
inductive MetadataValue (D : Type) where
  | int64 (value : Int)
  | double (value : D)
  | char (value : Char)
  | string (value : List Char)
deriving DecidableEq, Repr

/-- The library functions that `valueAutoCast` calls, apart from `std::stol`: `std::isdigit`
(of which the standard only says that it is non-zero for a decimal digit),
`boost::regex_match` with `float_regex`, `std::stod`, and the extraction through
`boost::io::quoted`. -/
structure HeaderLibrary (D : Type) where
  isdigit : Char → Nat
  regex_match_float : List Char → Bool
  stod : List Char → Option D
  unquoted : List Char → List Char

/-- The largest value of a 64-bit `long`. -/
def LONG_MAX : Int := 9223372036854775807

/-- The least value of a 64-bit `long`. -/
def LONG_MIN : Int := -9223372036854775808

/-- The characters that `strtol` skips: the space and the characters 9 to 13. -/
def isSpace (c : Char) : Bool := decide (c.toNat = 32 ∨ (9 ≤ c.toNat ∧ c.toNat ≤ 13))

/-- The decimal digits `'0'` to `'9'`. -/
def isDecimalDigit (c : Char) : Bool := decide (48 ≤ c.toNat ∧ c.toNat ≤ 57)

def digitValue (c : Char) : Nat := c.toNat - 48

/-- The library function `std::stol(value)` in base 10 for a 64-bit `long`: white space is
skipped, a sign is read, then the longest run of digits; `none` is `std::invalid_argument`
when there is no digit and `std::out_of_range` when the value does not fit a `long`. -/
def stol (value : List Char) : Option Int :=
  let rest := value.dropWhile isSpace
  let signed : Bool × List Char :=
    match rest with
    | [] => (false, [])
    | c :: r =>
      if c.toNat = 45 then (true, r)
      else if c.toNat = 43 then (false, r)
      else (false, c :: r)
  let digits := signed.2.takeWhile isDecimalDigit
  if digits.isEmpty then
    none
  else
    let magnitude : Nat := digits.foldl (fun acc c => 10 * acc + digitValue c) 0
    let result : Int := if signed.1 then -(magnitude : Int) else (magnitude : Int)
    if result < LONG_MIN ∨ LONG_MAX < result then none else some result

def valueAutoCast {D : Type} (L : HeaderLibrary D) (value : List Char) :
    Option (MetadataValue D) :=
  let ndigits := value.foldl (fun ndigits c => ndigits + L.isdigit c) 0
  if value.isEmpty then
    some (MetadataValue.string value)
  else if ndigits = value.length then
    (stol value).map MetadataValue.int64
  else if L.regex_match_float value then
    (L.stod value).map MetadataValue.double
  else if value.length = 1 then
    (value[0]?).map MetadataValue.char
  else
    some (MetadataValue.string (L.unquoted value))

/-- The number that a string of decimal digits denotes. -/
def decimalValue (value : List Char) : Nat :=
  Nat.ofDigits 10 (value.reverse.map digitValue)

/-- A library whose `isdigit` returns `1` for a digit and `0` otherwise, with no match of the
regular expression and the strings left as they are. -/
def testHeaderLibrary : HeaderLibrary Int where
  isdigit := fun c => if isDecimalDigit c then 1 else 0
  regex_match_float := fun _ => false
  stod := fun _ => none
  unquoted := fun value => value

theorem foldl_digits_eq (l : List Char) (a : Nat) :
    l.foldl (fun acc c => 10 * acc + digitValue c) a
      = a * 10 ^ l.length + Nat.ofDigits 10 (l.reverse.map digitValue) := by
  induction l generalizing a with
  | nil => simp
  | cons c cs ih =>
    simp only [List.foldl_cons, ih, List.reverse_cons, List.map_append, List.map_cons,
      List.map_nil, Nat.ofDigits_append, List.length_map, List.length_reverse,
      Nat.ofDigits_singleton, List.length_cons]
    ring

theorem foldl_isdigit_eq {D : Type} (L : HeaderLibrary D) (l : List Char)
    (h : ∀ c ∈ l, L.isdigit c = 1) (a : Nat) :
    l.foldl (fun ndigits c => ndigits + L.isdigit c) a = a + l.length := by
  induction l generalizing a with
  | nil => simp
  | cons c cs ih =>
    simp only [List.foldl_cons, List.length_cons]
    rw [ih (fun x hx => h x (List.mem_cons_of_mem c hx)), h c (List.mem_cons_self c cs)]
    omega

/-- On a non-empty string of digits `std::stol` returns the number denoted, unless it exceeds
`LONG_MAX`. -/
theorem stol_of_digits (value : List Char) (hne : value ≠ [])
    (hdigits : ∀ c ∈ value, isDecimalDigit c = true) :
    stol value
      = if LONG_MAX < (decimalValue value : Int) then none
        else some (decimalValue value : Int) := by
  cases value with
  | nil => exact absurd rfl hne
  | cons c cs =>
    have hc := hdigits c (List.mem_cons_self c cs)
    have hc2 : 48 ≤ c.toNat ∧ c.toNat ≤ 57 := by simpa [isDecimalDigit] using hc
    have hspace : isSpace c = false := by
      simp only [isSpace, decide_eq_false_iff_not]
      omega
    have h45 : ¬ c.toNat = 45 := by omega
    have h43 : ¬ c.toNat = 43 := by omega
    have htake : (c :: cs).takeWhile isDecimalDigit = c :: cs :=
      List.takeWhile_eq_self_iff.mpr hdigits
    have hlow : ¬ ((decimalValue (c :: cs) : Int) < LONG_MIN) := by
      have : (0 : Int) ≤ (decimalValue (c :: cs) : Int) := Int.ofNat_nonneg _
      unfold LONG_MIN
      omega
    have hfold : (c :: cs).foldl (fun acc c => 10 * acc + digitValue c) 0
        = decimalValue (c :: cs) := by
      rw [foldl_digits_eq, Nat.zero_mul, Nat.zero_add]
      rfl
    simp only [stol, List.dropWhile_cons, hspace, Bool.false_eq_true, if_false, h45, h43, htake,
      List.isEmpty_cons, hfold]
    generalize decimalValue (c :: cs) = v at hlow ⊢
    by_cases hhigh : LONG_MAX < (v : Int)
    · simp [hhigh]
    · simp [hhigh, hlow]

/-! ## The stamp of a group
(`SEImplementation/src/lib/Plugin/DetectionFrameGroupStamp/DetectionFrameGroupStampTask.cpp`) -/

/-- What the task reads of the `PixelBoundaries` of a source: `getMin()` and `getMax()`. -/
structure SourceBoundaries where
  min : PixelCoordinate
  max : PixelCoordinate
deriving DecidableEq, Repr

def INT_MAX : Int := 2147483647

def INT_MIN : Int := -2147483648

/-- The rectangle of the stamp: the variables `min`, `max`, `width` and `height` with which
the sub-images are created. -/
structure GroupStampRectangle where
  min : PixelCoordinate
  max : PixelCoordinate
  width : Int
  height : Int
deriving DecidableEq, Repr

namespace DetectionFrameGroupStampTask

/-- The loop over the sources (lines 47-56), on `min_x`, `min_y`, `max_x` and `max_y`. -/
def groupBounds : List SourceBoundaries → Int × Int × Int × Int → Int × Int × Int × Int
  | [], bounds => bounds
  | boundaries :: rest, (min_x, min_y, max_x, max_y) =>
    groupBounds rest (Min.min min_x boundaries.min.m_x, Min.min min_y boundaries.min.m_y,
      Max.max max_x boundaries.max.m_x, Max.max max_y boundaries.max.m_y)

/-- The function `computeProperties` on the boundaries of the sources of the group, for a
detection image of `image_width` x `image_height` pixels; `timesPointEight` is the product of
a coordinate with `.8` (the operator of `PixelCoordinate` is not among the sources).  Returns
`none` for an empty group, whose first source must not be read. -/
def computeProperties (timesPointEight : Int → Int) (image_width image_height : Int)
    (group : List SourceBoundaries) : Option GroupStampRectangle :=
  match group with
  | [] => none
  | _ :: _ =>
    let bounds := groupBounds group (INT_MAX, INT_MAX, INT_MIN, INT_MIN)
    let max : PixelCoordinate := ⟨bounds.2.2.1, bounds.2.2.2⟩
    let min : PixelCoordinate := ⟨bounds.1, bounds.2.1⟩
    -- enlarge the area by a fixed amount of pixels
    let border : PixelCoordinate :=
      ⟨timesPointEight (max.m_x - min.m_x) + 2, timesPointEight (max.m_y - min.m_y) + 2⟩
    let min2 : PixelCoordinate := ⟨min.m_x - border.m_x, min.m_y - border.m_y⟩
    let max2 : PixelCoordinate := ⟨max.m_x + border.m_x, max.m_y + border.m_y⟩
    -- clip to image size
    let min3 : PixelCoordinate := ⟨Max.max min2.m_x 0, Max.max min2.m_y 0⟩
    let max3 : PixelCoordinate :=
      ⟨Min.min max2.m_x (image_width - 1), Min.min max2.m_y (image_height - 1)⟩
    -- create the image stamp
    let width := max3.m_x - min3.m_x + 1
    let height := max3.m_y - min3.m_y + 1
    some ⟨min3, max3, width, height⟩

end DetectionFrameGroupStampTask

theorem groupBounds_spec (group : List SourceBoundaries) (bounds : Int × Int × Int × Int) :
    (DetectionFrameGroupStampTask.groupBounds group bounds).1 ≤ bounds.1 ∧
    (DetectionFrameGroupStampTask.groupBounds group bounds).2.1 ≤ bounds.2.1 ∧
    bounds.2.2.1 ≤ (DetectionFrameGroupStampTask.groupBounds group bounds).2.2.1 ∧
    bounds.2.2.2 ≤ (DetectionFrameGroupStampTask.groupBounds group bounds).2.2.2 ∧
    ∀ boundaries ∈ group,
      (DetectionFrameGroupStampTask.groupBounds group bounds).1 ≤ boundaries.min.m_x ∧
      (DetectionFrameGroupStampTask.groupBounds group bounds).2.1 ≤ boundaries.min.m_y ∧
      boundaries.max.m_x ≤ (DetectionFrameGroupStampTask.groupBounds group bounds).2.2.1 ∧
      boundaries.max.m_y ≤ (DetectionFrameGroupStampTask.groupBounds group bounds).2.2.2 := by
  induction group generalizing bounds with
  | nil =>
    simp [DetectionFrameGroupStampTask.groupBounds]
  | cons b rest ih =>
    obtain ⟨min_x, min_y, max_x, max_y⟩ := bounds
    simp only [DetectionFrameGroupStampTask.groupBounds]
    obtain ⟨h1, h2, h3, h4, hall⟩ := ih (Min.min min_x b.min.m_x, Min.min min_y b.min.m_y,
      Max.max max_x b.max.m_x, Max.max max_y b.max.m_y)
    simp only at h1 h2 h3 h4
    have a1 := min_le_left min_x b.min.m_x
    have a2 := min_le_right min_x b.min.m_x
    have a3 := min_le_left min_y b.min.m_y
    have a4 := min_le_right min_y b.min.m_y
    have a5 := le_max_left max_x b.max.m_x
    have a6 := le_max_right max_x b.max.m_x
    have a7 := le_max_left max_y b.max.m_y
    have a8 := le_max_right max_y b.max.m_y
    refine ⟨by omega, by omega, by omega, by omega, ?_⟩
    intro boundaries hb
    rcases List.mem_cons.mp hb with rfl | hrest
    · exact ⟨by omega, by omega, by omega, by omega⟩
    · exact hall boundaries hrest

/-! ## The conversion of the weight map
(`trunk/SEImplementation/src/lib/Configuration/WeightImageConfig.cpp`) -/

namespace HistogramImage

/-- The function `std::div`: the quotient truncated towards zero and the remainder. -/
def div (x y : Int) : Int × Int :=
  (Int.tdiv x y, Int.tmod x y)

/-- The width and the height of `m_mode`, as the constructor computes them (lines 38-45). -/
def gridSize (image_width image_height m_cell_w m_cell_h : Int) : Int × Int :=
  let hist_width := div image_width m_cell_w
  let hist_width_quot := if hist_width.2 ≠ 0 then hist_width.1 + 1 else hist_width.1
  let hist_height := div image_height m_cell_h
  let hist_height_quot := if hist_height.2 ≠ 0 then hist_height.1 + 1 else hist_height.1
  (hist_width_quot, hist_height_quot)

/-- The arguments of `getChunk` in `processCell`. -/
structure Chunk where
  off_x : Int
  off_y : Int
  w : Int
  h : Int
deriving DecidableEq, Repr

/-- The block of pixels that `processCell(x, y)` reads (lines 109-114). -/
def processCell (image_width image_height m_cell_w m_cell_h : Int) (x y : Int) : Chunk :=
  let off_x := x * m_cell_w
  let off_y := y * m_cell_h
  let w := Min.min m_cell_w (image_width - off_x)
  let h := Min.min m_cell_h (image_height - off_y)
  ⟨off_x, off_y, w, h⟩

/-- The calls `processCell(x, y)` of the loop that initialises the grid, in order. -/
def processedCells (image_width image_height m_cell_w m_cell_h : Int) : List (Int × Int) :=
  let m_mode := gridSize image_width image_height m_cell_w m_cell_h
  forPixels m_mode.1 m_mode.2 (fun x y cells => cells ++ [(x, y)]) []

/-- The pixel `(px, py)` is one of the pixels of the chunk. -/
def Chunk.contains (chunk : Chunk) (px py : Int) : Prop :=
  (chunk.off_x ≤ px ∧ px < chunk.off_x + chunk.w) ∧
  (chunk.off_y ≤ py ∧ py < chunk.off_y + chunk.h)

instance (chunk : Chunk) (px py : Int) : Decidable (chunk.contains px py) := by
  unfold Chunk.contains
  infer_instance

end HistogramImage

theorem foldl_append_singleton {α β : Type} (g : α → β) (l : List α) (s : List β) :
    l.foldl (fun acc i => acc ++ [g i]) s = s ++ l.map g := by
  induction l generalizing s with
  | nil => simp
  | cons a as ih => simp [ih]

theorem foldl_append_lists {α β : Type} (g : α → List β) (l : List α) (s : List β) :
    l.foldl (fun acc i => acc ++ g i) s = s ++ l.flatMap g := by
  induction l generalizing s with
  | nil => simp
  | cons a as ih => simp [ih]

theorem forPixels_collect {β : Type} (f : Int → Int → β) (width height : Int) :
    forPixels width height (fun x y cells => cells ++ [f x y]) []
      = (List.range height.toNat).flatMap
          (fun y => (List.range width.toNat).map (fun x => f (Int.ofNat x) (Int.ofNat y))) := by
  unfold forPixels forRange
  have hinner : (fun (acc : List β) (y : Nat) =>
        (List.range width.toNat).foldl
          (fun acc2 x => acc2 ++ [f (Int.ofNat x) (Int.ofNat y)]) acc)
      = fun acc y => acc ++ (List.range width.toNat).map
          (fun x => f (Int.ofNat x) (Int.ofNat y)) := by
    funext acc y
    exact foldl_append_singleton _ _ _
  rw [hinner, foldl_append_lists]
  simp

theorem mem_forPixels_collect (width height : Int) (a b : Int) :
    (a, b) ∈ forPixels width height (fun x y cells => cells ++ [(x, y)]) []
      ↔ (0 ≤ a ∧ a < width) ∧ (0 ≤ b ∧ b < height) := by
  rw [forPixels_collect]
  simp only [List.mem_flatMap, List.mem_map, List.mem_range, Prod.mk.injEq]
  constructor
  · rintro ⟨y, hy, x, hx, rfl, rfl⟩
    simp only [Int.ofNat_eq_coe]
    omega
  · rintro ⟨⟨ha0, ha⟩, hb0, hb⟩
    refine ⟨b.toNat, by omega, a.toNat, by omega, ?_, ?_⟩
    · simp only [Int.ofNat_eq_coe]
      omega
    · simp only [Int.ofNat_eq_coe]
      omega

theorem nodup_forPixels_collect (width height : Int) :
    (forPixels width height (fun x y cells => cells ++ [(x, y)]) []).Nodup := by
  rw [forPixels_collect]
  rw [List.nodup_flatMap]
  constructor
  · intro y _
    apply List.Nodup.map
    · intro x1 x2 h
      simp only [Prod.mk.injEq, Int.ofNat_eq_coe, Nat.cast_inj, and_true] at h
      exact h
    · exact List.nodup_range _
  · apply List.Pairwise.imp _ (List.nodup_range height.toNat)
    intro y1 y2 hne
    simp only [Function.onFun]
    rw [List.disjoint_left]
    intro cell h1 h2
    simp only [List.mem_map, List.mem_range] at h1 h2
    obtain ⟨x1, _, rfl⟩ := h1
    obtain ⟨x2, _, h⟩ := h2
    simp only [Prod.mk.injEq, Int.ofNat_eq_coe, Nat.cast_inj] at h
    exact hne h.2.symm

/-- The quotient that the constructor keeps, for one direction. -/
def HistogramImage.gridLength (image_length m_cell_length : Int) : Int :=
  if (HistogramImage.div image_length m_cell_length).2 ≠ 0 then
    (HistogramImage.div image_length m_cell_length).1 + 1
  else (HistogramImage.div image_length m_cell_length).1

theorem gridSize_eq (image_width image_height m_cell_w m_cell_h : Int) :
    HistogramImage.gridSize image_width image_height m_cell_w m_cell_h
      = (HistogramImage.gridLength image_width m_cell_w,
         HistogramImage.gridLength image_height m_cell_h) := rfl

/-- A cell index is below the grid length exactly when its offset is inside the image. -/
theorem lt_gridLength_iff (image_length m_cell_length : Int) (hlength : 0 ≤ image_length)
    (hcell : 1 ≤ m_cell_length) (x : Int) :
    x < HistogramImage.gridLength image_length m_cell_length
      ↔ x * m_cell_length < image_length := by
  have hdiv : Int.tdiv image_length m_cell_length = image_length / m_cell_length :=
    Int.tdiv_eq_ediv hlength (by omega)
  have hmod : Int.tmod image_length m_cell_length = image_length % m_cell_length :=
    Int.tmod_eq_emod hlength (by omega)
  have hsplit := Int.ediv_add_emod image_length m_cell_length
  have hrem0 := Int.emod_nonneg image_length (show m_cell_length ≠ 0 by omega)
  have hrem1 := Int.emod_lt_of_pos image_length (show 0 < m_cell_length by omega)
  simp only [HistogramImage.gridLength, HistogramImage.div, hdiv, hmod]
  generalize image_length / m_cell_length = q at hsplit ⊢
  generalize image_length % m_cell_length = r at hsplit hrem0 hrem1 ⊢
  subst hsplit
  by_cases hr : r = 0
  · subst hr
    simp only [ne_eq, not_true_eq_false, if_false, add_zero]
    constructor
    · intro h
      have := mul_lt_mul_of_pos_right h (show 0 < m_cell_length by omega)
      linarith
    · intro h
      by_contra hcon
      have hle : q ≤ x := not_lt.mp hcon
      have := mul_le_mul_of_nonneg_right hle (show 0 ≤ m_cell_length by omega)
      linarith
  · simp only [ne_eq, hr, not_false_eq_true, if_true]
    constructor
    · intro h
      have hle : x ≤ q := by omega
      have := mul_le_mul_of_nonneg_right hle (show 0 ≤ m_cell_length by omega)
      have hrpos : 0 < r := by omega
      linarith
    · intro h
      by_contra hcon
      have hle : q + 1 ≤ x := by omega
      have := mul_le_mul_of_nonneg_right hle (show 0 ≤ m_cell_length by omega)
      linarith

theorem gridLength_eq_ceil (image_length m_cell_length : Int) (hlength : 0 ≤ image_length)
    (hcell : 1 ≤ m_cell_length) :
    HistogramImage.gridLength image_length m_cell_length
      = ⌈(image_length : ℚ) / (m_cell_length : ℚ)⌉ := by
  symm
  rw [Int.ceil_eq_iff]
  have hpos : (0 : ℚ) < (m_cell_length : ℚ) := by exact_mod_cast (show 0 < m_cell_length by omega)
  have hbelow := (lt_gridLength_iff image_length m_cell_length hlength hcell
    (HistogramImage.gridLength image_length m_cell_length - 1)).mp (by omega)
  have habove : image_length
      ≤ HistogramImage.gridLength image_length m_cell_length * m_cell_length := by
    by_contra hcon
    have := (lt_gridLength_iff image_length m_cell_length hlength hcell
      (HistogramImage.gridLength image_length m_cell_length)).mpr (not_le.mp hcon)
    omega
  constructor
  · rw [lt_div_iff₀ hpos]
    exact_mod_cast hbelow
  · rw [div_le_iff₀ hpos]
    exact_mod_cast habove

/-- One direction of the partition: the cells along an axis are non-empty, lie inside the
image, and every coordinate is in exactly one of them. -/
theorem gridLength_partition (image_length m_cell_length : Int) (hlength : 0 ≤ image_length)
    (hcell : 1 ≤ m_cell_length) :
    (∀ x : Int, 0 ≤ x → x < HistogramImage.gridLength image_length m_cell_length →
      1 ≤ Min.min m_cell_length (image_length - x * m_cell_length) ∧
      0 ≤ x * m_cell_length ∧
      x * m_cell_length + Min.min m_cell_length (image_length - x * m_cell_length)
        ≤ image_length) ∧
    (∀ p : Int, 0 ≤ p → p < image_length →
      (0 ≤ p / m_cell_length ∧
        p / m_cell_length < HistogramImage.gridLength image_length m_cell_length) ∧
      ∀ x : Int,
        (x * m_cell_length ≤ p ∧
          p < x * m_cell_length + Min.min m_cell_length (image_length - x * m_cell_length))
        ↔ x = p / m_cell_length) := by
  have hpos : 0 < m_cell_length := by omega
  constructor
  · intro x hx0 hx
    have hoff := (lt_gridLength_iff image_length m_cell_length hlength hcell x).mp hx
    have hnonneg : 0 ≤ x * m_cell_length := mul_nonneg hx0 (by omega)
    have hmin1 := min_le_left m_cell_length (image_length - x * m_cell_length)
    have hmin2 := min_le_right m_cell_length (image_length - x * m_cell_length)
    have hmin3 : 1 ≤ Min.min m_cell_length (image_length - x * m_cell_length) :=
      le_min hcell (by omega)
    exact ⟨hmin3, hnonneg, by omega⟩
  · intro p hp0 hp
    have hsplit := Int.ediv_add_emod p m_cell_length
    have hrem0 := Int.emod_nonneg p (show m_cell_length ≠ 0 by omega)
    have hrem1 := Int.emod_lt_of_pos p hpos
    have hq0 : 0 ≤ p / m_cell_length := Int.ediv_nonneg hp0 (by omega)
    have hcomm : m_cell_length * (p / m_cell_length) = p / m_cell_length * m_cell_length :=
      mul_comm _ _
    have hqlt : p / m_cell_length < HistogramImage.gridLength image_length m_cell_length :=
      (lt_gridLength_iff image_length m_cell_length hlength hcell _).mpr (by omega)
    refine ⟨⟨hq0, hqlt⟩, ?_⟩
    intro x
    constructor
    · rintro ⟨hlow, hhigh⟩
      have hmin1 := min_le_left m_cell_length (image_length - x * m_cell_length)
      have h1 : x ≤ p / m_cell_length := Int.le_ediv_of_mul_le hpos hlow
      have h2 : p / m_cell_length < x + 1 :=
        Int.ediv_lt_of_lt_mul hpos (by rw [add_mul]; omega)
      omega
    · intro hx
      subst hx
      refine ⟨by omega, ?_⟩
      rcases min_choice m_cell_length (image_length - p / m_cell_length * m_cell_length)
        with h | h
      · rw [h]; omega
      · rw [h]; omega

/-! ## The cleaning of a group (`SEImplementation/src/lib/Deblending/Cleaning.cpp`) -/

namespace Cleaning

/-- The arithmetic on `double` that the class uses: `0`, `+=`, `>` and `>=`. -/
structure Ops (V : Type) where
  zero : V
  add : V → V → V
  gt : V → V → Bool
  ge : V → V → Bool

/-- The properties that `mergeSources` sets on the source it creates: the
`PixelCoordinateList`, the `DetectionFrame` and the `SourceId`. -/
structure SourceData where
  pixel_list : List PixelCoordinate
  detection_frame : Nat
  source_id : Nat
deriving DecidableEq, Repr

/-- The classes that are not among the sources: `getValue` is
`MoffatModelEvaluator(source).getValue(x, y)` and `getFilteredValues` is the property
`DetectionFramePixelValues` of a source. -/
structure Collaborators (V : Type) where
  getValue : SourceData → Int → Int → V
  getFilteredValues : SourceData → List V

/-- A `SourceGroupInterface::iterator` into the group that `deblend` receives: the position
and the source there.  Two iterators are the same when their positions are. -/
abbrev Iterator := Nat × SourceData

/-- The method `shouldClean`; `none` when `group_influence` is read past its end. -/
def shouldClean {V : Type} (ops : Ops V) (C : Collaborators V) (m_min_area : Nat)
    (source : Iterator) (group : List SourceData) : Option Bool :=
  let pixel_list := source.2.pixel_list
  -- iterate through all other sources in the group
  let group_influence := group.enum.foldl
    (fun influence it =>
      if it.1 = source.1 then influence
      else List.zipWith
        (fun total (pixel : PixelCoordinate) =>
          ops.add total (C.getValue it.2 pixel.m_x pixel.m_y))
        influence pixel_list)
    (List.replicate pixel_list.length ops.zero)
  let pixel_values := C.getFilteredValues source.2
  let still_valid_pixels := pixel_values.enum.foldl
    (fun count iv => count.bind (fun n =>
      (group_influence.get? iv.1).map (fun influence =>
        if ops.gt iv.2 influence then n + 1 else n)))
    (some 0)
  still_valid_pixels.map (fun n => decide (n < m_min_area))

/-- The method `findMostInfluentialSource`; `candidates_0` is `candidates[0]`, which `deblend`
makes sure exists. -/
def findMostInfluentialSource {V : Type} (ops : Ops V) (C : Collaborators V)
    (source : SourceData) (candidates_0 : Iterator) (candidates : List Iterator) : Iterator :=
  let pixel_list := source.pixel_list
  let total_influence_of_sources := candidates.map (fun candidate =>
    pixel_list.foldl
      (fun total pixel => ops.add total (C.getValue candidate.2 pixel.m_x pixel.m_y)) ops.zero)
  ((candidates.zip total_influence_of_sources).foldl
    (fun (most : Iterator × V) (entry : Iterator × V) =>
      if ops.ge entry.2 most.2 then (entry.1, entry.2) else most)
    (candidates_0, ops.zero)).1

/-- The method `mergeSources`. -/
def mergeSources (parent : SourceData) (children : List Iterator) : SourceData :=
  -- Start with a copy of the pixel list of the parent
  let pixel_list := children.foldl (fun list child => list ++ child.2.pixel_list)
    parent.pixel_list
  -- Create a new source with the minimum necessary properties
  ⟨pixel_list, parent.detection_frame, parent.source_id⟩

/-- The sources of the group while `deblend` changes it: those it received, with their
positions, and those it added. -/
abbrev WorkingGroup := List (Option Nat × SourceData)

def addSource (group : WorkingGroup) (source : SourceData) : WorkingGroup :=
  group ++ [(none, source)]

def removeSource (group : WorkingGroup) (it : Iterator) : WorkingGroup :=
  group.filter (fun entry => decide (entry.1 ≠ some it.1))

/-- The statement `merging_map[key].push_back(it)`.  The map compares the addresses of the
sources that the keys point to; different sources have different addresses, so two keys are
the same exactly when their positions are. -/
def mergingMapPush (merging_map : List (Iterator × List Iterator)) (key it : Iterator) :
    List (Iterator × List Iterator) :=
  if merging_map.any (fun pair => decide (pair.1.1 = key.1)) then
    merging_map.map (fun pair => if pair.1.1 = key.1 then (pair.1, pair.2 ++ [it]) else pair)
  else merging_map ++ [(key, [it])]

/-- The first loop of `deblend`: `sources_to_clean` and `remaining_sources`. -/
def classify {V : Type} (ops : Ops V) (C : Collaborators V) (m_min_area : Nat)
    (group : List SourceData) : Option (List Iterator × List Iterator) :=
  group.enum.foldl
    (fun lists it => lists.bind (fun (lists : List Iterator × List Iterator) =>
      (shouldClean ops C m_min_area it group).map (fun clean =>
        if clean then (lists.1 ++ [it], lists.2) else (lists.1, lists.2 ++ [it]))))
    (some ([], []))

/-- The pairs of `merging_map` in the order in which the map is iterated: by the address of
the source that the key points to. -/
def mergingMap {V : Type} (ops : Ops V) (C : Collaborators V) (address : Nat → Nat)
    (sources_to_clean : List Iterator) (candidates_0 : Iterator)
    (remaining_sources : List Iterator) : List (Iterator × List Iterator) :=
  List.insertionSort (fun a b => address a.1.1 ≤ address b.1.1)
    (sources_to_clean.foldl
      (fun merging_map it =>
        let influential_source :=
          findMostInfluentialSource ops C it.2 candidates_0 remaining_sources
        mergingMapPush merging_map influential_source it)
      [])

/-- The second part of `deblend`, from `if (sources_to_clean.size() > 0)` on. -/
def merge {V : Type} (ops : Ops V) (C : Collaborators V) (address : Nat → Nat)
    (group : List SourceData) (sources_to_clean remaining_sources : List Iterator) :
    List SourceData :=
  let working : WorkingGroup := group.enum.map (fun it => (some it.1, it.2))
  if sources_to_clean.length > 0 then
    let merged : WorkingGroup :=
      match remaining_sources with
      | [] => working
      | [remaining_sources_0] =>
        let new_source := mergeSources remaining_sources_0.2 sources_to_clean
        removeSource (addSource working new_source) remaining_sources_0
      | remaining_sources_0 :: _ :: _ =>
        (mergingMap ops C address sources_to_clean remaining_sources_0
            remaining_sources).foldl
          (fun current merging_pair =>
            if merging_pair.2.length > 0 then
              let new_source := mergeSources merging_pair.1.2 merging_pair.2
              removeSource (addSource current new_source) merging_pair.1
            else current)
          working
    (sources_to_clean.foldl removeSource merged).map Prod.snd
  else group

/-- The method `deblend`: the sources of the group afterwards.  `address` gives the address
of the source at a position of the group. -/
def deblend {V : Type} (ops : Ops V) (C : Collaborators V) (m_min_area : Nat)
    (address : Nat → Nat) (group : List SourceData) : Option (List SourceData) :=
  if group.length ≤ 1 then some group
  else
    (classify ops C m_min_area group).map (fun lists =>
      merge ops C address group lists.1 lists.2)

/-- Integer values, for concrete groups. -/
def intOps : Ops Int :=
  ⟨0, fun a b => a + b, fun a b => decide (a > b), fun a b => decide (a ≥ b)⟩

/-- Every model has the value `0` everywhere and every pixel of a source the filtered value
`1`. -/
def flatCollaborators : Collaborators Int :=
  ⟨fun _ _ _ => 0, fun source => source.pixel_list.map (fun _ => 1)⟩

end Cleaning

theorem foldl_invariant_mem {α σ : Type} (P : σ → Prop) (body : σ → α → σ) (l : List α)
    (h : ∀ s, ∀ a ∈ l, P s → P (body s a)) (s : σ) (hs : P s) : P (l.foldl body s) := by
  induction l generalizing s with
  | nil => exact hs
  | cons a as ih =>
    exact ih (fun s2 b hb hs2 => h s2 b (List.mem_cons_of_mem _ hb) hs2) (body s a)
      (h s a (List.mem_cons_self _ _) hs)

namespace Cleaning

theorem enum_eq_of_fst_eq {α : Type} (l : List α) (a b : Nat × α) (ha : a ∈ l.enum)
    (hb : b ∈ l.enum) (h : a.1 = b.1) : a = b := by
  rw [List.mem_enum_iff_getElem?] at ha hb
  rw [h, hb] at ha
  exact Prod.ext h (Option.some.inj ha).symm

/-- The method `shouldClean` returns when the source has no more filtered values than
pixels. -/
theorem shouldClean_isSome {V : Type} (ops : Ops V) (C : Collaborators V) (m_min_area : Nat)
    (source : Iterator) (group : List SourceData)
    (hvalues : (C.getFilteredValues source.2).length ≤ source.2.pixel_list.length) :
    (shouldClean ops C m_min_area source group).isSome = true := by
  unfold shouldClean
  simp only [Option.isSome_map']
  have hlength : (group.enum.foldl
      (fun influence (it : Nat × SourceData) =>
        if it.1 = source.1 then influence
        else List.zipWith
          (fun total (pixel : PixelCoordinate) =>
            ops.add total (C.getValue it.2 pixel.m_x pixel.m_y))
          influence source.2.pixel_list)
      (List.replicate source.2.pixel_list.length ops.zero)).length
        = source.2.pixel_list.length := by
    apply foldl_invariant (fun influence : List V => influence.length = source.2.pixel_list.length)
    · intro influence it hinfluence
      dsimp only
      split
      · exact hinfluence
      · simp [hinfluence]
    · simp
  generalize group.enum.foldl
      (fun influence (it : Nat × SourceData) =>
        if it.1 = source.1 then influence
        else List.zipWith
          (fun total (pixel : PixelCoordinate) =>
            ops.add total (C.getValue it.2 pixel.m_x pixel.m_y))
          influence source.2.pixel_list)
      (List.replicate source.2.pixel_list.length ops.zero) = group_influence at hlength ⊢
  apply foldl_invariant_mem (fun count : Option Nat => count.isSome = true)
  · intro count iv hiv hcount
    obtain ⟨n, rfl⟩ := Option.isSome_iff_exists.mp hcount
    have hlt := List.fst_lt_of_mem_enum hiv
    have hget : iv.1 < group_influence.length := by omega
    simp [List.getElem?_eq_getElem hget]
  · rfl

theorem findMostInfluentialSource_mem {V : Type} (ops : Ops V) (C : Collaborators V)
    (source : SourceData) (candidates_0 : Iterator) (candidates : List Iterator) :
    findMostInfluentialSource ops C source candidates_0 candidates
      ∈ candidates_0 :: candidates := by
  unfold findMostInfluentialSource
  apply foldl_invariant_mem (fun most : Iterator × V => most.1 ∈ candidates_0 :: candidates)
  · intro most entry hentry hmost
    dsimp only
    split
    · exact List.mem_cons_of_mem _ (List.of_mem_zip hentry).1
    · exact hmost
  · exact List.mem_cons_self _ _

theorem mergeSources_pixel_list (parent : SourceData) (children : List Iterator) :
    (mergeSources parent children).pixel_list
      = parent.pixel_list ++ children.flatMap (fun child => child.2.pixel_list) := by
  unfold mergeSources
  simp only
  generalize parent.pixel_list = start
  induction children generalizing start with
  | nil => simp
  | cons child rest ih => simp [ih]

theorem mergeSources_nil (parent : SourceData) : mergeSources parent [] = parent := rfl

end Cleaning

namespace Cleaning

theorem classify_fold {α : Type} (f : α → Option Bool) (l : List α)
    (hsome : ∀ a ∈ l, (f a).isSome = true) (start : List α × List α) :
    l.foldl
      (fun lists it => lists.bind (fun (lists : List α × List α) =>
        (f it).map (fun clean =>
          if clean then (lists.1 ++ [it], lists.2) else (lists.1, lists.2 ++ [it]))))
      (some start)
    = some (start.1 ++ l.filter (fun a => decide (f a = some true)),
        start.2 ++ l.filter (fun a => decide (f a = some false))) := by
  induction l generalizing start with
  | nil => simp
  | cons a as ih =>
    have ha := hsome a (List.mem_cons_self _ _)
    obtain ⟨clean, hclean⟩ := Option.isSome_iff_exists.mp ha
    rw [List.foldl_cons]
    simp only [Option.some_bind, hclean, Option.map_some']
    cases clean with
    | true =>
      rw [if_pos rfl, ih (fun b hb => hsome b (List.mem_cons_of_mem _ hb))]
      simp [hclean]
    | false =>
      rw [if_neg (by simp), ih (fun b hb => hsome b (List.mem_cons_of_mem _ hb))]
      simp [hclean]

/-- The sources that `shouldClean` selects, in the order of the group. -/
def sourcesToClean {V : Type} (ops : Ops V) (C : Collaborators V) (m_min_area : Nat)
    (group : List SourceData) : List Iterator :=
  group.enum.filter (fun it => decide (shouldClean ops C m_min_area it group = some true))

/-- The sources that `shouldClean` does not select, in the order of the group. -/
def remainingSources {V : Type} (ops : Ops V) (C : Collaborators V) (m_min_area : Nat)
    (group : List SourceData) : List Iterator :=
  group.enum.filter (fun it => decide (shouldClean ops C m_min_area it group = some false))

theorem classify_eq {V : Type} (ops : Ops V) (C : Collaborators V) (m_min_area : Nat)
    (group : List SourceData)
    (hsome : ∀ it ∈ group.enum, (shouldClean ops C m_min_area it group).isSome = true) :
    classify ops C m_min_area group
      = some (sourcesToClean ops C m_min_area group,
          remainingSources ops C m_min_area group) := by
  unfold classify
  rw [classify_fold (fun it => shouldClean ops C m_min_area it group) group.enum hsome ([], [])]
  simp [sourcesToClean, remainingSources]

theorem removeSource_addSource (group : WorkingGroup) (source : SourceData) (it : Iterator) :
    removeSource (addSource group source) it = addSource (removeSource group it) source := by
  simp [removeSource, addSource, List.filter_append]

theorem foldl_removeSource (sources : List Iterator) (group : WorkingGroup) :
    sources.foldl removeSource group
      = group.filter (fun entry => sources.all (fun it => decide (entry.1 ≠ some it.1))) := by
  induction sources generalizing group with
  | nil => simp
  | cons it rest ih =>
    rw [List.foldl_cons, ih]
    simp only [removeSource, List.filter_filter, List.all_cons]
    apply List.filter_congr
    intro entry _
    rw [Bool.and_comm]

theorem foldl_merging_pairs (pairs : List (Iterator × List Iterator))
    (hpairs : ∀ pair ∈ pairs, pair.2 ≠ []) (group : WorkingGroup) :
    pairs.foldl
      (fun current merging_pair =>
        if merging_pair.2.length > 0 then
          let new_source := mergeSources merging_pair.1.2 merging_pair.2
          removeSource (addSource current new_source) merging_pair.1
        else current)
      group
    = group.filter (fun entry => pairs.all (fun pair => decide (entry.1 ≠ some pair.1.1)))
      ++ pairs.map (fun pair => (none, mergeSources pair.1.2 pair.2)) := by
  induction pairs generalizing group with
  | nil => simp
  | cons pair rest ih =>
    have hpair : pair.2.length > 0 :=
      List.length_pos.mpr (hpairs pair (List.mem_cons_self _ _))
    rw [List.foldl_cons, if_pos hpair, ih (fun p hp => hpairs p (List.mem_cons_of_mem _ hp))]
    simp only [removeSource_addSource, addSource, List.filter_append, List.map_cons,
      List.append_assoc, removeSource, List.filter_filter, List.all_cons]
    congr 1
    · apply List.filter_congr
      intro entry _
      rw [Bool.and_comm]
    · simp

end Cleaning

namespace Cleaning

/-- What `merging_map` holds after the loop over `sources_to_clean`: one pair for each source
that is the most influential one of some cleaned source, with the cleaned sources that chose
it, in order. -/
theorem mergingMapPush_fold (f : Iterator → Iterator) (processed : List Iterator) :
    ((processed.foldl (fun merging_map it => mergingMapPush merging_map (f it) it) []).map
      (fun pair => pair.1.1)).Nodup ∧
    (∀ pair ∈ processed.foldl (fun merging_map it => mergingMapPush merging_map (f it) it) [],
      pair.2 = processed.filter (fun it => decide ((f it).1 = pair.1.1)) ∧ pair.2 ≠ [] ∧
      ∃ it ∈ processed, f it = pair.1) ∧
    (∀ it ∈ processed,
      ∃ pair ∈ processed.foldl (fun merging_map it => mergingMapPush merging_map (f it) it) [],
        pair.1.1 = (f it).1) := by
  induction processed using List.reverseRecOn with
  | nil => simp
  | append_singleton l a ih =>
    obtain ⟨hnodup, hpairs, hkeys⟩ := ih
    rw [List.foldl_append, List.foldl_cons, List.foldl_nil]
    generalize l.foldl (fun merging_map it => mergingMapPush merging_map (f it) it) [] = m
      at hnodup hpairs hkeys ⊢
    by_cases hany : m.any (fun pair => decide (pair.1.1 = (f a).1)) = true
    · have hpush : mergingMapPush m (f a) a
          = m.map (fun pair => if pair.1.1 = (f a).1 then (pair.1, pair.2 ++ [a]) else pair) := by
        unfold mergingMapPush
        rw [if_pos hany]
      have hkey : ∀ pair : Iterator × List Iterator,
          (if pair.1.1 = (f a).1 then (pair.1, pair.2 ++ [a]) else pair).1 = pair.1 := by
        intro pair
        split <;> rfl
      rw [hpush]
      refine ⟨?_, ?_, ?_⟩
      · rw [List.map_map]
        have : ((fun pair : Iterator × List Iterator => pair.1.1) ∘
            fun pair => if pair.1.1 = (f a).1 then (pair.1, pair.2 ++ [a]) else pair)
            = fun pair => pair.1.1 := by
          funext pair
          simp only [Function.comp, hkey]
        rw [this]
        exact hnodup
      · intro pair2 hpair2
        obtain ⟨pair, hpair, rfl⟩ := List.mem_map.mp hpair2
        obtain ⟨h1, h2, it, hit, hfit⟩ := hpairs pair hpair
        rw [hkey]
        by_cases hc : pair.1.1 = (f a).1
        · rw [if_pos hc]
          refine ⟨?_, by simp, it, List.mem_append_left _ hit, hfit⟩
          simp only [List.filter_append, ← h1]
          simp [hc]
        · rw [if_neg hc]
          refine ⟨?_, h2, it, List.mem_append_left _ hit, hfit⟩
          simp only [List.filter_append, ← h1]
          have : ¬ (f a).1 = pair.1.1 := fun h => hc h.symm
          simp [this]
      · intro it hit
        rcases List.mem_append.mp hit with hl | ha
        · obtain ⟨pair, hpair, hk⟩ := hkeys it hl
          exact ⟨_, List.mem_map.mpr ⟨pair, hpair, rfl⟩, by rw [hkey]; exact hk⟩
        · have hita : it = a := by simpa using ha
          subst hita
          obtain ⟨pair, hpair, hk⟩ := List.any_eq_true.mp hany
          exact ⟨_, List.mem_map.mpr ⟨pair, hpair, rfl⟩,
            by rw [hkey]; exact of_decide_eq_true hk⟩
    · have hpush : mergingMapPush m (f a) a = m ++ [(f a, [a])] := by
        unfold mergingMapPush
        rw [if_neg hany]
      have hfresh : ∀ pair ∈ m, pair.1.1 ≠ (f a).1 := by
        intro pair hpair hk
        exact hany (List.any_eq_true.mpr ⟨pair, hpair, decide_eq_true hk⟩)
      rw [hpush]
      refine ⟨?_, ?_, ?_⟩
      · rw [List.map_append, List.nodup_append]
        refine ⟨hnodup, by simp, ?_⟩
        intro key h1 h2
        obtain ⟨pair, hpair, rfl⟩ := List.mem_map.mp h1
        have : pair.1.1 = (f a).1 := by simpa using h2
        exact hfresh pair hpair this
      · intro pair hpair
        rcases List.mem_append.mp hpair with hm | hnew
        · obtain ⟨h1, h2, it, hit, hfit⟩ := hpairs pair hm
          refine ⟨?_, h2, it, List.mem_append_left _ hit, hfit⟩
          simp only [List.filter_append, ← h1]
          have : ¬ (f a).1 = pair.1.1 := fun h => hfresh pair hm h.symm
          simp [this]
        · have hp : pair = (f a, [a]) := by simpa using hnew
          subst hp
          refine ⟨?_, by simp, a, by simp, rfl⟩
          simp only [List.filter_append]
          have hnone : l.filter (fun it => decide ((f it).1 = (f a).1)) = [] := by
            rw [List.filter_eq_nil_iff]
            intro it hit hdec
            obtain ⟨pair, hpair, hk⟩ := hkeys it hit
            exact hfresh pair hpair (hk.trans (of_decide_eq_true hdec))
          simp [hnone]
      · intro it hit
        rcases List.mem_append.mp hit with hl | ha
        · obtain ⟨pair, hpair, hk⟩ := hkeys it hl
          exact ⟨pair, List.mem_append_left _ hpair, hk⟩
        · have hita : it = a := by simpa using ha
          subst hita
          exact ⟨(f it, [it]), by simp, rfl⟩

end Cleaning

namespace Cleaning

/-- The cleaned sources that `deblend` merges into the remaining source `parent`, in
order. -/
def childrenOf {V : Type} (ops : Ops V) (C : Collaborators V)
    (sources_to_clean remaining_sources : List Iterator) (parent : Iterator) : List Iterator :=
  match remaining_sources with
  | [] => []
  | [_] => sources_to_clean
  | remaining_sources_0 :: _ :: _ =>
    sources_to_clean.filter (fun it => decide
      ((findMostInfluentialSource ops C it.2 remaining_sources_0 remaining_sources).1
        = parent.1))

/-- The sources of the group after the merges: for each remaining source, in the order of
the group, the source itself when nothing is merged into it, and otherwise the merged
source. -/
def mergedSources {V : Type} (ops : Ops V) (C : Collaborators V)
    (sources_to_clean remaining_sources : List Iterator) : List SourceData :=
  remaining_sources.map (fun parent =>
    if childrenOf ops C sources_to_clean remaining_sources parent = [] then parent.2
    else mergeSources parent.2 (childrenOf ops C sources_to_clean remaining_sources parent))

theorem childrenOf_nil {V : Type} (ops : Ops V) (C : Collaborators V)
    (remaining_sources : List Iterator) (parent : Iterator) :
    childrenOf ops C [] remaining_sources parent = [] := by
  unfold childrenOf
  split <;> simp

theorem merge_nothing {V : Type} (ops : Ops V) (C : Collaborators V) (address : Nat → Nat)
    (group : List SourceData) :
    merge ops C address group [] group.enum = mergedSources ops C [] group.enum := by
  unfold merge mergedSources
  simp [childrenOf_nil, List.enum_map_snd]

theorem merge_single {V : Type} (ops : Ops V) (C : Collaborators V) (address : Nat → Nat)
    (group : List SourceData) (sources_to_clean : List Iterator) (remaining : Iterator)
    (hclean : sources_to_clean ≠ [])
    (hall : ∀ it ∈ group.enum, it ∈ sources_to_clean ∨ it = remaining) :
    merge ops C address group sources_to_clean [remaining]
      = mergedSources ops C sources_to_clean [remaining] := by
  have hlength : sources_to_clean.length > 0 := List.length_pos.mpr hclean
  unfold merge mergedSources
  simp only [if_pos hlength, foldl_removeSource, removeSource_addSource]
  simp only [addSource, List.filter_append, List.map_append, childrenOf, List.map_cons,
    List.map_nil, if_neg hclean]
  have hgone : List.filter (fun entry : Option Nat × SourceData =>
        sources_to_clean.all (fun it => decide (entry.1 ≠ some it.1)))
      (removeSource (group.enum.map (fun it => (some it.1, it.2))) remaining) = [] := by
    rw [List.filter_eq_nil_iff]
    intro entry hentry
    simp only [removeSource, List.mem_filter, List.mem_map, decide_eq_true_eq] at hentry
    obtain ⟨⟨it, hit, rfl⟩, hne⟩ := hentry
    rcases hall it hit with hc | hr
    · simp only [List.all_eq_true, not_forall]
      exact ⟨it, hc, by simp⟩
    · subst hr
      exact absurd rfl hne
  rw [hgone]
  simp

end Cleaning

namespace Cleaning

theorem merge_many {V : Type} (ops : Ops V) (C : Collaborators V) (address : Nat → Nat)
    (group : List SourceData) (p : Iterator → Bool)
    (sources_to_clean : List Iterator) (r0 r1 : Iterator) (rest : List Iterator)
    (hT : sources_to_clean = group.enum.filter p)
    (hR : r0 :: r1 :: rest = group.enum.filter (fun it => !p it))
    (hclean : sources_to_clean ≠ []) :
    (merge ops C address group sources_to_clean (r0 :: r1 :: rest)).Perm
      (mergedSources ops C sources_to_clean (r0 :: r1 :: rest)) := by
  have hlength : sources_to_clean.length > 0 := List.length_pos.mpr hclean
  -- the pairs of the map
  obtain ⟨hnodup0, hpairs0, hkeys0⟩ := mergingMapPush_fold
    (fun it => findMostInfluentialSource ops C it.2 r0 (r0 :: r1 :: rest)) sources_to_clean
  have hperm : (mergingMap ops C address sources_to_clean r0 (r0 :: r1 :: rest)).Perm
      (sources_to_clean.foldl
        (fun merging_map it => mergingMapPush merging_map
          (findMostInfluentialSource ops C it.2 r0 (r0 :: r1 :: rest)) it) []) :=
    List.perm_insertionSort _ _
  generalize hm0 : sources_to_clean.foldl
    (fun merging_map it => mergingMapPush merging_map
      (findMostInfluentialSource ops C it.2 r0 (r0 :: r1 :: rest)) it) [] = m0
    at hnodup0 hpairs0 hkeys0 hperm
  have hmerge : merge ops C address group sources_to_clean (r0 :: r1 :: rest)
      = ((sources_to_clean.foldl removeSource
          ((mergingMap ops C address sources_to_clean r0 (r0 :: r1 :: rest)).foldl
            (fun current merging_pair =>
              if merging_pair.2.length > 0 then
                let new_source := mergeSources merging_pair.1.2 merging_pair.2
                removeSource (addSource current new_source) merging_pair.1
              else current)
            (group.enum.map (fun it => (some it.1, it.2))))).map Prod.snd) := by
    unfold merge
    simp only [if_pos hlength]
  generalize mergingMap ops C address sources_to_clean r0 (r0 :: r1 :: rest) = m
    at hperm hmerge
  have hnodup : (m.map (fun pair => pair.1.1)).Nodup := (hperm.map _).nodup_iff.mpr hnodup0
  have hpairs : ∀ pair ∈ m,
      pair.2 = sources_to_clean.filter (fun it => decide
        ((findMostInfluentialSource ops C it.2 r0 (r0 :: r1 :: rest)).1 = pair.1.1)) ∧
      pair.2 ≠ [] ∧
      ∃ it ∈ sources_to_clean,
        findMostInfluentialSource ops C it.2 r0 (r0 :: r1 :: rest) = pair.1 :=
    fun pair hpair => hpairs0 pair (hperm.mem_iff.mp hpair)
  have hkeys : ∀ it ∈ sources_to_clean, ∃ pair ∈ m,
      pair.1.1 = (findMostInfluentialSource ops C it.2 r0 (r0 :: r1 :: rest)).1 := by
    intro it hit
    obtain ⟨pair, hpair, hk⟩ := hkeys0 it hit
    exact ⟨pair, hperm.mem_iff.mpr hpair, hk⟩
  -- the group
  have hRmem : ∀ it, it ∈ r0 :: r1 :: rest ↔ it ∈ group.enum ∧ p it = false := by
    intro it
    rw [hR, List.mem_filter]
    simp
  have hTmem : ∀ it, it ∈ sources_to_clean ↔ it ∈ group.enum ∧ p it = true := by
    intro it
    rw [hT, List.mem_filter]
  have hRnodup : (r0 :: r1 :: rest).Nodup := by
    rw [hR]
    exact (List.Nodup.of_map _ (List.nodup_enum_map_fst group)).filter _
  have hkeyR : ∀ pair ∈ m, pair.1 ∈ r0 :: r1 :: rest := by
    intro pair hpair
    obtain ⟨-, -, it, -, hfit⟩ := hpairs pair hpair
    rw [← hfit]
    have := findMostInfluentialSource_mem ops C it.2 r0 (r0 :: r1 :: rest)
    rcases List.mem_cons.mp this with h | h
    · rw [h]
      exact List.mem_cons_self _ _
    · exact h
  -- the result of the loops
  rw [hmerge, foldl_merging_pairs m (fun pair hpair => (hpairs pair hpair).2.1),
    foldl_removeSource]
  have hresult : List.map Prod.snd
      (List.filter
        (fun entry : Option Nat × SourceData =>
          sources_to_clean.all (fun it => decide (entry.1 ≠ some it.1)))
        (List.filter
            (fun entry : Option Nat × SourceData =>
              m.all (fun pair => decide (entry.1 ≠ some pair.1.1)))
            (group.enum.map (fun it => (some it.1, it.2)))
          ++ m.map (fun pair => (none, mergeSources pair.1.2 pair.2))))
      = ((r0 :: r1 :: rest).filter
            (fun it => m.all (fun pair => decide (it.1 ≠ pair.1.1)))).map Prod.snd
        ++ m.map (fun pair => mergeSources pair.1.2 pair.2) := by
    rw [List.filter_append, List.map_append]
    congr 1
    · rw [hR, List.filter_map, List.filter_map, List.filter_filter, List.filter_filter,
        List.map_map]
      have hsnd : (Prod.snd ∘ fun it : Nat × SourceData => (some it.1, it.2)) = Prod.snd := by
        funext it
        rfl
      rw [hsnd]
      congr 1
      apply List.filter_congr
      intro it hit
      simp only [Function.comp, ne_eq, Option.some.injEq]
      rw [Bool.and_comm]
      congr 1
      by_cases hp : p it = true
      · rw [hp]
        simp only [Bool.not_true, List.all_eq_false]
        exact ⟨it, (hTmem it).mpr ⟨hit, hp⟩, by simp⟩
      · have hpf : p it = false := by simpa using hp
        rw [hpf]
        simp only [Bool.not_false, List.all_eq_true, decide_eq_true_eq]
        intro other hother hfst
        have hoth := (hTmem other).mp hother
        have := enum_eq_of_fst_eq group it other hit hoth.1 hfst
        rw [this, hoth.2] at hpf
        exact Bool.noConfusion hpf
    · rw [List.filter_eq_self.mpr, List.map_map]
      · rfl
      · intro entry hentry
        obtain ⟨pair, -, rfl⟩ := List.mem_map.mp hentry
        simp
  rw [hresult]
  -- the sources expected
  unfold mergedSources
  have hsplit := (List.filter_append_perm
    (fun it : Iterator => m.all (fun pair => decide (it.1 ≠ pair.1.1)))
    (r0 :: r1 :: rest)).symm
  refine List.Perm.trans ?_ ((hsplit.map _).symm)
  rw [List.map_append]
  apply List.Perm.append
  · apply List.Perm.of_eq
    apply List.map_congr_left
    intro it hit
    obtain ⟨hitR, hnokey⟩ := List.mem_filter.mp hit
    have hnone : childrenOf ops C sources_to_clean (r0 :: r1 :: rest) it = [] := by
      simp only [childrenOf]
      rw [List.filter_eq_nil_iff]
      intro child hchild hdec
      obtain ⟨pair, hpair, hk⟩ := hkeys child hchild
      have hall := List.all_eq_true.mp hnokey pair hpair
      exact of_decide_eq_true hall ((of_decide_eq_true hdec).symm.trans hk.symm)
    rw [if_pos hnone]
  · have hkeysPerm : ((r0 :: r1 :: rest).filter
          (fun it => !(m.all (fun pair => decide (it.1 ≠ pair.1.1))))).Perm
        (m.map (fun pair => pair.1)) := by
      rw [List.perm_ext_iff_of_nodup (hRnodup.filter _)]
      · intro a
        simp only [List.mem_filter, List.mem_map, Bool.not_eq_true', List.all_eq_false,
          decide_eq_true_eq, not_not]
        constructor
        · rintro ⟨haR, pair, hpair, hk⟩
          refine ⟨pair, hpair, ?_⟩
          have h1 := ((hRmem _).mp (hkeyR pair hpair)).1
          have h2 := ((hRmem _).mp haR).1
          exact enum_eq_of_fst_eq group _ _ h1 h2 hk.symm
        · rintro ⟨pair, hpair, rfl⟩
          exact ⟨hkeyR pair hpair, pair, hpair, rfl⟩
      · have : m.map (fun pair => pair.1.1) = (m.map (fun pair => pair.1)).map Prod.fst := by
          rw [List.map_map]
          rfl
        rw [this] at hnodup
        exact List.Nodup.of_map _ hnodup
    refine List.Perm.trans ?_ ((hkeysPerm.map _).symm)
    rw [List.map_map]
    apply List.Perm.of_eq
    apply List.map_congr_left
    intro pair hpair
    obtain ⟨hchildren, hne, -⟩ := hpairs pair hpair
    have hch : childrenOf ops C sources_to_clean (r0 :: r1 :: rest) pair.1 = pair.2 := by
      simp only [childrenOf]
      exact hchildren.symm
    simp only [Function.comp, hch, if_neg hne]

end Cleaning

namespace Cleaning

theorem flatMap_insert_perm {α κ : Type} (key : κ → Nat) (h : κ → List α) (a : α) (k0 : κ)
    (keys : List κ) (hnodup : (keys.map key).Nodup) (hk0 : k0 ∈ keys) :
    (keys.flatMap (fun k => if key k0 = key k then a :: h k else h k)).Perm
      (a :: keys.flatMap h) := by
  induction keys with
  | nil => exact absurd hk0 (List.not_mem_nil _)
  | cons k ks ih =>
    rw [List.map_cons, List.nodup_cons] at hnodup
    rw [List.flatMap_cons, List.flatMap_cons]
    by_cases hk : key k0 = key k
    · rw [if_pos hk]
      have hrest : ks.flatMap (fun k2 => if key k0 = key k2 then a :: h k2 else h k2)
          = ks.flatMap h := by
        apply List.flatMap_congr
        intro k2 hk2
        have : ¬ key k0 = key k2 := by
          intro h2
          exact hnodup.1 (List.mem_map.mpr ⟨k2, hk2, by rw [← h2, hk]⟩)
        rw [if_neg this]
      rw [hrest]
      exact List.Perm.refl _
    · rw [if_neg hk]
      have hmem : k0 ∈ ks := by
        rcases List.mem_cons.mp hk0 with h1 | h1
        · exact absurd (by rw [h1]) hk
        · exact h1
      exact (List.Perm.append_left (h k) (ih hnodup.2 hmem)).trans List.perm_middle

theorem flatMap_filter_perm {α κ : Type} (key : κ → Nat) (g : α → Nat) (keys : List κ)
    (items : List α) (hnodup : (keys.map key).Nodup)
    (hcover : ∀ a ∈ items, ∃ k ∈ keys, key k = g a) :
    (keys.flatMap (fun k => items.filter (fun a => decide (g a = key k)))).Perm items := by
  induction items with
  | nil => simp
  | cons a as ih =>
    obtain ⟨k0, hk0, hkey⟩ := hcover a (List.mem_cons_self _ _)
    have hrewrite : keys.flatMap (fun k => (a :: as).filter (fun b => decide (g b = key k)))
        = keys.flatMap (fun k => if key k0 = key k
            then a :: as.filter (fun b => decide (g b = key k))
            else as.filter (fun b => decide (g b = key k))) := by
      apply List.flatMap_congr
      intro k _
      rw [List.filter_cons, hkey]
      by_cases hc : g a = key k
      · simp [hc]
      · simp [hc]
    rw [hrewrite]
    refine (flatMap_insert_perm key _ a k0 keys hnodup hk0).trans ?_
    exact List.Perm.cons a (ih (fun b hb => hcover b (List.mem_cons_of_mem _ hb)))

theorem childrenOf_partition {V : Type} (ops : Ops V) (C : Collaborators V)
    (sources_to_clean remaining_sources : List Iterator) (hremaining : remaining_sources ≠ [])
    (hnodup : (remaining_sources.map Prod.fst).Nodup) :
    (remaining_sources.flatMap (childrenOf ops C sources_to_clean remaining_sources)).Perm
      sources_to_clean := by
  rcases remaining_sources with _ | ⟨r0, _ | ⟨r1, rest⟩⟩
  · exact absurd rfl hremaining
  · simp [childrenOf]
  · have hfun : childrenOf ops C sources_to_clean (r0 :: r1 :: rest)
        = fun parent => sources_to_clean.filter (fun it => decide
            ((findMostInfluentialSource ops C it.2 r0 (r0 :: r1 :: rest)).1 = parent.1)) := by
      funext parent
      simp only [childrenOf]
    rw [hfun]
    apply flatMap_filter_perm Prod.fst
      (fun it => (findMostInfluentialSource ops C it.2 r0 (r0 :: r1 :: rest)).1)
      (r0 :: r1 :: rest) sources_to_clean hnodup
    intro it _
    refine ⟨findMostInfluentialSource ops C it.2 r0 (r0 :: r1 :: rest), ?_, rfl⟩
    rcases List.mem_cons.mp (findMostInfluentialSource_mem ops C it.2 r0 (r0 :: r1 :: rest))
      with h | h
    · rw [h]
      exact List.mem_cons_self _ _
    · exact h

/-- The group after `deblend`, when `shouldClean` returns for every source and keeps one. -/
theorem deblend_perm {V : Type} (ops : Ops V) (C : Collaborators V) (m_min_area : Nat)
    (address : Nat → Nat) (group : List SourceData) (hsize : 2 ≤ group.length)
    (hdefined : ∀ it ∈ group.enum, (shouldClean ops C m_min_area it group).isSome = true)
    (hremaining : ∃ it ∈ group.enum, shouldClean ops C m_min_area it group = some false) :
    ∃ result, deblend ops C m_min_area address group = some result ∧
      result.Perm (mergedSources ops C (sourcesToClean ops C m_min_area group)
        (remainingSources ops C m_min_area group)) := by
  have hdeblend : deblend ops C m_min_area address group
      = some (merge ops C address group (sourcesToClean ops C m_min_area group)
          (remainingSources ops C m_min_area group)) := by
    unfold deblend
    rw [if_neg (by omega), classify_eq ops C m_min_area group hdefined]
    rfl
  refine ⟨_, hdeblend, ?_⟩
  have hT : sourcesToClean ops C m_min_area group = group.enum.filter
      (fun it => decide (shouldClean ops C m_min_area it group = some true)) := rfl
  have hR : remainingSources ops C m_min_area group = group.enum.filter
      (fun it => !decide (shouldClean ops C m_min_area it group = some true)) := by
    unfold remainingSources
    apply List.filter_congr
    intro it hit
    obtain ⟨clean, hclean⟩ := Option.isSome_iff_exists.mp (hdefined it hit)
    rw [hclean]
    cases clean <;> simp
  have hRne : remainingSources ops C m_min_area group ≠ [] := by
    obtain ⟨it, hit, hfalse⟩ := hremaining
    intro hnil
    have : it ∈ remainingSources ops C m_min_area group :=
      List.mem_filter.mpr ⟨hit, decide_eq_true hfalse⟩
    rw [hnil] at this
    exact List.not_mem_nil _ this
  by_cases hclean : sourcesToClean ops C m_min_area group = []
  · have hall : remainingSources ops C m_min_area group = group.enum := by
      rw [hR, List.filter_eq_self]
      intro it hit
      rw [hT, List.filter_eq_nil_iff] at hclean
      simpa using hclean it hit
    rw [hclean, hall, merge_nothing]
  · generalize hTdef : sourcesToClean ops C m_min_area group = T at hT hclean ⊢
    generalize hRdef : remainingSources ops C m_min_area group = R at hR hRne ⊢
    rcases R with _ | ⟨r0, _ | ⟨r1, rest⟩⟩
    · exact absurd rfl hRne
    · apply List.Perm.of_eq
      apply merge_single ops C address group T r0 hclean
      intro it hit
      by_cases hp : decide (shouldClean ops C m_min_area it group = some true) = true
      · left
        rw [hT]
        exact List.mem_filter.mpr ⟨hit, hp⟩
      · right
        have : it ∈ [r0] := by
          rw [hR]
          exact List.mem_filter.mpr ⟨hit, by simpa using hp⟩
        simpa using this
    · exact merge_many ops C address group
        (fun it => decide (shouldClean ops C m_min_area it group = some true)) T r0 r1 rest
        hT hR hclean

end Cleaning

/-! ## An arithmetic with overflow

A small model of single precision for an example about overflow: the integers up to `FLT_MAX`
in absolute value, the two infinities and NaN.  A finite result beyond `FLT_MAX` overflows to
the infinity of its sign, a finite value divided by an infinity is zero, and the square root
of zero is zero, as in IEEE arithmetic.  The model is coarse elsewhere: quotients and square
roots are truncated to integers, and IEEE rounds a result just above `FLT_MAX` down to it. -/

inductive Flt where
  | nan
  | negInfinity
  | finite (v : Int)
  | infinity
deriving DecidableEq, Repr

def FLT_MAX : Int := 340282346638528859811704183484516925440

namespace Flt

/-- The result of an operation on finite values, with overflow. -/
def ofResult (v : Int) : Flt :=
  if v > FLT_MAX then infinity else if v < -FLT_MAX then negInfinity else finite v

def isNegative : Flt → Bool
  | negInfinity => true
  | finite v => decide (v < 0)
  | _ => false

def isZero : Flt → Bool
  | finite v => decide (v = 0)
  | _ => false

def neg : Flt → Flt
  | nan => nan
  | negInfinity => infinity
  | finite v => finite (-v)
  | infinity => negInfinity

def add : Flt → Flt → Flt
  | finite x, finite y => ofResult (x + y)
  | nan, _ => nan
  | _, nan => nan
  | infinity, negInfinity => nan
  | negInfinity, infinity => nan
  | infinity, _ => infinity
  | _, infinity => infinity
  | negInfinity, _ => negInfinity
  | _, negInfinity => negInfinity

def mul : Flt → Flt → Flt
  | finite x, finite y => ofResult (x * y)
  | nan, _ => nan
  | _, nan => nan
  | a, b =>
    if a.isZero || b.isZero then nan
    else if a.isNegative = b.isNegative then infinity else negInfinity

def div : Flt → Flt → Flt
  | nan, _ => nan
  | _, nan => nan
  | finite x, finite y =>
    if y = 0 then
      if x = 0 then nan else if x > 0 then infinity else negInfinity
    else finite (x.tdiv y)
  | finite _, _ => finite 0
  | a, finite y => if a.isNegative = decide (y < 0) then infinity else negInfinity
  | _, _ => nan

def sqrt : Flt → Flt
  | finite v => if v < 0 then nan else finite (Nat.sqrt v.toNat)
  | infinity => infinity
  | _ => nan

def gt : Flt → Flt → Bool
  | nan, _ => false
  | _, nan => false
  | finite x, finite y => decide (x > y)
  | infinity, b => decide (b ≠ infinity)
  | a, negInfinity => decide (a ≠ negInfinity)
  | _, _ => false

def ne : Flt → Flt → Bool
  | nan, _ => true
  | _, nan => true
  | a, b => decide (a ≠ b)

end Flt

def fltOps : FloatOps Flt where
  zero := Flt.finite 0
  one := Flt.finite 1
  quiet_NaN := Flt.nan
  add := Flt.add
  sub := fun a b => Flt.add a (Flt.neg b)
  mul := Flt.mul
  div := Flt.div
  sqrt := Flt.sqrt
  ofInt := Flt.ofResult
  gt := Flt.gt
  ne := Flt.ne

/-- A source whose fitting rectangle is one pixel at the origin on every frame, with the pixel
value, the variance and the saturation `FLT_MAX` and the gain `1`. -/
def brightSource : Source Flt where
  frameData := fun _ =>
    { rect := ⟨⟨0, 0⟩, 1, 1⟩
      subtracted := fun _ _ => Flt.finite FLT_MAX
      variance := fun _ _ => Flt.finite FLT_MAX
      gain := Flt.finite 1
      saturation := Flt.finite FLT_MAX }
  modelFitting := none

/-! ## The claims -/

section Claims

variable {F M : Type}

/-- C2 (the code differs): in a group of one source whose frame model renders the value `5`,
the deblend image built for that source holds `5` at pixel `(0, 0)`: the model of the source
itself is summed in, where the claim asks for an image of zeros. -/
theorem createDeblendImage_single_source_sums_own_model :
    (createDeblendImage numOps (testTask [testFree 1])
        (testCollaborators (Num.val 5) StatusFlag.SUCCESS true)
        [testSource 1 1 (Num.val 0)] (testSource 1 1 (Num.val 0)) 0 ⟨0, []⟩
        (initialFittingState numOps (testTask [testFree 1]) [testSource 1 1 (Num.val 0)])).map
      (fun deblend_image => deblend_image.pixel 0 0) = some (Num.val 5) := by
  decide

/-- C3: on a state that covers the group, `fitSource` returns, and it creates the engine and
calls `solveProblem` exactly when some frame is valid for the source and the usable pixels of
the valid frames are not fewer than the declared free parameters.  When the checks pass, the
engine is the one created for `m_least_squares_engine` and `m_max_iterations`, it is called on
the manager and the residual estimator that the priors leave, and the iterations and the stop
reason stored for the source are those of the summary that this call returns.  When a check
fails no call is made: the state is unchanged and the result is the same whatever the
collaborators, the engine among them, would answer.  So the result of `fitSource` depends on
what the engine answers exactly when the checks pass. -/
theorem fitSource_solves_iff_checks_pass (ops : FloatOps F)
    (task : FlexibleModelFittingIterativeTask F) (C : Collaborators F M)
    (group : List (Source F)) (state : FittingState F)
    (hc : StateCovers task state group.length) (source : Source F) (index : Nat)
    (hi : index < group.length) :
    ∃ r, fitSource ops task C group source index state = some r ∧
      ((Event.engineCreate task.m_least_squares_engine task.m_max_iterations ∈ r.log ∧
          Event.solveProblem ∈ r.log) ↔
        (validFrames task source ≠ [] ∧
          (freeParameters task).length ≤ usablePixels ops task source)) ∧
      ((∃ solveProblem2, fitSource ops task { C with solveProblem := solveProblem2 } group
            source index state ≠ some r) ↔
        (validFrames task source ≠ [] ∧
          (freeParameters task).length ≤ usablePixels ops task source)) ∧
      ((validFrames task source ≠ [] ∧
          (freeParameters task).length ≤ usablePixels ops task source) →
        ∃ manager res_estimator source_state,
          fitSourcePrepare ops task C group source index state
            = some (((freeParameters task).length : Int), manager,
                (((validFrames task source).length : Nat) : Int),
                ((usablePixels ops task source : Nat) : Int), res_estimator) ∧
          r.state.source_states[index]? = some source_state ∧
          source_state.iterations
            = (C.solveProblem task.m_least_squares_engine task.m_max_iterations
                (setupPriors C source task.m_priors manager res_estimator).1
                (setupPriors C source task.m_priors manager res_estimator).2).1.iteration_no ∧
          source_state.stop_reason
            = (C.solveProblem task.m_least_squares_engine task.m_max_iterations
                (setupPriors C source task.m_priors manager res_estimator).1
                (setupPriors C source task.m_priors manager res_estimator).2).1.engine_stop_reason) ∧
      (¬ (validFrames task source ≠ [] ∧
          (freeParameters task).length ≤ usablePixels ops task source) →
        r.log = [] ∧ r.state = state ∧
        ∀ C2 : Collaborators F M, fitSource ops task C2 group source index state = some r) := by
  by_cases h : passesChecks ops task source
  · obtain ⟨m, res, previous, hp, _, hf⟩ :=
      fitSource_of_passesChecks ops task C group state hc source index hi h
    have hlt : index < state.source_states.length := by rw [hc.1]; exact hi
    have hget : ∀ x : SourceState F, (state.source_states.set index x)[index]? = some x := by
      intro x
      simp only [List.getElem?_set, hlt, if_true]
    refine ⟨_, hf, ?_, ?_, ?_, ?_⟩
    · constructor
      · intro _
        exact h
      · intro _
        simp
    · constructor
      · intro _
        exact h
      · intro _
        refine ⟨fun _ _ manager _ =>
          (⟨StatusFlag.SUCCESS, (fitSourceSolve task C source m res).1.iteration_no + 1, 0, []⟩,
            manager), ?_⟩
        obtain ⟨m2, res2, previous2, _, _, hf2⟩ :=
          fitSource_of_passesChecks ops task
            { C with solveProblem := fun _ _ manager _ =>
                (⟨StatusFlag.SUCCESS, (fitSourceSolve task C source m res).1.iteration_no + 1,
                  0, []⟩, manager) }
            group state hc source index hi h
        rw [hf2]
        intro heq
        have hiter := congrArg (fun o : Option (FitSourceResult F) =>
          o.bind (fun r => (r.state.source_states[index]?).map (fun st => st.iterations))) heq
        simp only [Option.some_bind, hget, Option.map_some', Option.some.injEq,
          fitSourceSolve] at hiter
        omega
    · intro _
      exact ⟨m, res, _, hp, hget _, rfl, rfl⟩
    · intro hn
      exact absurd h hn
  · refine ⟨_, fitSource_of_not_passesChecks ops task C group state hc source index hi h,
      ?_, ?_, ?_, ?_⟩
    · constructor
      · intro hlog
        simp at hlog
      · intro hp
        exact absurd hp h
    · constructor
      · rintro ⟨solveProblem2, hne⟩
        exact absurd (fitSource_of_not_passesChecks ops task
          { C with solveProblem := solveProblem2 } group state hc source index hi h) hne
      · intro hp
        exact absurd hp h
    · intro hp
      exact absurd hp h
    · intro _
      exact ⟨rfl, rfl, fun C2 =>
        fitSource_of_not_passesChecks ops task C2 group state hc source index hi h⟩

/-- One source with a frame of one usable pixel and one free parameter: the checks pass and the
stored iterations are the `4` that the engine reports, for C3. -/
theorem fitSource_solves_iff_checks_pass_witness :
    ((testCollaborators (Num.val 5) StatusFlag.SUCCESS true).solveProblem "levmar" 100 ()
        []).1.iteration_no = 4 ∧
    ∃ r, fitSource numOps (testTask [testFree 1])
        (testCollaborators (Num.val 5) StatusFlag.SUCCESS true)
        [testSource 1 1 (Num.val 0)] (testSource 1 1 (Num.val 0)) 0
        (initialFittingState numOps (testTask [testFree 1]) [testSource 1 1 (Num.val 0)])
          = some r ∧
      ((Event.engineCreate (testTask [testFree 1]).m_least_squares_engine
            (testTask [testFree 1]).m_max_iterations ∈ r.log ∧
          Event.solveProblem ∈ r.log) ↔
        (validFrames (testTask [testFree 1]) (testSource 1 1 (Num.val 0)) ≠ [] ∧
          (freeParameters (testTask [testFree 1])).length
            ≤ usablePixels numOps (testTask [testFree 1]) (testSource 1 1 (Num.val 0)))) ∧
      ((∃ solveProblem2, fitSource numOps (testTask [testFree 1])
            { testCollaborators (Num.val 5) StatusFlag.SUCCESS true with
              solveProblem := solveProblem2 }
            [testSource 1 1 (Num.val 0)] (testSource 1 1 (Num.val 0)) 0
            (initialFittingState numOps (testTask [testFree 1]) [testSource 1 1 (Num.val 0)])
              ≠ some r) ↔
        (validFrames (testTask [testFree 1]) (testSource 1 1 (Num.val 0)) ≠ [] ∧
          (freeParameters (testTask [testFree 1])).length
            ≤ usablePixels numOps (testTask [testFree 1]) (testSource 1 1 (Num.val 0)))) ∧
      ((validFrames (testTask [testFree 1]) (testSource 1 1 (Num.val 0)) ≠ [] ∧
          (freeParameters (testTask [testFree 1])).length
            ≤ usablePixels numOps (testTask [testFree 1]) (testSource 1 1 (Num.val 0))) →
        ∃ manager res_estimator source_state,
          fitSourcePrepare numOps (testTask [testFree 1])
              (testCollaborators (Num.val 5) StatusFlag.SUCCESS true)
              [testSource 1 1 (Num.val 0)] (testSource 1 1 (Num.val 0)) 0
              (initialFittingState numOps (testTask [testFree 1])
                [testSource 1 1 (Num.val 0)])
            = some (((freeParameters (testTask [testFree 1])).length : Int), manager,
                (((validFrames (testTask [testFree 1])
                  (testSource 1 1 (Num.val 0))).length : Nat) : Int),
                ((usablePixels numOps (testTask [testFree 1])
                  (testSource 1 1 (Num.val 0)) : Nat) : Int), res_estimator) ∧
          r.state.source_states[0]? = some source_state ∧
          source_state.iterations
            = ((testCollaborators (Num.val 5) StatusFlag.SUCCESS true).solveProblem
                (testTask [testFree 1]).m_least_squares_engine
                (testTask [testFree 1]).m_max_iterations
                (setupPriors (testCollaborators (Num.val 5) StatusFlag.SUCCESS true)
                  (testSource 1 1 (Num.val 0)) (testTask [testFree 1]).m_priors manager
                  res_estimator).1
                (setupPriors (testCollaborators (Num.val 5) StatusFlag.SUCCESS true)
                  (testSource 1 1 (Num.val 0)) (testTask [testFree 1]).m_priors manager
                  res_estimator).2).1.iteration_no ∧
          source_state.stop_reason
            = ((testCollaborators (Num.val 5) StatusFlag.SUCCESS true).solveProblem
                (testTask [testFree 1]).m_least_squares_engine
                (testTask [testFree 1]).m_max_iterations
                (setupPriors (testCollaborators (Num.val 5) StatusFlag.SUCCESS true)
                  (testSource 1 1 (Num.val 0)) (testTask [testFree 1]).m_priors manager
                  res_estimator).1
                (setupPriors (testCollaborators (Num.val 5) StatusFlag.SUCCESS true)
                  (testSource 1 1 (Num.val 0)) (testTask [testFree 1]).m_priors manager
                  res_estimator).2).1.engine_stop_reason) ∧
      (¬ (validFrames (testTask [testFree 1]) (testSource 1 1 (Num.val 0)) ≠ [] ∧
          (freeParameters (testTask [testFree 1])).length
            ≤ usablePixels numOps (testTask [testFree 1]) (testSource 1 1 (Num.val 0))) →
        r.log = [] ∧
        r.state = initialFittingState numOps (testTask [testFree 1])
          [testSource 1 1 (Num.val 0)] ∧
        ∀ C2 : Collaborators Num Unit, fitSource numOps (testTask [testFree 1]) C2
          [testSource 1 1 (Num.val 0)] (testSource 1 1 (Num.val 0)) 0
          (initialFittingState numOps (testTask [testFree 1]) [testSource 1 1 (Num.val 0)])
            = some r) :=
  ⟨rfl,
    fitSource_solves_iff_checks_pass numOps (testTask [testFree 1])
      (testCollaborators (Num.val 5) StatusFlag.SUCCESS true) [testSource 1 1 (Num.val 0)]
      (initialFittingState numOps (testTask [testFree 1]) [testSource 1 1 (Num.val 0)])
      (initialFittingState_covers numOps (testTask [testFree 1]) [testSource 1 1 (Num.val 0)])
      (testSource 1 1 (Num.val 0)) 0 (by decide)⟩

/-- C4 (the code differs): for a group of one source whose only frame has a fitting rectangle
of width zero, the property that `computeProperties` leaves on the source has the flags `NONE`,
not `OUTSIDE`: the last loop overwrites the dummy property set by `fitSource`. -/
theorem computeProperties_overwrites_outside :
    validFrames (testTask [testFree 1]) (testSource 0 1 (Num.val 0)) = [] ∧
    (computeProperties numOps (testTask [testFree 1])
        (testCollaborators (Num.val 5) StatusFlag.SUCCESS true)
        [testSource 0 1 (Num.val 0)]).map (fun r => groupFlags r.1)
      = some [some Flags.NONE] := by
  decide

/-- C5 (the code differs): for a group of one source with one valid frame of a single usable
pixel and two free parameters, the property that `computeProperties` leaves on the source has
the flags `NONE`, not `INSUFFICIENT_DATA`. -/
theorem computeProperties_overwrites_insufficient_data :
    validFrames (testTask [testFree 1, testFree 2]) (testSource 1 1 (Num.val 0)) ≠ [] ∧
    usablePixels numOps (testTask [testFree 1, testFree 2]) (testSource 1 1 (Num.val 0))
      < (freeParameters (testTask [testFree 1, testFree 2])).length ∧
    (computeProperties numOps (testTask [testFree 1, testFree 2])
        (testCollaborators (Num.val 5) StatusFlag.SUCCESS true)
        [testSource 1 1 (Num.val 0)]).map (fun r => groupFlags r.1)
      = some [some Flags.NONE] := by
  decide

/-- C6: in a call of `fitSource` that passes the checks, the reduced chi squared stored in the
state of the source is the total weighted squared residual divided by `total_data_points - k`.
The total weighted squared residual is what `computeChiSquared` returns: the sum, over the
pixels of the valid frames, of the squared difference of image and model times the weight
squared.  `total_data_points` is the number of pixels of weight above zero over the valid
frames, and `k` is the number of parameters that are free and reported as accessed by the
manager; free parameters that are not accessed are not counted. -/
theorem fitSource_reduced_chi_squared (ops : FloatOps F)
    (task : FlexibleModelFittingIterativeTask F) (C : Collaborators F M)
    (group : List (Source F)) (state : FittingState F)
    (hc : StateCovers task state group.length) (source : Source F) (index : Nat)
    (hi : index < group.length)
    (h : validFrames task source ≠ [] ∧
      (freeParameters task).length ≤ usablePixels ops task source) :
    ∃ n_free manager valid_frames n_good_pixels res_estimator r source_state,
      fitSourcePrepare ops task C group source index state
        = some (n_free, manager, valid_frames, n_good_pixels, res_estimator) ∧
      fitSource ops task C group source index state = some r ∧
      r.state.source_states[index]? = some source_state ∧
      (computeChiSquared ops task C source (ops.div ops.one task.m_scale_factor)
          (fitSourceSolve task C source manager res_estimator).2).2.1
        = (totalResidual ops task C source (ops.div ops.one task.m_scale_factor)
            (fitSourceSolve task C source manager res_estimator).2).2 ∧
      source_state.reduced_chi_squared
        = ops.div
            (totalResidual ops task C source (ops.div ops.one task.m_scale_factor)
              (fitSourceSolve task C source manager res_estimator).2).2
            (ops.ofInt ((dataPoints ops task source : Int)
              - ((accessedFreeParameters task C source
                  (totalResidual ops task C source (ops.div ops.one task.m_scale_factor)
                    (fitSourceSolve task C source manager res_estimator).2).1).length
                  : Int))) := by
  obtain ⟨m, res, previous, hp, _, hf⟩ :=
    fitSource_of_passesChecks ops task C group state hc source index hi h
  have hlt : index < state.source_states.length := by rw [hc.1]; exact hi
  have hget : ∀ x : SourceState F, (state.source_states.set index x)[index]? = some x := by
    intro x
    simp only [List.getElem?_set, hlt, if_true]
  obtain ⟨hmanager, htotal⟩ := computeChiSquared_residual ops task C source
    (ops.div ops.one task.m_scale_factor) (fitSourceSolve task C source m res).2
  refine ⟨_, m, _, _, res, _, _, hp, hf, hget _, htotal, ?_⟩
  simp only [computeChiSquared_data_points, countAccessedFreeParameters_eq, hmanager, htotal]

/-- One source with one frame of a single pixel of value `1` and weight `1`, whose model has
the value `5`: the total weighted squared residual is `(1 - 5) * (1 - 5) * 1 * 1 = 16`, for
C6. -/
theorem fitSource_reduced_chi_squared_witness :
    (totalResidual numOps (testTask [testFree 1])
        (testCollaborators (Num.val 5) StatusFlag.SUCCESS false) (testSource 1 1 (Num.val 0))
        (numOps.div numOps.one (testTask [testFree 1]).m_scale_factor) ()).2 = Num.val 16 ∧
    ∃ n_free manager valid_frames n_good_pixels res_estimator r source_state,
      fitSourcePrepare numOps (testTask [testFree 1])
          (testCollaborators (Num.val 5) StatusFlag.SUCCESS false)
          [testSource 1 1 (Num.val 0)] (testSource 1 1 (Num.val 0)) 0
          (initialFittingState numOps (testTask [testFree 1]) [testSource 1 1 (Num.val 0)])
        = some (n_free, manager, valid_frames, n_good_pixels, res_estimator) ∧
      fitSource numOps (testTask [testFree 1])
          (testCollaborators (Num.val 5) StatusFlag.SUCCESS false)
          [testSource 1 1 (Num.val 0)] (testSource 1 1 (Num.val 0)) 0
          (initialFittingState numOps (testTask [testFree 1]) [testSource 1 1 (Num.val 0)])
        = some r ∧
      r.state.source_states[0]? = some source_state ∧
      (computeChiSquared numOps (testTask [testFree 1])
          (testCollaborators (Num.val 5) StatusFlag.SUCCESS false)
          (testSource 1 1 (Num.val 0))
          (numOps.div numOps.one (testTask [testFree 1]).m_scale_factor)
          (fitSourceSolve (testTask [testFree 1])
            (testCollaborators (Num.val 5) StatusFlag.SUCCESS false)
            (testSource 1 1 (Num.val 0)) manager res_estimator).2).2.1
        = (totalResidual numOps (testTask [testFree 1])
            (testCollaborators (Num.val 5) StatusFlag.SUCCESS false)
            (testSource 1 1 (Num.val 0))
            (numOps.div numOps.one (testTask [testFree 1]).m_scale_factor)
            (fitSourceSolve (testTask [testFree 1])
              (testCollaborators (Num.val 5) StatusFlag.SUCCESS false)
              (testSource 1 1 (Num.val 0)) manager res_estimator).2).2 ∧
      source_state.reduced_chi_squared
        = numOps.div
            (totalResidual numOps (testTask [testFree 1])
              (testCollaborators (Num.val 5) StatusFlag.SUCCESS false)
              (testSource 1 1 (Num.val 0))
              (numOps.div numOps.one (testTask [testFree 1]).m_scale_factor)
              (fitSourceSolve (testTask [testFree 1])
                (testCollaborators (Num.val 5) StatusFlag.SUCCESS false)
                (testSource 1 1 (Num.val 0)) manager res_estimator).2).2
            (numOps.ofInt
              ((dataPoints numOps (testTask [testFree 1]) (testSource 1 1 (Num.val 0)) : Int)
              - ((accessedFreeParameters (testTask [testFree 1])
                  (testCollaborators (Num.val 5) StatusFlag.SUCCESS false)
                  (testSource 1 1 (Num.val 0))
                  (totalResidual numOps (testTask [testFree 1])
                    (testCollaborators (Num.val 5) StatusFlag.SUCCESS false)
                    (testSource 1 1 (Num.val 0))
                    (numOps.div numOps.one (testTask [testFree 1]).m_scale_factor)
                    (fitSourceSolve (testTask [testFree 1])
                      (testCollaborators (Num.val 5) StatusFlag.SUCCESS false)
                      (testSource 1 1 (Num.val 0)) manager res_estimator).2).1).length
                  : Int))) :=
  ⟨by decide,
    fitSource_reduced_chi_squared numOps (testTask [testFree 1])
      (testCollaborators (Num.val 5) StatusFlag.SUCCESS false) [testSource 1 1 (Num.val 0)]
      (initialFittingState numOps (testTask [testFree 1]) [testSource 1 1 (Num.val 0)])
      (initialFittingState_covers numOps (testTask [testFree 1]) [testSource 1 1 (Num.val 0)])
      (testSource 1 1 (Num.val 0)) 0 (by decide) (by decide)⟩

/-- C7 as stated fails: a dependent parameter that is not accessed is written back all the
same.  With the parameters `[free 1, dependent 2]` and a manager that reports no access, the
call solves, and the value of parameter `2` goes from `0` to the value `7` of the manager. -/
theorem fitSource_rewrites_unaccessed_dependent :
    (testCollaborators (Num.val 5) StatusFlag.SUCCESS false).isParamAccessed ()
        (testSource 1 1 (Num.val 0)) (testDependent 2) = false ∧
    ((initialFittingState numOps (testTask [testFree 1, testDependent 2])
        [testSource 1 1 (Num.val 0)]).source_states[0]?).bind
      (fun source_state => source_state.parameters_values 2) = some (Num.val 0) ∧
    (fitSource numOps (testTask [testFree 1, testDependent 2])
        (testCollaborators (Num.val 5) StatusFlag.SUCCESS false)
        [testSource 1 1 (Num.val 0)] (testSource 1 1 (Num.val 0)) 0
        (initialFittingState numOps (testTask [testFree 1, testDependent 2])
          [testSource 1 1 (Num.val 0)])).map
      (fun r => (r.log, (r.state.source_states[0]?).bind
        (fun source_state => source_state.parameters_values 2)))
      = some ([Event.engineCreate "levmar" 100, Event.solveProblem], some (Num.val 7)) := by
  decide

/-- C7 as amended: in a call of `fitSource` that passes the checks, with parameter ids that are
pairwise different, every parameter that is not dependent and that the manager reports as not
accessed when the collect loop reaches it has, in the state of the source after the call, the
value it had in the state before the call (`0.0` if it had none). -/
theorem fitSource_carries_over_unaccessed (ops : FloatOps F)
    (task : FlexibleModelFittingIterativeTask F) (C : Collaborators F M)
    (group : List (Source F)) (state : FittingState F)
    (hc : StateCovers task state group.length) (source : Source F) (index : Nat)
    (hi : index < group.length)
    (h : validFrames task source ≠ [] ∧
      (freeParameters task).length ≤ usablePixels ops task source)
    (hnodup : (task.m_parameters.map (fun parameter => parameter.id)).Nodup)
    (position : Nat) (parameter : FlexibleModelFittingParameter F)
    (hpos : task.m_parameters[position]? = some parameter)
    (hkind : parameter.kind ≠ ParameterKind.Dependent) :
    ∃ n_free manager valid_frames n_good_pixels res_estimator previous r source_state,
      fitSourcePrepare ops task C group source index state
        = some (n_free, manager, valid_frames, n_good_pixels, res_estimator) ∧
      state.source_states[index]? = some previous ∧
      fitSource ops task C group source index state = some r ∧
      r.state.source_states[index]? = some source_state ∧
      (C.isParamAccessed
          (collectManager C source
            (fitSourceSolve task C source manager res_estimator).1.parameter_sigmas
            task.m_parameters
            (computeChiSquared ops task C source (ops.div ops.one task.m_scale_factor)
              (fitSourceSolve task C source manager res_estimator).2).1 position)
          source parameter = false →
        source_state.parameters_values parameter.id
            = some (previous.parameters_values.index ops parameter.id) ∧
          ∀ v, previous.parameters_values parameter.id = some v →
            source_state.parameters_values parameter.id = some v) := by
  obtain ⟨m, res, previous, hp, hprev, hf⟩ :=
    fitSource_of_passesChecks ops task C group state hc source index hi h
  have hlt : index < state.source_states.length := by rw [hc.1]; exact hi
  have hget : ∀ x : SourceState F, (state.source_states.set index x)[index]? = some x := by
    intro x
    simp only [List.getElem?_set, hlt, if_true]
  refine ⟨_, m, _, _, res, previous, _, _, hp, hprev, hf, hget _, ?_⟩
  · intro hacc
    have hval := collectParameters_carries_over ops C source previous
      (fitSourceSolve task C source m res).1.parameter_sigmas task.m_parameters hnodup
      (computeChiSquared ops task C source (ops.div ops.one task.m_scale_factor)
        (fitSourceSolve task C source m res).2).1
      ParameterMap.empty ParameterMap.empty position parameter hpos hkind hacc
    refine ⟨hval, ?_⟩
    intro v hv
    refine hval.trans ?_
    simp [ParameterMap.index, hv]

theorem fitSource_carries_over_unaccessed_witness :
    ∃ n_free manager valid_frames n_good_pixels res_estimator previous r source_state,
      fitSourcePrepare numOps (testTask [testFree 1, testDependent 2])
          (testCollaborators (Num.val 5) StatusFlag.SUCCESS false)
          [testSource 1 1 (Num.val 0)] (testSource 1 1 (Num.val 0)) 0
          (initialFittingState numOps (testTask [testFree 1, testDependent 2])
            [testSource 1 1 (Num.val 0)])
        = some (n_free, manager, valid_frames, n_good_pixels, res_estimator) ∧
      (initialFittingState numOps (testTask [testFree 1, testDependent 2])
        [testSource 1 1 (Num.val 0)]).source_states[0]? = some previous ∧
      fitSource numOps (testTask [testFree 1, testDependent 2])
          (testCollaborators (Num.val 5) StatusFlag.SUCCESS false)
          [testSource 1 1 (Num.val 0)] (testSource 1 1 (Num.val 0)) 0
          (initialFittingState numOps (testTask [testFree 1, testDependent 2])
            [testSource 1 1 (Num.val 0)])
        = some r ∧
      r.state.source_states[0]? = some source_state ∧
      ((testCollaborators (Num.val 5) StatusFlag.SUCCESS false).isParamAccessed
          (collectManager (testCollaborators (Num.val 5) StatusFlag.SUCCESS false)
            (testSource 1 1 (Num.val 0))
            (fitSourceSolve (testTask [testFree 1, testDependent 2])
              (testCollaborators (Num.val 5) StatusFlag.SUCCESS false)
              (testSource 1 1 (Num.val 0)) manager res_estimator).1.parameter_sigmas
            (testTask [testFree 1, testDependent 2]).m_parameters
            (computeChiSquared numOps (testTask [testFree 1, testDependent 2])
              (testCollaborators (Num.val 5) StatusFlag.SUCCESS false)
              (testSource 1 1 (Num.val 0))
              (numOps.div numOps.one (testTask [testFree 1, testDependent 2]).m_scale_factor)
              (fitSourceSolve (testTask [testFree 1, testDependent 2])
                (testCollaborators (Num.val 5) StatusFlag.SUCCESS false)
                (testSource 1 1 (Num.val 0)) manager res_estimator).2).1 0)
          (testSource 1 1 (Num.val 0)) (testFree 1) = false →
        source_state.parameters_values (testFree 1).id
            = some (previous.parameters_values.index numOps (testFree 1).id) ∧
          ∀ v, previous.parameters_values (testFree 1).id = some v →
            source_state.parameters_values (testFree 1).id = some v) :=
  fitSource_carries_over_unaccessed numOps (testTask [testFree 1, testDependent 2])
    (testCollaborators (Num.val 5) StatusFlag.SUCCESS false) [testSource 1 1 (Num.val 0)]
    (initialFittingState numOps (testTask [testFree 1, testDependent 2])
      [testSource 1 1 (Num.val 0)])
    (initialFittingState_covers numOps (testTask [testFree 1, testDependent 2])
      [testSource 1 1 (Num.val 0)])
    (testSource 1 1 (Num.val 0)) 0 (by decide) (by decide) (by decide) 0 (testFree 1) rfl
    (by decide)

/-- C8 (the code differs): for a group of one source on which every solve reports the status
`ERROR`, the property that `computeProperties` leaves on the source has the flags `NONE`: the
`ERROR` flag that `fitSource` computes is stored nowhere. -/
theorem computeProperties_drops_error_flag :
    ((testCollaborators (Num.val 5) StatusFlag.ERROR true).solveProblem "levmar" 100 ()
        []).1.status_flag = StatusFlag.ERROR ∧
    (computeProperties numOps (testTask [testFree 1])
        (testCollaborators (Num.val 5) StatusFlag.ERROR true)
        [testSource 1 1 (Num.val 0)]).map (fun r => (groupFlags r.1, r.2))
      = some ([some Flags.NONE],
          [Event.fitSource 0, Event.engineCreate "levmar" 100, Event.solveProblem,
           Event.fitSource 0, Event.engineCreate "levmar" 100, Event.solveProblem,
           Event.fitSource 0, Event.engineCreate "levmar" 100, Event.solveProblem]) := by
  decide

/-- C9: a call of `fitSource` that does not pass the checks makes no call to the engine and
sets the property of the source to the record with `0` iterations, stop reason `0`, a NaN
reduced chi squared, a value map and a sigma map that map exactly the declared parameter ids,
each to NaN, and the flags `OUTSIDE` when no frame is valid and `INSUFFICIENT_DATA` when a
frame is valid (and so the usable pixels are fewer than the free parameters). -/
theorem fitSource_abort_sets_placeholder (ops : FloatOps F)
    (task : FlexibleModelFittingIterativeTask F) (C : Collaborators F M)
    (group : List (Source F)) (state : FittingState F)
    (hc : StateCovers task state group.length) (source : Source F) (index : Nat)
    (hi : index < group.length)
    (h : ¬ (validFrames task source ≠ [] ∧
      (freeParameters task).length ≤ usablePixels ops task source)) :
    ∃ r property, fitSource ops task C group source index state = some r ∧
      r.log = [] ∧
      r.source.modelFitting = some property ∧
      property.iterations = 0 ∧ property.stop_reason = 0 ∧
      property.reduced_chi_squared = ops.quiet_NaN ∧
      (∀ key, property.parameter_values key
        = if key ∈ task.m_parameters.map (fun parameter => parameter.id)
          then some ops.quiet_NaN else none) ∧
      (∀ key, property.parameter_sigmas key
        = if key ∈ task.m_parameters.map (fun parameter => parameter.id)
          then some ops.quiet_NaN else none) ∧
      (validFrames task source = [] → property.flags = Flags.OUTSIDE) ∧
      (validFrames task source ≠ [] →
        usablePixels ops task source < (freeParameters task).length ∧
        property.flags = Flags.INSUFFICIENT_DATA) := by
  refine ⟨_, _, fitSource_of_not_passesChecks ops task C group state hc source index hi h,
    rfl, rfl, rfl, rfl, rfl, dummyValues_apply ops task, dummyValues_apply ops task, ?_, ?_⟩
  · intro hv
    simp [hv]
  · intro hv
    refine ⟨?_, by simp [hv]⟩
    by_contra hcon
    exact h ⟨hv, by omega⟩

theorem fitSource_abort_sets_placeholder_witness :
    ∃ r property, fitSource numOps (testTask [testFree 1])
          (testCollaborators (Num.val 5) StatusFlag.SUCCESS true)
          [testSource 0 1 (Num.val 0)] (testSource 0 1 (Num.val 0)) 0
          (initialFittingState numOps (testTask [testFree 1]) [testSource 0 1 (Num.val 0)])
        = some r ∧
      r.log = [] ∧
      r.source.modelFitting = some property ∧
      property.iterations = 0 ∧ property.stop_reason = 0 ∧
      property.reduced_chi_squared = numOps.quiet_NaN ∧
      (∀ key, property.parameter_values key
        = if key ∈ (testTask [testFree 1]).m_parameters.map (fun parameter => parameter.id)
          then some numOps.quiet_NaN else none) ∧
      (∀ key, property.parameter_sigmas key
        = if key ∈ (testTask [testFree 1]).m_parameters.map (fun parameter => parameter.id)
          then some numOps.quiet_NaN else none) ∧
      (validFrames (testTask [testFree 1]) (testSource 0 1 (Num.val 0)) = [] →
        property.flags = Flags.OUTSIDE) ∧
      (validFrames (testTask [testFree 1]) (testSource 0 1 (Num.val 0)) ≠ [] →
        usablePixels numOps (testTask [testFree 1]) (testSource 0 1 (Num.val 0))
          < (freeParameters (testTask [testFree 1])).length ∧
        property.flags = Flags.INSUFFICIENT_DATA) :=
  fitSource_abort_sets_placeholder numOps (testTask [testFree 1])
    (testCollaborators (Num.val 5) StatusFlag.SUCCESS true) [testSource 0 1 (Num.val 0)]
    (initialFittingState numOps (testTask [testFree 1]) [testSource 0 1 (Num.val 0)])
    (initialFittingState_covers numOps (testTask [testFree 1]) [testSource 0 1 (Num.val 0)])
    (testSource 0 1 (Num.val 0)) 0 (by decide) (by decide)

/-- C10: a call of `fitSource` that does not pass the checks returns the fitting state it was
given, unchanged for every source of the group. -/
theorem fitSource_abort_keeps_state (ops : FloatOps F)
    (task : FlexibleModelFittingIterativeTask F) (C : Collaborators F M)
    (group : List (Source F)) (state : FittingState F)
    (hc : StateCovers task state group.length) (source : Source F) (index : Nat)
    (hi : index < group.length)
    (h : ¬ (validFrames task source ≠ [] ∧
      (freeParameters task).length ≤ usablePixels ops task source)) :
    ∃ r, fitSource ops task C group source index state = some r ∧ r.state = state :=
  ⟨_, fitSource_of_not_passesChecks ops task C group state hc source index hi h, rfl⟩

theorem fitSource_abort_keeps_state_witness :
    ∃ r, fitSource numOps (testTask [testFree 1, testFree 2])
          (testCollaborators (Num.val 5) StatusFlag.SUCCESS true)
          [testSource 1 1 (Num.val 0), testSource 0 1 (Num.val 0)]
          (testSource 1 1 (Num.val 0)) 0
          (initialFittingState numOps (testTask [testFree 1, testFree 2])
            [testSource 1 1 (Num.val 0), testSource 0 1 (Num.val 0)])
        = some r ∧
      r.state = initialFittingState numOps (testTask [testFree 1, testFree 2])
        [testSource 1 1 (Num.val 0), testSource 0 1 (Num.val 0)] :=
  fitSource_abort_keeps_state numOps (testTask [testFree 1, testFree 2])
    (testCollaborators (Num.val 5) StatusFlag.SUCCESS true)
    [testSource 1 1 (Num.val 0), testSource 0 1 (Num.val 0)]
    (initialFittingState numOps (testTask [testFree 1, testFree 2])
      [testSource 1 1 (Num.val 0), testSource 0 1 (Num.val 0)])
    (initialFittingState_covers numOps (testTask [testFree 1, testFree 2])
      [testSource 1 1 (Num.val 0), testSource 0 1 (Num.val 0)])
    (testSource 1 1 (Num.val 0)) 0 (by decide) (by decide)

/-- C11: `computeProperties` starts its rounds from a state with one entry per source, in group
order; the entry of a source has `0` iterations, stop reason `0`, reduced chi squared `0` and a
value map whose keys are exactly the declared parameter ids, a free parameter being mapped to
`getInitialValue(source)` and any other parameter to `0` (parameter ids pairwise different). -/
theorem computeProperties_initial_state (ops : FloatOps F)
    (task : FlexibleModelFittingIterativeTask F) (C : Collaborators F M)
    (group : List (Source F))
    (hnodup : (task.m_parameters.map (fun parameter => parameter.id)).Nodup)
    (index : Nat) (source : Source F) (hi : group[index]? = some source) :
    computeProperties ops task C group
      = (fitRounds ops task C 3 group (initialFittingState ops task group) []).bind
          (fun r => (setProperties r.2.1 r.1 0).map (fun group3 => (group3, r.2.2))) ∧
    (initialFittingState ops task group).source_states.length = group.length ∧
    ∃ source_state,
      (initialFittingState ops task group).source_states[index]? = some source_state ∧
      source_state.iterations = 0 ∧ source_state.stop_reason = 0 ∧
      source_state.reduced_chi_squared = ops.zero ∧
      (∀ key, (source_state.parameters_values key).isSome = true
        ↔ key ∈ task.m_parameters.map (fun parameter => parameter.id)) ∧
      (∀ parameter ∈ task.m_parameters, parameter.kind = ParameterKind.Free →
        source_state.parameters_values parameter.id
          = some (parameter.getInitialValue source)) ∧
      (∀ parameter ∈ task.m_parameters, parameter.kind ≠ ParameterKind.Free →
        source_state.parameters_values parameter.id = some ops.zero) := by
  refine ⟨?_, by simp [initialFittingState], initialSourceState ops task source, ?_, rfl, rfl,
    rfl, ?_, ?_, ?_⟩
  · simp only [computeProperties]
    rcases fitRounds ops task C 3 group (initialFittingState ops task group) []
      with _ | ⟨g2, s2, l2⟩
    · rfl
    · simp only [Option.some_bind]
      rcases setProperties s2 g2 0 with _ | g3 <;> rfl
  · simp [initialFittingState, List.getElem?_map, hi]
  · intro key
    simp only [initialSourceState, initialValues_foldl]
    rw [foldl_insert_isSome]
    simp [ParameterMap.empty]
  · intro parameter hp hk
    simp only [initialSourceState, initialValues_foldl]
    rw [foldl_insert_apply _ _ hnodup _ parameter hp]
    simp [initialValue, hk]
  · intro parameter hp hk
    simp only [initialSourceState, initialValues_foldl]
    rw [foldl_insert_apply _ _ hnodup _ parameter hp]
    simp [initialValue, hk]

theorem computeProperties_initial_state_witness :
    computeProperties numOps (testTask [testFree 1, testDependent 2])
        (testCollaborators (Num.val 5) StatusFlag.SUCCESS true) [testSource 1 1 (Num.val 0)]
      = (fitRounds numOps (testTask [testFree 1, testDependent 2])
          (testCollaborators (Num.val 5) StatusFlag.SUCCESS true) 3
          [testSource 1 1 (Num.val 0)]
          (initialFittingState numOps (testTask [testFree 1, testDependent 2])
            [testSource 1 1 (Num.val 0)]) []).bind
          (fun r => (setProperties r.2.1 r.1 0).map (fun group3 => (group3, r.2.2))) ∧
    (initialFittingState numOps (testTask [testFree 1, testDependent 2])
      [testSource 1 1 (Num.val 0)]).source_states.length = [testSource 1 1 (Num.val 0)].length ∧
    ∃ source_state,
      (initialFittingState numOps (testTask [testFree 1, testDependent 2])
        [testSource 1 1 (Num.val 0)]).source_states[0]? = some source_state ∧
      source_state.iterations = 0 ∧ source_state.stop_reason = 0 ∧
      source_state.reduced_chi_squared = numOps.zero ∧
      (∀ key, (source_state.parameters_values key).isSome = true
        ↔ key ∈ (testTask [testFree 1, testDependent 2]).m_parameters.map
            (fun parameter => parameter.id)) ∧
      (∀ parameter ∈ (testTask [testFree 1, testDependent 2]).m_parameters,
        parameter.kind = ParameterKind.Free →
        source_state.parameters_values parameter.id
          = some (parameter.getInitialValue (testSource 1 1 (Num.val 0)))) ∧
      (∀ parameter ∈ (testTask [testFree 1, testDependent 2]).m_parameters,
        parameter.kind ≠ ParameterKind.Free →
        source_state.parameters_values parameter.id = some numOps.zero) :=
  computeProperties_initial_state numOps (testTask [testFree 1, testDependent 2])
    (testCollaborators (Num.val 5) StatusFlag.SUCCESS true) [testSource 1 1 (Num.val 0)]
    (by decide) 0 (testSource 1 1 (Num.val 0)) rfl

/-- C12: after `computeProperties` every source carries a property whose iterations, stop
reason, reduced chi squared, values and sigmas are those of its entry in the fitting state
after the third round.  That entry is the initial state of the source when the source fails
the checks (then each of its three calls aborts), and otherwise the entry written by its call
in the third round, which solves. -/
theorem computeProperties_copies_final_state (ops : FloatOps F)
    (task : FlexibleModelFittingIterativeTask F) (C : Collaborators F M)
    (group : List (Source F)) (index : Nat) (source : Source F)
    (hs : group[index]? = some source) :
    ∃ group2 state2 log2 group3 state3 log3 result entry final_source property,
      fitRounds ops task C 2 group (initialFittingState ops task group) []
        = some (group2, state2, log2) ∧
      fitRound ops task C group2.length 0 group2 state2 log2 = some (group3, state3, log3) ∧
      computeProperties ops task C group = some (result, log3) ∧
      state3.source_states[index]? = some entry ∧
      result[index]? = some final_source ∧
      final_source.modelFitting = some property ∧
      property.iterations = entry.iterations ∧
      property.stop_reason = entry.stop_reason ∧
      property.reduced_chi_squared = entry.reduced_chi_squared ∧
      property.parameter_values = entry.parameters_values ∧
      property.parameter_sigmas = entry.parameters_sigmas ∧
      (¬ (validFrames task source ≠ [] ∧
          (freeParameters task).length ≤ usablePixels ops task source) →
        entry = initialSourceState ops task source) ∧
      ((validFrames task source ≠ [] ∧
          (freeParameters task).length ≤ usablePixels ops task source) →
        ∃ gi si li source_i ri,
          fitRound ops task C index 0 group2 state2 log2 = some (gi, si, li) ∧
          gi[index]? = some source_i ∧
          fitSource ops task C gi source_i index si = some ri ∧
          Event.solveProblem ∈ ri.log ∧
          ri.state.source_states[index]? = some entry) := by
  have hi : index < group.length := by
    by_contra hcon
    rw [List.getElem?_eq_none (by omega)] at hs
    cases hs
  obtain ⟨g2, s2, l2, h2, hg2, hc2, hm2, hj2⟩ := fitRounds_frame ops task C 2 group
    (initialFittingState ops task group) [] (initialFittingState_covers ops task group)
  obtain ⟨g3, s3, l3, h3, hg3, hc3, hm3, hj3⟩ := fitRound_frame ops task C g2.length 0 g2 s2 l2
    (by rw [hg2]; exact hc2) (by omega)
  obtain ⟨result, hres, _⟩ := setProperties_some s3 g3 0
    (by rw [hc3.1, hg3]; omega)
  have hcomp : computeProperties ops task C group = some (result, l3) := by
    simp only [computeProperties]
    rw [fitRounds_succ, h2]
    simp only [Option.some_bind, h3, hres]
  obtain ⟨source2, hs2, hfd2⟩ := getElem?_of_map_frameData_eq group g2 hm2 index source hs
  obtain ⟨source3, hs3, _⟩ := getElem?_of_map_frameData_eq g2 g3 hm3 index source2 hs2
  obtain ⟨entry, he, hprop⟩ := setProperties_getElem s3 g3 result 0 hres index source3 hs3
  rw [Nat.zero_add] at he
  refine ⟨g2, s2, l2, g3, s3, l3, result, entry, _, _, h2, h3, hcomp, he, hprop, rfl, rfl, rfl,
    rfl, rfl, rfl, ?_, ?_⟩
  · intro hn
    have hn0 : ∀ src, group[index]? = some src → ¬ passesChecks ops task src := by
      intro src hsrc
      rw [hs] at hsrc
      cases hsrc
      exact hn
    have hn2 : ∀ src, g2[index]? = some src → ¬ passesChecks ops task src := by
      intro src hsrc hp
      rw [hs2] at hsrc
      cases hsrc
      exact hn ((passesChecks_congr ops task source source2 hfd2).mp hp)
    have e3 := hj3 index (Or.inr (Or.inr hn2))
    have e2 := hj2 index hn0
    rw [he, e2] at e3
    simp only [initialFittingState, List.getElem?_map, hs, Option.map_some',
      Option.some.injEq] at e3
    exact e3
  · intro hp
    have hp2 : passesChecks ops task source2 :=
      (passesChecks_congr ops task source source2 hfd2).mpr hp
    obtain ⟨gi, si, li, source_i, ri, hgi, hsi, hri, hsolve, hentry⟩ :=
      fitRound_entry ops task C g2 s2 l2 (by rw [hg2]; exact hc2) g3 s3 l3 h3 index source2
        hs2 hp2
    exact ⟨gi, si, li, source_i, ri, hgi, hsi, hri, hsolve, by rw [hentry, he]⟩

theorem computeProperties_copies_final_state_witness :
    ∃ group2 state2 log2 group3 state3 log3 result entry final_source property,
      fitRounds numOps (testTask [testFree 1])
          (testCollaborators (Num.val 5) StatusFlag.SUCCESS true) 2
          [testSource 1 1 (Num.val 0)]
          (initialFittingState numOps (testTask [testFree 1]) [testSource 1 1 (Num.val 0)]) []
        = some (group2, state2, log2) ∧
      fitRound numOps (testTask [testFree 1])
          (testCollaborators (Num.val 5) StatusFlag.SUCCESS true) group2.length 0 group2
          state2 log2 = some (group3, state3, log3) ∧
      computeProperties numOps (testTask [testFree 1])
          (testCollaborators (Num.val 5) StatusFlag.SUCCESS true)
          [testSource 1 1 (Num.val 0)] = some (result, log3) ∧
      state3.source_states[0]? = some entry ∧
      result[0]? = some final_source ∧
      final_source.modelFitting = some property ∧
      property.iterations = entry.iterations ∧
      property.stop_reason = entry.stop_reason ∧
      property.reduced_chi_squared = entry.reduced_chi_squared ∧
      property.parameter_values = entry.parameters_values ∧
      property.parameter_sigmas = entry.parameters_sigmas ∧
      (¬ (validFrames (testTask [testFree 1]) (testSource 1 1 (Num.val 0)) ≠ [] ∧
          (freeParameters (testTask [testFree 1])).length
            ≤ usablePixels numOps (testTask [testFree 1]) (testSource 1 1 (Num.val 0))) →
        entry = initialSourceState numOps (testTask [testFree 1])
          (testSource 1 1 (Num.val 0))) ∧
      ((validFrames (testTask [testFree 1]) (testSource 1 1 (Num.val 0)) ≠ [] ∧
          (freeParameters (testTask [testFree 1])).length
            ≤ usablePixels numOps (testTask [testFree 1]) (testSource 1 1 (Num.val 0))) →
        ∃ gi si li source_i ri,
          fitRound numOps (testTask [testFree 1])
              (testCollaborators (Num.val 5) StatusFlag.SUCCESS true) 0 0 group2 state2 log2
            = some (gi, si, li) ∧
          gi[0]? = some source_i ∧
          fitSource numOps (testTask [testFree 1])
              (testCollaborators (Num.val 5) StatusFlag.SUCCESS true) gi source_i 0 si
            = some ri ∧
          Event.solveProblem ∈ ri.log ∧
          ri.state.source_states[0]? = some entry) :=
  computeProperties_copies_final_state numOps (testTask [testFree 1])
    (testCollaborators (Num.val 5) StatusFlag.SUCCESS true) [testSource 1 1 (Num.val 0)] 0
    (testSource 1 1 (Num.val 0)) rfl

/-- C13: over the reals, for a converter with bounds `min < max` and every `v` with
`min < v < max`, `worldToEngine(v)` returns and `engineToWorld` maps its result back to `v`. -/
theorem sigmoidConverter_roundtrip (min_value max_value v : ℝ) (h1 : min_value < v)
    (h2 : v < max_value) :
    ∃ converter, SigmoidConverter.create min_value max_value = some converter ∧
      (converter.worldToEngine ⟨Real.log, Real.exp⟩ v).map
        (converter.engineToWorld ⟨Real.log, Real.exp⟩) = some v := by
  have hlt : min_value < max_value := lt_trans h1 h2
  refine ⟨⟨min_value, max_value⟩, ?_, ?_⟩
  · simp [SigmoidConverter.create, not_lt.mpr hlt.le]
  · have ha : 0 < v - min_value := sub_pos.mpr h1
    have hb : 0 < max_value - v := sub_pos.mpr h2
    have hq : 0 < (v - min_value) / (max_value - v) := div_pos ha hb
    have hno : ¬ (v < min_value ∨ v > max_value) := by
      rintro (h | h)
      · exact absurd h (not_lt.mpr h1.le)
      · exact absurd h (not_lt.mpr h2.le)
    simp only [SigmoidConverter.worldToEngine, hno, if_false, Option.map_some',
      SigmoidConverter.engineToWorld, Option.some.injEq]
    rw [Real.exp_neg, Real.exp_log hq, inv_div]
    have ha2 : v - min_value ≠ 0 := ha.ne'
    have hsum : 1 + (max_value - v) / (v - min_value)
        = (max_value - min_value) / (v - min_value) := by
      field_simp
    have hc : max_value - min_value ≠ 0 := (sub_pos.mpr hlt).ne'
    rw [hsum, div_div_eq_mul_div, mul_comm, mul_div_assoc, div_self hc]
    ring

theorem sigmoidConverter_roundtrip_witness :
    ∃ converter, SigmoidConverter.create (0 : ℝ) 2 = some converter ∧
      (converter.worldToEngine ⟨Real.log, Real.exp⟩ 1).map
        (converter.engineToWorld ⟨Real.log, Real.exp⟩) = some 1 :=
  sigmoidConverter_roundtrip 0 2 1 (by norm_num) (by norm_num)

/-- C14: for a converter constructed with bounds `min <= max`, `worldToEngine(v)` throws
exactly when `v < min` or `v > max`; for every `v` of the closed interval, the two bounds
included, it returns a value. -/
theorem sigmoidConverter_worldToEngine_throws_iff {R : Type} [LinearOrderedField R]
    (math : MathFunctions R) (min_value max_value : R) (converter : SigmoidConverter R)
    (hc : SigmoidConverter.create min_value max_value = some converter) (v : R) :
    min_value ≤ max_value ∧
    (converter.worldToEngine math v = none ↔ (v < min_value ∨ v > max_value)) ∧
    ((min_value ≤ v ∧ v ≤ max_value) ↔ ∃ e, converter.worldToEngine math v = some e) ∧
    (∃ e, converter.worldToEngine math min_value = some e) ∧
    (∃ e, converter.worldToEngine math max_value = some e) := by
  have hle : min_value ≤ max_value := by
    by_contra hcon
    simp [SigmoidConverter.create, not_le.mp hcon] at hc
  have hconv : converter = ⟨min_value, max_value⟩ := by
    simp [SigmoidConverter.create, not_lt.mpr hle] at hc
    exact hc.symm
  subst hconv
  have key : ∀ w : R, (min_value ≤ w ∧ w ≤ max_value) ↔
      ∃ e, SigmoidConverter.worldToEngine math ⟨min_value, max_value⟩ w = some e := by
    intro w
    unfold SigmoidConverter.worldToEngine
    constructor
    · rintro ⟨ha, hb⟩
      have hno : ¬ (w < min_value ∨ w > max_value) := by
        rintro (h | h)
        · exact absurd h (not_lt.mpr ha)
        · exact absurd h (not_lt.mpr hb)
      exact ⟨math.log ((w - min_value) / (max_value - w)), by simp only [hno, if_false]⟩
    · rintro ⟨e, he⟩
      by_cases hout : w < min_value ∨ w > max_value
      · simp only [hout, if_true] at he
        cases he
      · simp only [not_or, not_lt] at hout
        exact ⟨hout.1, hout.2⟩
  refine ⟨hle, ?_, key v, (key min_value).mp ⟨le_refl _, hle⟩,
    (key max_value).mp ⟨hle, le_refl _⟩⟩
  unfold SigmoidConverter.worldToEngine
  by_cases hout : v < min_value ∨ v > max_value
  · simp only [hout, if_true]
  · simp only [hout, if_false]
    simp

theorem sigmoidConverter_worldToEngine_throws_iff_witness :
    (0 : ℚ) ≤ 2 ∧
    (SigmoidConverter.worldToEngine (⟨id, id⟩ : MathFunctions ℚ) ⟨0, 2⟩ 3 = none
      ↔ ((3 : ℚ) < 0 ∨ (3 : ℚ) > 2)) ∧
    (((0 : ℚ) ≤ 3 ∧ (3 : ℚ) ≤ 2)
      ↔ ∃ e, SigmoidConverter.worldToEngine (⟨id, id⟩ : MathFunctions ℚ) ⟨0, 2⟩ 3 = some e) ∧
    (∃ e, SigmoidConverter.worldToEngine (⟨id, id⟩ : MathFunctions ℚ) ⟨0, 2⟩ 0 = some e) ∧
    (∃ e, SigmoidConverter.worldToEngine (⟨id, id⟩ : MathFunctions ℚ) ⟨0, 2⟩ 2 = some e) :=
  sigmoidConverter_worldToEngine_throws_iff (⟨id, id⟩ : MathFunctions ℚ) 0 2 ⟨0, 2⟩
    (by simp [SigmoidConverter.create]) 3

/-- C15: over the reals, for a converter with bounds `min < max`, `engineToWorld` is strictly
increasing and every engine value is mapped strictly between `min` and `max`. -/
theorem sigmoidConverter_engineToWorld_strictMono (min_value max_value : ℝ)
    (converter : SigmoidConverter ℝ)
    (hc : SigmoidConverter.create min_value max_value = some converter)
    (hlt : min_value < max_value) :
    StrictMono (converter.engineToWorld ⟨Real.log, Real.exp⟩) ∧
    ∀ e : ℝ, min_value < converter.engineToWorld ⟨Real.log, Real.exp⟩ e ∧
      converter.engineToWorld ⟨Real.log, Real.exp⟩ e < max_value := by
  have hconv : converter = ⟨min_value, max_value⟩ := by
    simp [SigmoidConverter.create, not_lt.mpr hlt.le] at hc
    exact hc.symm
  subst hconv
  have hd : 0 < max_value - min_value := sub_pos.mpr hlt
  constructor
  · intro e1 e2 h12
    simp only [SigmoidConverter.engineToWorld]
    have hexp : Real.exp (-e2) < Real.exp (-e1) := Real.exp_lt_exp.mpr (by linarith)
    have hpos2 : 0 < 1 + Real.exp (-e2) := by positivity
    have hdiv : (max_value - min_value) / (1 + Real.exp (-e1))
        < (max_value - min_value) / (1 + Real.exp (-e2)) :=
      div_lt_div_of_pos_left hd hpos2 (by linarith)
    linarith
  · intro e
    simp only [SigmoidConverter.engineToWorld]
    have hexp : 0 < Real.exp (-e) := Real.exp_pos _
    have hden : 0 < 1 + Real.exp (-e) := by positivity
    have hfrac_pos : 0 < (max_value - min_value) / (1 + Real.exp (-e)) := div_pos hd hden
    have hfrac_lt : (max_value - min_value) / (1 + Real.exp (-e)) < max_value - min_value := by
      rw [div_lt_iff₀ hden]
      nlinarith
    constructor <;> linarith

theorem sigmoidConverter_engineToWorld_strictMono_witness :
    StrictMono (SigmoidConverter.engineToWorld ⟨Real.log, Real.exp⟩ (⟨0, 2⟩ : SigmoidConverter ℝ)) ∧
    ∀ e : ℝ, (0 : ℝ) < SigmoidConverter.engineToWorld ⟨Real.log, Real.exp⟩ ⟨0, 2⟩ e ∧
      SigmoidConverter.engineToWorld ⟨Real.log, Real.exp⟩ (⟨0, 2⟩ : SigmoidConverter ℝ) e < 2 :=
  sigmoidConverter_engineToWorld_strictMono 0 2 ⟨0, 2⟩ (by simp [SigmoidConverter.create])
    (by norm_num)

/-- C17: with the identity mapping on the detection frame and the shear mapping on the
measurement frame, for the group stamp of 100 x 100 pixels at `(100, 100)`, whose centre is
`(150, 150)`, `JacobianGroupTask` stores `(1, 0, 1, 1)`. -/
theorem jacobianGroupTask_shear :
    ((((100 : Int) : ℚ) + ((100 : Int) : ℚ) / 2 = 150)) ∧
    JacobianGroupTask.computeProperties 0
        (jacobianTestGroup (ShearCoordinates : CoordinateSystem ℚ) NoopCoordinateSystem)
      = some (1, 0, 1, 1) := by
  constructor
  · norm_num
  · simp only [JacobianGroupTask.computeProperties, jacobianTestGroup, jacobianAround,
      ShearCoordinates, NoopCoordinateSystem, Option.some.injEq, Prod.mk.injEq]
    norm_num

/-- C18 (exact arithmetic): when the composition of `imageToWorld` of the detection frame
with `worldToImage` of the measurement frame is the affine map
`(x, y) -> (a x + b y + tx, c x + d y + ty)`, `JacobianGroupTask` and `JacobianSourceTask`
both store `(a, c, b, d)`, whatever the group stamp, the pixel boundaries and the
translation. -/
theorem jacobianTasks_affine {K : Type} [Field K] (m_instance : Nat) (a b c d tx ty : K)
    (first : JacobianSourceInput K) (rest : List (JacobianSourceInput K))
    (stamp : DetectionFrameGroupStamp)
    (haffine : ∀ x y, (first.measurementFrameCoordinates m_instance).worldToImage
        (first.detectionFrameCoordinates.imageToWorld ⟨x, y⟩)
      = ⟨a * x + b * y + tx, c * x + d * y + ty⟩) :
    JacobianGroupTask.computeProperties m_instance ⟨first :: rest, stamp⟩
      = some (a, c, b, d) ∧
    JacobianSourceTask.computeProperties m_instance first = (a, c, b, d) := by
  constructor
  · simp only [JacobianGroupTask.computeProperties, jacobianAround, haffine,
      Option.some.injEq, Prod.mk.injEq]
    refine ⟨?_, ?_, ?_, ?_⟩ <;> ring
  · simp only [JacobianSourceTask.computeProperties, jacobianAround, haffine, Prod.mk.injEq]
    refine ⟨?_, ?_, ?_, ?_⟩ <;> ring

theorem jacobianTasks_affine_witness :
    JacobianGroupTask.computeProperties 0
        (⟨[⟨fun _ => ShearCoordinates, NoopCoordinateSystem, ⟨⟨10, 20⟩, 3, 5⟩⟩],
          ⟨⟨100, 100⟩, 100, 100⟩⟩ : JacobianGroupInput ℚ)
      = some (1, 0, 1, 1) ∧
    JacobianSourceTask.computeProperties 0
        (⟨fun _ => ShearCoordinates, NoopCoordinateSystem, ⟨⟨10, 20⟩, 3, 5⟩⟩ :
          JacobianSourceInput ℚ)
      = (1, 0, 1, 1) :=
  jacobianTasks_affine 0 (1 : ℚ) 1 0 1 0 0
    ⟨fun _ => ShearCoordinates, NoopCoordinateSystem, ⟨⟨10, 20⟩, 3, 5⟩⟩ []
    ⟨⟨100, 100⟩, 100, 100⟩
    (fun x y => by
      simp only [ShearCoordinates, NoopCoordinateSystem]
      congr 1 <;> ring)

/-- C19: `createTask` returns no task for a property id of another type than
`MeasurementFrame`; for a `MeasurementFrame` id with index `i` and `n` measurement images it
returns a `MeasurementFrameTask` for `i` and the image `i` when `i < n`, a
`DefaultMeasurementFrameTask` when `i >= n` and `i = 0`, and no task when `i >= n` and
`i != 0`. -/
theorem measurementFrameTaskFactory_createTask {Image : Type} (measurementFrameTypeId : Nat)
    (m_measurement_images : List Image) (property_id : PropertyId) :
    (property_id.typeId ≠ measurementFrameTypeId →
      MeasurementFrameTaskFactory.createTask measurementFrameTypeId m_measurement_images
        property_id = none) ∧
    (property_id.typeId = measurementFrameTypeId →
      (∀ image, m_measurement_images[property_id.index]? = some image →
        MeasurementFrameTaskFactory.createTask measurementFrameTypeId m_measurement_images
          property_id = some (MeasurementTask.MeasurementFrameTask property_id.index image)) ∧
      (property_id.index < m_measurement_images.length →
        ∃ image, m_measurement_images[property_id.index]? = some image) ∧
      (m_measurement_images.length ≤ property_id.index → property_id.index = 0 →
        MeasurementFrameTaskFactory.createTask measurementFrameTypeId m_measurement_images
          property_id = some (MeasurementTask.DefaultMeasurementFrameTask property_id.index)) ∧
      (m_measurement_images.length ≤ property_id.index → property_id.index ≠ 0 →
        MeasurementFrameTaskFactory.createTask measurementFrameTypeId m_measurement_images
          property_id = none)) := by
  constructor
  · intro hne
    simp [MeasurementFrameTaskFactory.createTask, hne]
  · intro heq
    refine ⟨?_, ?_, ?_, ?_⟩
    · intro image himage
      obtain ⟨hlt, hget⟩ := List.getElem?_eq_some.mp himage
      simp only [MeasurementFrameTaskFactory.createTask, heq, if_true, hlt, dif_pos,
        List.get_eq_getElem, hget]
    · intro hlt
      exact ⟨_, List.getElem?_eq_getElem hlt⟩
    · intro hge h0
      have hnlt : ¬ property_id.index < m_measurement_images.length := not_lt.mpr hge
      simp only [MeasurementFrameTaskFactory.createTask, heq, if_true, dif_neg hnlt, if_pos h0]
    · intro hge h0
      have hnlt : ¬ property_id.index < m_measurement_images.length := not_lt.mpr hge
      simp only [MeasurementFrameTaskFactory.createTask, heq, if_true, dif_neg hnlt, if_neg h0]

theorem measurementFrameTaskFactory_createTask_witness :
    MeasurementFrameTaskFactory.createTask 7 ["first", "second"] ⟨7, 1⟩
      = some (MeasurementTask.MeasurementFrameTask 1 "second") :=
  ((measurementFrameTaskFactory_createTask 7 ["first", "second"] ⟨7, 1⟩).2 rfl).1 "second" rfl

/-- C20: `getProperty<T>()` calls `getPropertyImpl` once, with the key of `T` without a
discriminator, and `getProperty<T>(name)` calls it once, with the key of `T` and `name`; the
two keys differ and each call returns what `getPropertyImpl` holds under its own key.  With the
mock of the test the two calls return the values `1` and `2`. -/
theorem getProperty_delegates_once {P : Type} (getPropertyImpl : DataModel.PropertyId → P)
    (T : Nat) (name : String) :
    (DataModel.getProperty getPropertyImpl T).2 = [⟨T, none⟩] ∧
    (DataModel.getPropertyNamed getPropertyImpl T name).2 = [⟨T, some name⟩] ∧
    (⟨T, none⟩ : DataModel.PropertyId) ≠ ⟨T, some name⟩ ∧
    (DataModel.getProperty getPropertyImpl T).1 = getPropertyImpl ⟨T, none⟩ ∧
    (DataModel.getPropertyNamed getPropertyImpl T name).1 = getPropertyImpl ⟨T, some name⟩ ∧
    ((DataModel.getProperty (DataModel.mockGetPropertyImpl T) T).1.map
      (fun property => property.m_value) = some 1) ∧
    ((DataModel.getPropertyNamed (DataModel.mockGetPropertyImpl T) T "test").1.map
      (fun property => property.m_value) = some 2) := by
  refine ⟨rfl, rfl, ?_, rfl, rfl, ?_, ?_⟩
  · intro h
    cases h
  · simp [DataModel.getProperty, DataModel.mockGetPropertyImpl]
  · simp [DataModel.getPropertyNamed, DataModel.mockGetPropertyImpl]

/-- In real arithmetic, for every pixel `(x, y)` of the fitting rectangle, with pixel value
`v`, variance `var`, `createWeightImage` gives the weight `0` when `saturation > 0` and
`v > saturation`; otherwise `1 / sqrt(var + v / gain)` when `gain > 0` and `v > 0`; otherwise
`1 / sqrt(var)`.  For a positive variance the weight is zero exactly when the pixel is above a
positive saturation, and the weight image has the width and the height of the rectangle. -/
theorem createWeightImage_weights_real (ops : FloatOps ℝ) (hreal : ops.IsReal) (source : Source ℝ)
    (frame_index : Int) (x y : Int)
    (hx : 0 ≤ x ∧ x < (getFittingRect source frame_index).width)
    (hy : 0 ≤ y ∧ y < (getFittingRect source frame_index).height)
    (v var : ℝ)
    (hv : v = (source.frameData frame_index).subtracted
      ((getFittingRect source frame_index).topLeft.m_x + x)
      ((getFittingRect source frame_index).topLeft.m_y + y))
    (hvar : var = (source.frameData frame_index).variance
      ((getFittingRect source frame_index).topLeft.m_x + x)
      ((getFittingRect source frame_index).topLeft.m_y + y)) :
    ((0 < (source.frameData frame_index).saturation ∧
        (source.frameData frame_index).saturation < v) →
      (createWeightImage ops source frame_index).pixel x y = 0) ∧
    (¬ (0 < (source.frameData frame_index).saturation ∧
        (source.frameData frame_index).saturation < v) →
      (0 < (source.frameData frame_index).gain ∧ 0 < v) →
      (createWeightImage ops source frame_index).pixel x y
        = 1 / Real.sqrt (var + v / (source.frameData frame_index).gain)) ∧
    (¬ (0 < (source.frameData frame_index).saturation ∧
        (source.frameData frame_index).saturation < v) →
      ¬ (0 < (source.frameData frame_index).gain ∧ 0 < v) →
      (createWeightImage ops source frame_index).pixel x y = 1 / Real.sqrt var) ∧
    (0 < var →
      ((createWeightImage ops source frame_index).pixel x y = 0 ↔
        (0 < (source.frameData frame_index).saturation ∧
          (source.frameData frame_index).saturation < v))) ∧
    (createWeightImage ops source frame_index).width
      = (getFittingRect source frame_index).width ∧
    (createWeightImage ops source frame_index).height
      = (getFittingRect source frame_index).height := by
  obtain ⟨h0, h1, hadd, _, _, hdiv, hsqrt, _, hgt, _⟩ := hreal
  have hsat : (ops.gt (source.frameData frame_index).saturation ops.zero
      && ops.gt v (source.frameData frame_index).saturation) = true
      ↔ (0 < (source.frameData frame_index).saturation ∧
          (source.frameData frame_index).saturation < v) := by
    simp only [Bool.and_eq_true, hgt, h0]
  have hgain : (ops.gt (source.frameData frame_index).gain ops.zero && ops.gt v ops.zero) = true
      ↔ (0 < (source.frameData frame_index).gain ∧ 0 < v) := by
    simp only [Bool.and_eq_true, hgt, h0]
  have hpix := createWeightImage_pixel ops source frame_index x y hx hy
  simp only [weightValue, ← hv, ← hvar] at hpix
  have hinv : ∀ a : ℝ, Real.sqrt (1 / a) = 1 / Real.sqrt a := by
    intro a
    rw [one_div, Real.sqrt_inv, one_div]
  have case1 : (0 < (source.frameData frame_index).saturation ∧
      (source.frameData frame_index).saturation < v) →
      (createWeightImage ops source frame_index).pixel x y = 0 := by
    intro hs
    rw [hpix, if_pos (hsat.mpr hs), h0]
  have case2 : ¬ (0 < (source.frameData frame_index).saturation ∧
      (source.frameData frame_index).saturation < v) →
      (0 < (source.frameData frame_index).gain ∧ 0 < v) →
      (createWeightImage ops source frame_index).pixel x y
        = 1 / Real.sqrt (var + v / (source.frameData frame_index).gain) := by
    intro hs hg
    rw [hpix, if_neg (fun h => hs (hsat.mp h)), if_pos (hgain.mpr hg), hsqrt, hdiv, hadd, hdiv,
      h1, hinv]
  have case3 : ¬ (0 < (source.frameData frame_index).saturation ∧
      (source.frameData frame_index).saturation < v) →
      ¬ (0 < (source.frameData frame_index).gain ∧ 0 < v) →
      (createWeightImage ops source frame_index).pixel x y = 1 / Real.sqrt var := by
    intro hs hg
    rw [hpix, if_neg (fun h => hs (hsat.mp h)), if_neg (fun h => hg (hgain.mp h)), hsqrt, hdiv,
      h1, hinv]
  refine ⟨case1, case2, case3, ?_, createWeightImage_size ops source frame_index⟩
  intro hpos
  constructor
  · intro hzero
    by_contra hs
    by_cases hg : 0 < (source.frameData frame_index).gain ∧ 0 < v
    · rw [case2 hs hg] at hzero
      have hsum : 0 < var + v / (source.frameData frame_index).gain :=
        add_pos hpos (div_pos hg.2 hg.1)
      have := Real.sqrt_pos.mpr hsum
      have hne : 1 / Real.sqrt (var + v / (source.frameData frame_index).gain) ≠ 0 :=
        one_div_ne_zero this.ne'
      exact hne hzero
    · rw [case3 hs hg] at hzero
      have := Real.sqrt_pos.mpr hpos
      exact one_div_ne_zero this.ne' hzero
  · exact case1

/-- C22 as stated fails in the arithmetic of the code: a pixel of value `FLT_MAX` with the
variance `FLT_MAX`, the gain `1` and the saturation `FLT_MAX` is not above the positive
saturation and its variance is positive and finite, yet its weight is zero, because
`back_var + pixel_val / gain` overflows to infinity and `1.0 / infinity` is zero. -/
theorem createWeightImage_zero_weight_below_saturation :
    fltOps.gt (brightSource.frameData 0).saturation fltOps.zero = true ∧
    fltOps.gt ((brightSource.frameData 0).subtracted 0 0) (brightSource.frameData 0).saturation
      = false ∧
    fltOps.gt ((brightSource.frameData 0).variance 0 0) fltOps.zero = true ∧
    (brightSource.frameData 0).variance 0 0 = Flt.finite FLT_MAX ∧
    fltOps.add ((brightSource.frameData 0).variance 0 0)
      (fltOps.div ((brightSource.frameData 0).subtracted 0 0) (brightSource.frameData 0).gain)
      = Flt.infinity ∧
    (createWeightImage fltOps brightSource 0).pixel 0 0 = fltOps.zero := by
  decide

/-- C22 as amended.  In every arithmetic, that of the code included: for every pixel `(x, y)`
of the fitting rectangle, with pixel value `v` and variance `var`, `createWeightImage` gives
the weight `0` when `saturation > 0` and `v > saturation`; otherwise
`sqrt(1 / (var + v / gain))` when `gain > 0` and `v > 0`; otherwise `sqrt(1 / var)`; and the
weight image has the width and the height of the rectangle.  In real arithmetic with a
positive variance these weights are `1 / sqrt(var + v / gain)` and `1 / sqrt(var)`, and the
weight is zero exactly when the pixel is above a positive saturation. -/
theorem createWeightImage_weights :
    (∀ (G : Type) (ops : FloatOps G) (source : Source G) (frame_index x y : Int),
      (0 ≤ x ∧ x < (getFittingRect source frame_index).width) →
      (0 ≤ y ∧ y < (getFittingRect source frame_index).height) →
      ((ops.gt (source.frameData frame_index).saturation ops.zero = true ∧
          ops.gt ((source.frameData frame_index).subtracted
              ((getFittingRect source frame_index).topLeft.m_x + x)
              ((getFittingRect source frame_index).topLeft.m_y + y))
            (source.frameData frame_index).saturation = true) →
        (createWeightImage ops source frame_index).pixel x y = ops.zero) ∧
      (¬ (ops.gt (source.frameData frame_index).saturation ops.zero = true ∧
          ops.gt ((source.frameData frame_index).subtracted
              ((getFittingRect source frame_index).topLeft.m_x + x)
              ((getFittingRect source frame_index).topLeft.m_y + y))
            (source.frameData frame_index).saturation = true) →
        (ops.gt (source.frameData frame_index).gain ops.zero = true ∧
          ops.gt ((source.frameData frame_index).subtracted
              ((getFittingRect source frame_index).topLeft.m_x + x)
              ((getFittingRect source frame_index).topLeft.m_y + y)) ops.zero = true) →
        (createWeightImage ops source frame_index).pixel x y
          = ops.sqrt (ops.div ops.one
              (ops.add
                ((source.frameData frame_index).variance
                  ((getFittingRect source frame_index).topLeft.m_x + x)
                  ((getFittingRect source frame_index).topLeft.m_y + y))
                (ops.div
                  ((source.frameData frame_index).subtracted
                    ((getFittingRect source frame_index).topLeft.m_x + x)
                    ((getFittingRect source frame_index).topLeft.m_y + y))
                  (source.frameData frame_index).gain)))) ∧
      (¬ (ops.gt (source.frameData frame_index).saturation ops.zero = true ∧
          ops.gt ((source.frameData frame_index).subtracted
              ((getFittingRect source frame_index).topLeft.m_x + x)
              ((getFittingRect source frame_index).topLeft.m_y + y))
            (source.frameData frame_index).saturation = true) →
        ¬ (ops.gt (source.frameData frame_index).gain ops.zero = true ∧
          ops.gt ((source.frameData frame_index).subtracted
              ((getFittingRect source frame_index).topLeft.m_x + x)
              ((getFittingRect source frame_index).topLeft.m_y + y)) ops.zero = true) →
        (createWeightImage ops source frame_index).pixel x y
          = ops.sqrt (ops.div ops.one
              ((source.frameData frame_index).variance
                ((getFittingRect source frame_index).topLeft.m_x + x)
                ((getFittingRect source frame_index).topLeft.m_y + y)))) ∧
      (createWeightImage ops source frame_index).width
        = (getFittingRect source frame_index).width ∧
      (createWeightImage ops source frame_index).height
        = (getFittingRect source frame_index).height) ∧
    (∀ (ops : FloatOps ℝ), ops.IsReal → ∀ (source : Source ℝ) (frame_index x y : Int),
      (0 ≤ x ∧ x < (getFittingRect source frame_index).width) →
      (0 ≤ y ∧ y < (getFittingRect source frame_index).height) →
      ∀ v var : ℝ,
      v = (source.frameData frame_index).subtracted
        ((getFittingRect source frame_index).topLeft.m_x + x)
        ((getFittingRect source frame_index).topLeft.m_y + y) →
      var = (source.frameData frame_index).variance
        ((getFittingRect source frame_index).topLeft.m_x + x)
        ((getFittingRect source frame_index).topLeft.m_y + y) →
      0 < var →
      (¬ (0 < (source.frameData frame_index).saturation ∧
          (source.frameData frame_index).saturation < v) →
        (0 < (source.frameData frame_index).gain ∧ 0 < v) →
        (createWeightImage ops source frame_index).pixel x y
          = 1 / Real.sqrt (var + v / (source.frameData frame_index).gain)) ∧
      (¬ (0 < (source.frameData frame_index).saturation ∧
          (source.frameData frame_index).saturation < v) →
        ¬ (0 < (source.frameData frame_index).gain ∧ 0 < v) →
        (createWeightImage ops source frame_index).pixel x y = 1 / Real.sqrt var) ∧
      ((createWeightImage ops source frame_index).pixel x y = 0 ↔
        (0 < (source.frameData frame_index).saturation ∧
          (source.frameData frame_index).saturation < v))) := by
  constructor
  · intro G ops source frame_index x y hx hy
    have hpix := createWeightImage_pixel ops source frame_index x y hx hy
    have hsize := createWeightImage_size ops source frame_index
    refine ⟨?_, ?_, ?_, hsize.1, hsize.2⟩
    · intro hsat
      rw [hpix]
      simp only [weightValue, getFittingRect] at hsat ⊢
      simp only [hsat.1, hsat.2, Bool.and_self, if_true]
    · intro hsat hgain
      rw [hpix]
      have hs : ¬ ((ops.gt (source.frameData frame_index).saturation ops.zero
          && ops.gt ((source.frameData frame_index).subtracted
              ((getFittingRect source frame_index).topLeft.m_x + x)
              ((getFittingRect source frame_index).topLeft.m_y + y))
            (source.frameData frame_index).saturation) = true) := by
        rw [Bool.and_eq_true]
        exact hsat
      have hg : (ops.gt (source.frameData frame_index).gain ops.zero
          && ops.gt ((source.frameData frame_index).subtracted
              ((getFittingRect source frame_index).topLeft.m_x + x)
              ((getFittingRect source frame_index).topLeft.m_y + y)) ops.zero) = true := by
        rw [Bool.and_eq_true]
        exact hgain
      simp only [weightValue]
      rw [if_neg hs, if_pos hg]
    · intro hsat hgain
      rw [hpix]
      have hs : ¬ ((ops.gt (source.frameData frame_index).saturation ops.zero
          && ops.gt ((source.frameData frame_index).subtracted
              ((getFittingRect source frame_index).topLeft.m_x + x)
              ((getFittingRect source frame_index).topLeft.m_y + y))
            (source.frameData frame_index).saturation) = true) := by
        rw [Bool.and_eq_true]
        exact hsat
      have hg : ¬ ((ops.gt (source.frameData frame_index).gain ops.zero
          && ops.gt ((source.frameData frame_index).subtracted
              ((getFittingRect source frame_index).topLeft.m_x + x)
              ((getFittingRect source frame_index).topLeft.m_y + y)) ops.zero) = true) := by
        rw [Bool.and_eq_true]
        exact hgain
      simp only [weightValue]
      rw [if_neg hs, if_neg hg]
  · intro ops hreal source frame_index x y hx hy v var hv hvar hpos
    obtain ⟨-, h2, h3, h4, -, -⟩ :=
      createWeightImage_weights_real ops hreal source frame_index x y hx hy v var hv hvar
    exact ⟨h2, h3, h4 hpos⟩

/-- The single pixel of the source with the overflow, and a real pixel of value `1` and
variance `4`, for C22. -/
theorem createWeightImage_weights_witness :
    (createWeightImage fltOps brightSource 0).pixel 0 0
      = fltOps.sqrt (fltOps.div fltOps.one
          (fltOps.add ((brightSource.frameData 0).variance (0 + 0) (0 + 0))
            (fltOps.div ((brightSource.frameData 0).subtracted (0 + 0) (0 + 0))
              (brightSource.frameData 0).gain))) ∧
    ∃ (ops : FloatOps ℝ) (source : Source ℝ),
      (source.frameData 0).saturation = 0 ∧ (source.frameData 0).gain = 2 ∧
      (createWeightImage ops source 0).pixel 0 0 = 1 / Real.sqrt (4 + 1 / 2) :=
  ⟨((createWeightImage_weights.1 Flt fltOps brightSource 0 0 0 ⟨le_refl _, by decide⟩
      ⟨le_refl _, by decide⟩).2.1 (by decide) (by decide)),
    ⟨0, 1, 0, fun a b => a + b, fun a b => a - b, fun a b => a * b, fun a b => a / b,
      Real.sqrt, fun i => (i : ℝ), fun a b => decide (b < a), fun a b => decide (a ≠ b)⟩,
    ⟨fun _ => ⟨⟨⟨0, 0⟩, 1, 1⟩, fun _ _ => 1, fun _ _ => 4, 2, 0⟩, none⟩, rfl, rfl,
    (createWeightImage_weights.2 _
      ⟨rfl, rfl, fun _ _ => rfl, fun _ _ => rfl, fun _ _ => rfl, fun _ _ => rfl, fun _ => rfl,
        fun _ => rfl, fun _ _ => by simp, fun _ _ => by simp⟩
      _ 0 0 0 ⟨le_refl _, by decide⟩ ⟨le_refl _, by decide⟩ 1 4 rfl rfl (by norm_num)).1
      (by simp) (by norm_num)⟩

/-- C24 as stated fails: with one valid frame of a single pixel of weight `1` and one free
parameter that is accessed, the call passes the checks and solves, and the divisor of the
reduced chi squared, `total_data_points` minus the accessed free parameters, is `0`. -/
theorem fitSource_divisor_can_be_zero :
    (validFrames (testTask [testFree 1]) (testSource 1 1 (Num.val 0)) ≠ [] ∧
      (freeParameters (testTask [testFree 1])).length
        ≤ usablePixels numOps (testTask [testFree 1]) (testSource 1 1 (Num.val 0))) ∧
    (createWeightImage numOps (testSource 1 1 (Num.val 0)) 0).pixel 0 0 = Num.val 1 ∧
    (fitSource numOps (testTask [testFree 1])
        (testCollaborators (Num.val 5) StatusFlag.SUCCESS true)
        [testSource 1 1 (Num.val 0)] (testSource 1 1 (Num.val 0)) 0
        (initialFittingState numOps (testTask [testFree 1])
          [testSource 1 1 (Num.val 0)])).map (fun r => r.log)
      = some [Event.engineCreate "levmar" 100, Event.solveProblem] ∧
    (dataPoints numOps (testTask [testFree 1]) (testSource 1 1 (Num.val 0)) : Int)
      - ((accessedFreeParameters (testTask [testFree 1])
          (testCollaborators (Num.val 5) StatusFlag.SUCCESS true)
          (testSource 1 1 (Num.val 0)) ()).length : Int) = 0 := by
  decide

/-- C24 as amended: in a call of `fitSource` that passes the checks, when every non-zero
weight is above zero, the reduced chi squared is the chi squared divided by a divisor
`total_data_points - k` that is not negative (`k` the number of accessed free parameters); it
is zero when the usable pixels are as many as the free parameters and all of these are
accessed. -/
theorem fitSource_divisor_nonneg (ops : FloatOps F)
    (task : FlexibleModelFittingIterativeTask F) (C : Collaborators F M)
    (group : List (Source F)) (state : FittingState F)
    (hc : StateCovers task state group.length) (source : Source F) (index : Nat)
    (hi : index < group.length)
    (h : validFrames task source ≠ [] ∧
      (freeParameters task).length ≤ usablePixels ops task source)
    (hw : ∀ frame ∈ validFrames task source,
      ∀ x < (createWeightImage ops source frame.frameNb).width.toNat,
      ∀ y < (createWeightImage ops source frame.frameNb).height.toNat,
      ops.ne ((createWeightImage ops source frame.frameNb).pixel (Int.ofNat x) (Int.ofNat y))
        ops.zero = true →
      ops.gt ((createWeightImage ops source frame.frameNb).pixel (Int.ofNat x) (Int.ofNat y))
        ops.zero = true) :
    ∃ n_free manager valid_frames n_good_pixels res_estimator r source_state divisor,
      fitSourcePrepare ops task C group source index state
        = some (n_free, manager, valid_frames, n_good_pixels, res_estimator) ∧
      fitSource ops task C group source index state = some r ∧
      r.state.source_states[index]? = some source_state ∧
      divisor = (dataPoints ops task source : Int)
        - ((accessedFreeParameters task C source
            (computeChiSquared ops task C source (ops.div ops.one task.m_scale_factor)
              (fitSourceSolve task C source manager res_estimator).2).1).length : Int) ∧
      source_state.reduced_chi_squared
        = ops.div
            (computeChiSquared ops task C source (ops.div ops.one task.m_scale_factor)
              (fitSourceSolve task C source manager res_estimator).2).2.1
            (ops.ofInt divisor) ∧
      0 ≤ divisor ∧
      (usablePixels ops task source = (freeParameters task).length →
        dataPoints ops task source = usablePixels ops task source →
        (accessedFreeParameters task C source
            (computeChiSquared ops task C source (ops.div ops.one task.m_scale_factor)
              (fitSourceSolve task C source manager res_estimator).2).1).length
          = (freeParameters task).length →
        divisor = 0) := by
  obtain ⟨m, res, previous, hp, _, hf⟩ :=
    fitSource_of_passesChecks ops task C group state hc source index hi h
  have hlt : index < state.source_states.length := by rw [hc.1]; exact hi
  have hget : ∀ x : SourceState F, (state.source_states.set index x)[index]? = some x := by
    intro x
    simp only [List.getElem?_set, hlt, if_true]
  have hle1 := usablePixels_le_dataPoints ops task source hw
  have hle2 := accessedFreeParameters_length_le task C source
    (computeChiSquared ops task C source (ops.div ops.one task.m_scale_factor)
      (fitSourceSolve task C source m res).2).1
  refine ⟨_, m, _, _, res, _, _, _, hp, hf, hget _, rfl, ?_, ?_, ?_⟩
  · simp only [computeChiSquared_data_points, countAccessedFreeParameters_eq]
  · have := h.2
    omega
  · intro e1 e2 e3
    omega

theorem fitSource_divisor_nonneg_witness :
    ∃ n_free manager valid_frames n_good_pixels res_estimator r source_state divisor,
      fitSourcePrepare numOps (testTask [testFree 1])
          (testCollaborators (Num.val 5) StatusFlag.SUCCESS true)
          [testSource 1 1 (Num.val 0)] (testSource 1 1 (Num.val 0)) 0
          (initialFittingState numOps (testTask [testFree 1]) [testSource 1 1 (Num.val 0)])
        = some (n_free, manager, valid_frames, n_good_pixels, res_estimator) ∧
      fitSource numOps (testTask [testFree 1])
          (testCollaborators (Num.val 5) StatusFlag.SUCCESS true)
          [testSource 1 1 (Num.val 0)] (testSource 1 1 (Num.val 0)) 0
          (initialFittingState numOps (testTask [testFree 1]) [testSource 1 1 (Num.val 0)])
        = some r ∧
      r.state.source_states[0]? = some source_state ∧
      divisor = (dataPoints numOps (testTask [testFree 1]) (testSource 1 1 (Num.val 0)) : Int)
        - ((accessedFreeParameters (testTask [testFree 1])
            (testCollaborators (Num.val 5) StatusFlag.SUCCESS true)
            (testSource 1 1 (Num.val 0))
            (computeChiSquared numOps (testTask [testFree 1])
              (testCollaborators (Num.val 5) StatusFlag.SUCCESS true)
              (testSource 1 1 (Num.val 0))
              (numOps.div numOps.one (testTask [testFree 1]).m_scale_factor)
              (fitSourceSolve (testTask [testFree 1])
                (testCollaborators (Num.val 5) StatusFlag.SUCCESS true)
                (testSource 1 1 (Num.val 0)) manager res_estimator).2).1).length : Int) ∧
      source_state.reduced_chi_squared
        = numOps.div
            (computeChiSquared numOps (testTask [testFree 1])
              (testCollaborators (Num.val 5) StatusFlag.SUCCESS true)
              (testSource 1 1 (Num.val 0))
              (numOps.div numOps.one (testTask [testFree 1]).m_scale_factor)
              (fitSourceSolve (testTask [testFree 1])
                (testCollaborators (Num.val 5) StatusFlag.SUCCESS true)
                (testSource 1 1 (Num.val 0)) manager res_estimator).2).2.1
            (numOps.ofInt divisor) ∧
      0 ≤ divisor ∧
      (usablePixels numOps (testTask [testFree 1]) (testSource 1 1 (Num.val 0))
          = (freeParameters (testTask [testFree 1])).length →
        dataPoints numOps (testTask [testFree 1]) (testSource 1 1 (Num.val 0))
          = usablePixels numOps (testTask [testFree 1]) (testSource 1 1 (Num.val 0)) →
        (accessedFreeParameters (testTask [testFree 1])
            (testCollaborators (Num.val 5) StatusFlag.SUCCESS true)
            (testSource 1 1 (Num.val 0))
            (computeChiSquared numOps (testTask [testFree 1])
              (testCollaborators (Num.val 5) StatusFlag.SUCCESS true)
              (testSource 1 1 (Num.val 0))
              (numOps.div numOps.one (testTask [testFree 1]).m_scale_factor)
              (fitSourceSolve (testTask [testFree 1])
                (testCollaborators (Num.val 5) StatusFlag.SUCCESS true)
                (testSource 1 1 (Num.val 0)) manager res_estimator).2).1).length
          = (freeParameters (testTask [testFree 1])).length →
        divisor = 0) :=
  fitSource_divisor_nonneg numOps (testTask [testFree 1])
    (testCollaborators (Num.val 5) StatusFlag.SUCCESS true) [testSource 1 1 (Num.val 0)]
    (initialFittingState numOps (testTask [testFree 1]) [testSource 1 1 (Num.val 0)])
    (initialFittingState_covers numOps (testTask [testFree 1]) [testSource 1 1 (Num.val 0)])
    (testSource 1 1 (Num.val 0)) 0 (by decide) (by decide) (by decide)

/-- C21: `create(name, max_iterations)` throws exactly when no engine is registered under a
name equal to `name` up to case; an engine it returns is built by a factory registered under
such a name, called with `max_iterations`; and when the registered names differ pairwise up to
case, it is the engine of that one factory. -/
theorem leastSquareEngineManager_create {E : Type}
    (registry : LeastSquareEngineManager.Registry E) (name : List Char)
    (max_iterations : Nat) :
    (LeastSquareEngineManager.create registry name max_iterations = none ↔
      ∀ entry ∈ registry, LeastSquareEngineManager.equalsIgnoreCase entry.1 name = false) ∧
    (∀ engine, LeastSquareEngineManager.create registry name max_iterations = some engine →
      ∃ entry ∈ registry, LeastSquareEngineManager.equalsIgnoreCase entry.1 name = true ∧
        engine = entry.2 max_iterations) ∧
    (registry.Pairwise (fun a b =>
        LeastSquareEngineManager.equalsIgnoreCase a.1 b.1 = false) →
      ∀ entry ∈ registry, LeastSquareEngineManager.equalsIgnoreCase entry.1 name = true →
        LeastSquareEngineManager.create registry name max_iterations
          = some (entry.2 max_iterations)) := by
  have hsome : ∀ found, registry.find?
      (fun entry => LeastSquareEngineManager.equalsIgnoreCase entry.1 name) = some found →
      found ∈ registry ∧ LeastSquareEngineManager.equalsIgnoreCase found.1 name = true := by
    intro found hfind
    refine ⟨List.mem_of_find?_eq_some hfind, ?_⟩
    exact @List.find?_some _
      (fun entry => LeastSquareEngineManager.equalsIgnoreCase entry.1 name) found registry hfind
  have hnone : registry.find?
      (fun entry => LeastSquareEngineManager.equalsIgnoreCase entry.1 name) = none →
      ∀ entry ∈ registry, LeastSquareEngineManager.equalsIgnoreCase entry.1 name = false := by
    intro hfind entry hentry
    have := List.find?_eq_none.mp hfind entry hentry
    simpa using this
  refine ⟨?_, ?_, ?_⟩
  · unfold LeastSquareEngineManager.create
    rcases hfind : registry.find?
        (fun entry => LeastSquareEngineManager.equalsIgnoreCase entry.1 name) with _ | found
    · rw [hfind]
      exact ⟨fun _ => hnone hfind, fun _ => rfl⟩
    · rw [hfind]
      constructor
      · intro h
        cases h
      · intro h
        have h1 := h found (hsome found hfind).1
        rw [(hsome found hfind).2] at h1
        cases h1
  · intro engine hcreate
    unfold LeastSquareEngineManager.create at hcreate
    rcases hfind : registry.find?
        (fun entry => LeastSquareEngineManager.equalsIgnoreCase entry.1 name) with _ | found
    · rw [hfind] at hcreate
      cases hcreate
    · rw [hfind] at hcreate
      simp only [Option.some.injEq] at hcreate
      exact ⟨found, (hsome found hfind).1, (hsome found hfind).2, hcreate.symm⟩
  · intro hpair entry hentry hname
    unfold LeastSquareEngineManager.create
    rcases hfind : registry.find?
        (fun entry => LeastSquareEngineManager.equalsIgnoreCase entry.1 name) with _ | found
    · have := hnone hfind entry hentry
      rw [hname] at this
      cases this
    · have hfound_mem := (hsome found hfind).1
      have hfound_name := (hsome found hfind).2
      have hsame : found = entry := by
        by_contra hne
        have hcase : LeastSquareEngineManager.equalsIgnoreCase found.1 entry.1 = true := by
          simp only [LeastSquareEngineManager.equalsIgnoreCase, decide_eq_true_eq]
            at hfound_name hname ⊢
          rw [hfound_name, hname]
        have hcase2 : LeastSquareEngineManager.equalsIgnoreCase entry.1 found.1 = true := by
          simp only [LeastSquareEngineManager.equalsIgnoreCase, decide_eq_true_eq]
            at hcase ⊢
          exact hcase.symm
        rcases List.mem_iff_getElem.mp hfound_mem with ⟨i, hi, hgi⟩
        rcases List.mem_iff_getElem.mp hentry with ⟨j, hj, hgj⟩
        have hij : i ≠ j := by
          intro h
          subst h
          exact hne (hgi.symm.trans hgj)
        have hrel := List.pairwise_iff_getElem.mp hpair
        rcases Nat.lt_or_gt_of_ne hij with hlt | hgt
        · have := hrel i j hi hj hlt
          rw [hgi, hgj, hcase] at this
          cases this
        · have := hrel j i hj hi hgt
          rw [hgi, hgj, hcase2] at this
          cases this
      rw [hfind, hsame]

theorem leastSquareEngineManager_create_witness :
    LeastSquareEngineManager.create
        (LeastSquareEngineManager.registerEngine
          (LeastSquareEngineManager.registerEngine [] "gsl".toList (fun n => ("gsl", n)))
          "levmar".toList (fun n => ("levmar", n)))
        "LevMar".toList 100
      = some ("levmar", 100) :=
  (leastSquareEngineManager_create
      (LeastSquareEngineManager.registerEngine
        (LeastSquareEngineManager.registerEngine [] "gsl".toList (fun n => ("gsl", n)))
        "levmar".toList (fun n => ("levmar", n)))
      "LevMar".toList 100).2.2 (by decide)
    ("levmar".toList, fun n => ("levmar", n)) (by simp [LeastSquareEngineManager.registerEngine])
    (by decide)

/-- C23: when the converted covariance matrix has `n * n` elements, `n` being
`numberOfParameters()`, `solveProblem` returns a summary with exactly `n` sigmas, the `i`-th
being the square root of the element at the flat index `i * (n + 1)` of the converted matrix,
and with `success_flag` true exactly when the return code of `dlevmar_dif` is not `-1`. -/
theorem levmarEngine_solveProblem_summary {D E R : Type} (L : LevmarCollaborators D E R)
    (engine : LevmarEngine D) (parameter_manager : E) (residual_estimator : R)
    (res : Int × (Nat → D) × (Nat → D) × E)
    (hres : res = L.dlevmar_dif parameter_manager residual_estimator
      (L.getEngineValues parameter_manager) (L.numberOfParameters parameter_manager)
      (L.numberOfResiduals residual_estimator) engine.m_itmax engine.m_opts)
    (n : Nat) (hn : n = L.numberOfParameters res.2.2.2)
    (converted : List D)
    (hconv : converted = L.convertCovarianceMatrixToWorldSpace res.2.2.2
      ((List.range (L.numberOfParameters parameter_manager
        * L.numberOfParameters parameter_manager)).map res.2.2.1))
    (hsize : converted.length = n * n) :
    ∃ summary, LevmarEngine.solveProblem L engine parameter_manager residual_estimator
        = some (summary, res.2.2.2) ∧
      summary.parameter_sigmas.length = n ∧
      (∀ i, i < n → ∃ element, converted[i * (n + 1)]? = some element ∧
        summary.parameter_sigmas[i]? = some (L.sqrt element)) ∧
      (summary.success_flag = true ↔ res.1 ≠ -1) := by
  obtain ⟨out, hout, hlen, hall⟩ := pushSigmas_some L.sqrt converted n hsize n 0 [] (by omega)
  subst hres
  subst hconv
  subst hn
  simp only [LevmarEngine.solveProblem, hout, List.nil_append]
  refine ⟨_, rfl, hlen, ?_, by simp⟩
  intro i hi
  obtain ⟨element, he, ho⟩ := hall i hi
  rw [Nat.zero_add] at he
  exact ⟨element, he, ho⟩

theorem levmarEngine_solveProblem_summary_witness :
    ∃ summary, LevmarEngine.solveProblem
          (⟨fun _ => 2, fun _ => [], fun _ => 3, fun _ _ _ _ _ _ _ =>
              (0, fun _ => 7, fun k => (k : Int), ()), fun _ c => c, fun d => d + 100,
              fun d => d.toNat⟩ : LevmarCollaborators Int Unit Unit)
          ⟨1000, []⟩ () ()
        = some (summary, ()) ∧
      summary.parameter_sigmas.length = 2 ∧
      (∀ i, i < 2 → ∃ element, ([0, 1, 2, 3] : List Int)[i * (2 + 1)]? = some element ∧
        summary.parameter_sigmas[i]? = some (element + 100)) ∧
      (summary.success_flag = true ↔ (0 : Int) ≠ -1) :=
  levmarEngine_solveProblem_summary
    (⟨fun _ => 2, fun _ => [], fun _ => 3, fun _ _ _ _ _ _ _ =>
        (0, fun _ => 7, fun k => (k : Int), ()), fun _ c => c, fun d => d + 100,
        fun d => d.toNat⟩ : LevmarCollaborators Int Unit Unit)
    ⟨1000, []⟩ () () (0, fun _ => 7, fun k => (k : Int), ()) rfl 2 rfl [0, 1, 2, 3] rfl rfl

/-- C25 (the code differs): the comment of `valueAutoCast` promises the 64-bit integer for a
string of digits only, but for the string of twenty digits `99999999999999999999`, whose value
exceeds the largest 64-bit integer, `valueAutoCast` returns no alternative: `std::stol` throws
`std::out_of_range`, which nothing catches. -/
theorem valueAutoCast_throws_on_long_digit_string :
    "99999999999999999999".toList ≠ [] ∧
    (∀ c ∈ "99999999999999999999".toList, isDecimalDigit c = true) ∧
    decimalValue "99999999999999999999".toList = 99999999999999999999 ∧
    valueAutoCast testHeaderLibrary "99999999999999999999".toList = none := by
  refine ⟨by decide, by decide, ?_, ?_⟩
  · simp [decimalValue, digitValue, Nat.ofDigits]
  · rw [valueAutoCast]
    have hstol : stol "99999999999999999999".toList = none := by
      rw [stol_of_digits _ (by decide) (by decide)]
      have hvalue : decimalValue "99999999999999999999".toList = 99999999999999999999 := by
        simp [decimalValue, digitValue, Nat.ofDigits]
      rw [hvalue]
      simp [LONG_MAX]
    have hcount : "99999999999999999999".toList.foldl
        (fun ndigits c => ndigits + testHeaderLibrary.isdigit c) 0
        = "99999999999999999999".toList.length := by
      rw [foldl_isdigit_eq testHeaderLibrary _ (by decide)]
      simp
    simp only [hcount, hstol]
    simp

/-- With a `std::isdigit` that returns `1` for a decimal digit, for every non-empty string of
decimal digits whose value is at most `9223372036854775807`, `valueAutoCast` returns the
64-bit integer alternative that holds the value of the string. -/
theorem valueAutoCast_of_digits {D : Type} (L : HeaderLibrary D) (value : List Char)
    (hne : value ≠ []) (hdigits : ∀ c ∈ value, isDecimalDigit c = true)
    (hisdigit : ∀ c, isDecimalDigit c = true → L.isdigit c = 1)
    (hrange : (decimalValue value : Int) ≤ 9223372036854775807) :
    valueAutoCast L value = some (MetadataValue.int64 (decimalValue value)) := by
  have hcount : value.foldl (fun ndigits c => ndigits + L.isdigit c) 0 = value.length := by
    rw [foldl_isdigit_eq L value (fun c hc => hisdigit c (hdigits c hc))]
    omega
  have hempty : value.isEmpty = false := by
    cases value with
    | nil => exact absurd rfl hne
    | cons c cs => rfl
  have hhigh : ¬ LONG_MAX < (decimalValue value : Int) := by
    unfold LONG_MAX
    omega
  simp only [valueAutoCast, hempty, hcount, Bool.false_eq_true, if_false, if_true,
    stol_of_digits value hne hdigits, hhigh, Option.map_some']

theorem valueAutoCast_of_digits_witness :
    valueAutoCast testHeaderLibrary "7".toList
      = some (MetadataValue.int64 (decimalValue "7".toList)) :=
  valueAutoCast_of_digits testHeaderLibrary "7".toList (by decide) (by decide)
    (by
      intro c hc
      simp [testHeaderLibrary, hc])
    (by simp [decimalValue, digitValue, Nat.ofDigits])

/-- C28: for a non-empty group whose members' pixel boundaries (`min <= max` in both
coordinates) all lie inside the detection image of `image_width` x `image_height` pixels,
the task computes a rectangle that lies inside the image, contains the boundaries of every
member, and has a width and a height of at least 1.  Of the product with `.8` only the sign
is used: it is not negative on a non-negative difference. -/
theorem detectionFrameGroupStamp_rectangle (timesPointEight : Int → Int)
    (image_width image_height : Int) (group : List SourceBoundaries)
    (hne : group ≠ [])
    (hscale : ∀ d : Int, 0 ≤ d → 0 ≤ timesPointEight d)
    (hinside : ∀ boundaries ∈ group,
      0 ≤ boundaries.min.m_x ∧ 0 ≤ boundaries.min.m_y ∧
      boundaries.min.m_x ≤ boundaries.max.m_x ∧ boundaries.min.m_y ≤ boundaries.max.m_y ∧
      boundaries.max.m_x ≤ image_width - 1 ∧ boundaries.max.m_y ≤ image_height - 1) :
    ∃ stamp : GroupStampRectangle,
      DetectionFrameGroupStampTask.computeProperties timesPointEight image_width image_height
        group = some stamp ∧
      (0 ≤ stamp.min.m_x ∧ 0 ≤ stamp.min.m_y ∧
        stamp.max.m_x ≤ image_width - 1 ∧ stamp.max.m_y ≤ image_height - 1) ∧
      (∀ boundaries ∈ group,
        stamp.min.m_x ≤ boundaries.min.m_x ∧ stamp.min.m_y ≤ boundaries.min.m_y ∧
        boundaries.max.m_x ≤ stamp.max.m_x ∧ boundaries.max.m_y ≤ stamp.max.m_y) ∧
      1 ≤ stamp.width ∧ 1 ≤ stamp.height ∧
      stamp.max.m_x = stamp.min.m_x + stamp.width - 1 ∧
      stamp.max.m_y = stamp.min.m_y + stamp.height - 1 := by
  obtain ⟨first, rest, rfl⟩ := List.exists_cons_of_ne_nil hne
  obtain ⟨-, -, -, -, hall⟩ :=
    groupBounds_spec (first :: rest) (INT_MAX, INT_MAX, INT_MIN, INT_MIN)
  simp only [DetectionFrameGroupStampTask.computeProperties]
  generalize DetectionFrameGroupStampTask.groupBounds (first :: rest)
    (INT_MAX, INT_MAX, INT_MIN, INT_MIN) = bounds at hall ⊢
  obtain ⟨min_x, min_y, max_x, max_y⟩ := bounds
  simp only at hall
  have hfirst := hall first (List.mem_cons_self _ _)
  have hfirstIn := hinside first (List.mem_cons_self _ _)
  have hx : 0 ≤ timesPointEight (max_x - min_x) := hscale _ (by omega)
  have hy : 0 ≤ timesPointEight (max_y - min_y) := hscale _ (by omega)
  refine ⟨_, rfl, ?_, ?_, ?_⟩
  · simp only
    refine ⟨le_max_right _ _, le_max_right _ _, min_le_right _ _, min_le_right _ _⟩
  · intro boundaries hb
    have h1 := hall boundaries hb
    have h2 := hinside boundaries hb
    simp only
    refine ⟨max_le (by omega) (by omega), max_le (by omega) (by omega),
      le_min (by omega) (by omega), le_min (by omega) (by omega)⟩
  · simp only
    have a1 : Max.max (min_x - (timesPointEight (max_x - min_x) + 2)) 0 ≤
        Min.min (max_x + (timesPointEight (max_x - min_x) + 2)) (image_width - 1) :=
      max_le (le_min (by omega) (by omega)) (le_min (by omega) (by omega))
    have a2 : Max.max (min_y - (timesPointEight (max_y - min_y) + 2)) 0 ≤
        Min.min (max_y + (timesPointEight (max_y - min_y) + 2)) (image_height - 1) :=
      max_le (le_min (by omega) (by omega)) (le_min (by omega) (by omega))
    refine ⟨by omega, by omega, by omega, by omega⟩

/-- A group of two sources in an image of 10 x 8 pixels, with the truncated product with
`.8`, for C28. -/
theorem detectionFrameGroupStamp_rectangle_witness :
    ∃ stamp : GroupStampRectangle,
      DetectionFrameGroupStampTask.computeProperties (fun d => (4 * d).tdiv 5) 10 8
        [⟨⟨2, 3⟩, ⟨4, 3⟩⟩, ⟨⟨5, 1⟩, ⟨9, 2⟩⟩] = some stamp ∧
      (0 ≤ stamp.min.m_x ∧ 0 ≤ stamp.min.m_y ∧
        stamp.max.m_x ≤ 10 - 1 ∧ stamp.max.m_y ≤ 8 - 1) ∧
      (∀ boundaries ∈ ([⟨⟨2, 3⟩, ⟨4, 3⟩⟩, ⟨⟨5, 1⟩, ⟨9, 2⟩⟩] : List SourceBoundaries),
        stamp.min.m_x ≤ boundaries.min.m_x ∧ stamp.min.m_y ≤ boundaries.min.m_y ∧
        boundaries.max.m_x ≤ stamp.max.m_x ∧ boundaries.max.m_y ≤ stamp.max.m_y) ∧
      1 ≤ stamp.width ∧ 1 ≤ stamp.height ∧
      stamp.max.m_x = stamp.min.m_x + stamp.width - 1 ∧
      stamp.max.m_y = stamp.min.m_y + stamp.height - 1 :=
  detectionFrameGroupStamp_rectangle (fun d => (4 * d).tdiv 5) 10 8
    [⟨⟨2, 3⟩, ⟨4, 3⟩⟩, ⟨⟨5, 1⟩, ⟨9, 2⟩⟩] (by simp)
    (fun d hd => Int.tdiv_nonneg (by omega) (by decide))
    (by decide)

/-- C30: for an image of width `W >= 1` and height `H >= 1` and cell sizes `cell_w >= 1` and
`cell_h >= 1`, the grid of `HistogramImage` has `ceil(W/cell_w)` by `ceil(H/cell_h)` cells; the
loop calls `processCell` once for each of them, and the blocks that these calls read are
non-empty, lie inside the image, and partition it: every pixel of the image is in the block of
exactly one cell. -/
theorem histogramImage_grid_partition (W H cell_w cell_h : Int)
    (hW : 1 ≤ W) (hH : 1 ≤ H) (hcell_w : 1 ≤ cell_w) (hcell_h : 1 ≤ cell_h) :
    HistogramImage.gridSize W H cell_w cell_h
      = (⌈(W : ℚ) / (cell_w : ℚ)⌉, ⌈(H : ℚ) / (cell_h : ℚ)⌉) ∧
    (HistogramImage.processedCells W H cell_w cell_h).Nodup ∧
    (∀ x y : Int, (x, y) ∈ HistogramImage.processedCells W H cell_w cell_h ↔
      (0 ≤ x ∧ x < (HistogramImage.gridSize W H cell_w cell_h).1) ∧
      (0 ≤ y ∧ y < (HistogramImage.gridSize W H cell_w cell_h).2)) ∧
    (∀ cell ∈ HistogramImage.processedCells W H cell_w cell_h,
      1 ≤ (HistogramImage.processCell W H cell_w cell_h cell.1 cell.2).w ∧
      1 ≤ (HistogramImage.processCell W H cell_w cell_h cell.1 cell.2).h ∧
      0 ≤ (HistogramImage.processCell W H cell_w cell_h cell.1 cell.2).off_x ∧
      0 ≤ (HistogramImage.processCell W H cell_w cell_h cell.1 cell.2).off_y ∧
      (HistogramImage.processCell W H cell_w cell_h cell.1 cell.2).off_x
        + (HistogramImage.processCell W H cell_w cell_h cell.1 cell.2).w ≤ W ∧
      (HistogramImage.processCell W H cell_w cell_h cell.1 cell.2).off_y
        + (HistogramImage.processCell W H cell_w cell_h cell.1 cell.2).h ≤ H) ∧
    (∀ px py : Int, (0 ≤ px ∧ px < W) → (0 ≤ py ∧ py < H) →
      ∃! cell : Int × Int, cell ∈ HistogramImage.processedCells W H cell_w cell_h ∧
        (HistogramImage.processCell W H cell_w cell_h cell.1 cell.2).contains px py) := by
  have hmem : ∀ x y : Int, (x, y) ∈ HistogramImage.processedCells W H cell_w cell_h ↔
      (0 ≤ x ∧ x < HistogramImage.gridLength W cell_w) ∧
      (0 ≤ y ∧ y < HistogramImage.gridLength H cell_h) := by
    intro x y
    unfold HistogramImage.processedCells
    rw [gridSize_eq]
    exact mem_forPixels_collect _ _ x y
  obtain ⟨hxcell, hxpixel⟩ := gridLength_partition W cell_w (by omega) hcell_w
  obtain ⟨hycell, hypixel⟩ := gridLength_partition H cell_h (by omega) hcell_h
  refine ⟨?_, ?_, ?_, ?_, ?_⟩
  · rw [gridSize_eq, gridLength_eq_ceil W cell_w (by omega) hcell_w,
      gridLength_eq_ceil H cell_h (by omega) hcell_h]
  · exact nodup_forPixels_collect _ _
  · intro x y
    rw [gridSize_eq]
    exact hmem x y
  · rintro ⟨x, y⟩ hcell
    obtain ⟨⟨hx0, hx⟩, hy0, hy⟩ := (hmem x y).mp hcell
    obtain ⟨a1, a2, a3⟩ := hxcell x hx0 hx
    obtain ⟨b1, b2, b3⟩ := hycell y hy0 hy
    exact ⟨a1, b1, a2, b2, a3, b3⟩
  · intro px py hpx hpy
    obtain ⟨hxin, hxiff⟩ := hxpixel px hpx.1 hpx.2
    obtain ⟨hyin, hyiff⟩ := hypixel py hpy.1 hpy.2
    refine ⟨(px / cell_w, py / cell_h), ⟨(hmem _ _).mpr ⟨hxin, hyin⟩, ?_⟩, ?_⟩
    · exact ⟨(hxiff _).mpr rfl, (hyiff _).mpr rfl⟩
    · rintro ⟨x, y⟩ ⟨_, hxc, hyc⟩
      have h1 : x = px / cell_w := (hxiff x).mp hxc
      have h2 : y = py / cell_h := (hyiff y).mp hyc
      rw [h1, h2]

/-- An image of 5 x 3 pixels with cells of 2 x 2 pixels, for C30. -/
theorem histogramImage_grid_partition_witness :
    HistogramImage.gridSize 5 3 2 2 = (⌈((5 : Int) : ℚ) / ((2 : Int) : ℚ)⌉,
      ⌈((3 : Int) : ℚ) / ((2 : Int) : ℚ)⌉) ∧
    (HistogramImage.processedCells 5 3 2 2).Nodup ∧
    (∀ x y : Int, (x, y) ∈ HistogramImage.processedCells 5 3 2 2 ↔
      (0 ≤ x ∧ x < (HistogramImage.gridSize 5 3 2 2).1) ∧
      (0 ≤ y ∧ y < (HistogramImage.gridSize 5 3 2 2).2)) ∧
    (∀ cell ∈ HistogramImage.processedCells 5 3 2 2,
      1 ≤ (HistogramImage.processCell 5 3 2 2 cell.1 cell.2).w ∧
      1 ≤ (HistogramImage.processCell 5 3 2 2 cell.1 cell.2).h ∧
      0 ≤ (HistogramImage.processCell 5 3 2 2 cell.1 cell.2).off_x ∧
      0 ≤ (HistogramImage.processCell 5 3 2 2 cell.1 cell.2).off_y ∧
      (HistogramImage.processCell 5 3 2 2 cell.1 cell.2).off_x
        + (HistogramImage.processCell 5 3 2 2 cell.1 cell.2).w ≤ 5 ∧
      (HistogramImage.processCell 5 3 2 2 cell.1 cell.2).off_y
        + (HistogramImage.processCell 5 3 2 2 cell.1 cell.2).h ≤ 3) ∧
    (∀ px py : Int, (0 ≤ px ∧ px < 5) → (0 ≤ py ∧ py < 3) →
      ∃! cell : Int × Int, cell ∈ HistogramImage.processedCells 5 3 2 2 ∧
        (HistogramImage.processCell 5 3 2 2 cell.1 cell.2).contains px py) :=
  histogramImage_grid_partition 5 3 2 2 (by decide) (by decide) (by decide) (by decide)

/-- C27 fails: a group of two sources of one pixel each, with `m_min_area = 2`.  Both sources
have fewer than two valid pixels, so `shouldClean` selects both, `remaining_sources` is empty,
neither merge branch is taken, and the last loop removes both: the group is empty after
`deblend`, and a group task that reads the first source of the group has none to read. -/
theorem cleaning_deblend_can_empty_group :
    ([⟨[⟨0, 0⟩], 0, 1⟩, ⟨[⟨5, 5⟩], 0, 2⟩] : List Cleaning.SourceData) ≠ [] ∧
    Cleaning.shouldClean Cleaning.intOps Cleaning.flatCollaborators 2 (0, ⟨[⟨0, 0⟩], 0, 1⟩)
      [⟨[⟨0, 0⟩], 0, 1⟩, ⟨[⟨5, 5⟩], 0, 2⟩] = some true ∧
    Cleaning.shouldClean Cleaning.intOps Cleaning.flatCollaborators 2 (1, ⟨[⟨5, 5⟩], 0, 2⟩)
      [⟨[⟨0, 0⟩], 0, 1⟩, ⟨[⟨5, 5⟩], 0, 2⟩] = some true ∧
    Cleaning.deblend Cleaning.intOps Cleaning.flatCollaborators 2 (fun position => position)
      [⟨[⟨0, 0⟩], 0, 1⟩, ⟨[⟨5, 5⟩], 0, 2⟩] = some [] ∧
    DetectionFrameGroupStampTask.computeProperties (fun d => (4 * d).tdiv 5) 10 10
      (([] : List Cleaning.SourceData).map (fun _ => (⟨⟨0, 0⟩, ⟨0, 0⟩⟩ : SourceBoundaries)))
      = none := by
  refine ⟨by decide, by decide, by decide, by decide, rfl⟩

/-- C26: for a group of at least two sources for each of which `shouldClean` returns, and at
least one of which it does not select, `deblend` returns and preserves the pixels of the
group: the pixel lists of the members afterwards hold, as a multiset, the pixels of the
members before; the group ends with as many sources as were not selected; its members are,
up to their order, the remaining sources, each replaced by its merge with the cleaned sources
assigned to it when there are any; and the pixel list of a merged source is the list of its
parent followed by the lists of its children in order. -/
theorem cleaning_deblend_preserves_pixels {V : Type} (ops : Cleaning.Ops V)
    (C : Cleaning.Collaborators V) (m_min_area : Nat) (address : Nat → Nat)
    (group : List Cleaning.SourceData) (hsize : 2 ≤ group.length)
    (hdefined : ∀ it ∈ group.enum,
      (Cleaning.shouldClean ops C m_min_area it group).isSome = true)
    (hremaining : ∃ it ∈ group.enum,
      Cleaning.shouldClean ops C m_min_area it group = some false) :
    ∃ result : List Cleaning.SourceData,
      Cleaning.deblend ops C m_min_area address group = some result ∧
      (result.flatMap (fun source => source.pixel_list)).Perm
        (group.flatMap (fun source => source.pixel_list)) ∧
      result.length = (Cleaning.remainingSources ops C m_min_area group).length ∧
      result.Perm (Cleaning.mergedSources ops C
        (Cleaning.sourcesToClean ops C m_min_area group)
        (Cleaning.remainingSources ops C m_min_area group)) ∧
      (∀ (parent : Cleaning.SourceData) (children : List Cleaning.Iterator),
        (Cleaning.mergeSources parent children).pixel_list
          = parent.pixel_list ++ children.flatMap (fun child => child.2.pixel_list)) := by
  obtain ⟨result, hresult, hperm⟩ :=
    Cleaning.deblend_perm ops C m_min_area address group hsize hdefined hremaining
  refine ⟨result, hresult, ?_, ?_, hperm, Cleaning.mergeSources_pixel_list⟩
  · have hRne : Cleaning.remainingSources ops C m_min_area group ≠ [] := by
      obtain ⟨it, hit, hfalse⟩ := hremaining
      intro hnil
      have : it ∈ Cleaning.remainingSources ops C m_min_area group :=
        List.mem_filter.mpr ⟨hit, decide_eq_true hfalse⟩
      rw [hnil] at this
      exact List.not_mem_nil _ this
    have hRnodup : ((Cleaning.remainingSources ops C m_min_area group).map Prod.fst).Nodup :=
      ((List.nodup_enum_map_fst group).sublist
        ((List.filter_sublist _).map Prod.fst))
    have hR : Cleaning.remainingSources ops C m_min_area group = group.enum.filter
        (fun it => !decide (Cleaning.shouldClean ops C m_min_area it group = some true)) := by
      unfold Cleaning.remainingSources
      apply List.filter_congr
      intro it hit
      obtain ⟨clean, hclean⟩ := Option.isSome_iff_exists.mp (hdefined it hit)
      rw [hclean]
      cases clean <;> simp
    have hsplit : (Cleaning.remainingSources ops C m_min_area group
        ++ Cleaning.sourcesToClean ops C m_min_area group).Perm group.enum := by
      rw [hR]
      exact List.perm_append_comm.trans (List.filter_append_perm _ _)
    have hparts := Cleaning.childrenOf_partition ops C
      (Cleaning.sourcesToClean ops C m_min_area group)
      (Cleaning.remainingSources ops C m_min_area group) hRne hRnodup
    generalize Cleaning.sourcesToClean ops C m_min_area group = T at hperm hsplit hparts
    generalize Cleaning.remainingSources ops C m_min_area group = R at hperm hsplit hparts
    refine (hperm.flatMap_right _).trans ?_
    have hpixels : (Cleaning.mergedSources ops C T R).flatMap (fun source => source.pixel_list)
        = R.flatMap (fun parent => parent.2.pixel_list
            ++ (Cleaning.childrenOf ops C T R parent).flatMap
                (fun child => child.2.pixel_list)) := by
      unfold Cleaning.mergedSources
      rw [List.flatMap_map]
      apply List.flatMap_congr
      intro parent _
      by_cases hnone : Cleaning.childrenOf ops C T R parent = []
      · simp [hnone]
      · simp only [if_neg hnone, Cleaning.mergeSources_pixel_list]
    rw [hpixels]
    refine (List.flatMap_append_perm R _ _).symm.trans ?_
    rw [← List.flatMap_assoc]
    refine (List.Perm.append_left _ (hparts.flatMap_right _)).trans ?_
    rw [← List.flatMap_append]
    refine (hsplit.flatMap_right _).trans ?_
    have hgroup : group = group.enum.map Prod.snd := (List.enum_map_snd group).symm
    conv_rhs => rw [hgroup, List.flatMap_map]
  · rw [hperm.length_eq]
    simp [Cleaning.mergedSources]

/-- A group of four sources with `m_min_area = 2`: the first and the last have one pixel and
are cleaned, the two others remain, for C26. -/
theorem cleaning_deblend_preserves_pixels_witness :
    ∃ result : List Cleaning.SourceData,
      Cleaning.deblend Cleaning.intOps Cleaning.flatCollaborators 2 (fun position => position)
        [⟨[⟨0, 0⟩], 0, 1⟩, ⟨[⟨5, 5⟩, ⟨5, 6⟩], 0, 2⟩, ⟨[⟨7, 5⟩, ⟨7, 6⟩], 0, 3⟩, ⟨[⟨9, 9⟩], 0, 4⟩]
        = some result ∧
      (result.flatMap (fun source => source.pixel_list)).Perm
        (([⟨[⟨0, 0⟩], 0, 1⟩, ⟨[⟨5, 5⟩, ⟨5, 6⟩], 0, 2⟩, ⟨[⟨7, 5⟩, ⟨7, 6⟩], 0, 3⟩,
          ⟨[⟨9, 9⟩], 0, 4⟩] : List Cleaning.SourceData).flatMap
            (fun source => source.pixel_list)) ∧
      result.length = (Cleaning.remainingSources Cleaning.intOps Cleaning.flatCollaborators 2
        [⟨[⟨0, 0⟩], 0, 1⟩, ⟨[⟨5, 5⟩, ⟨5, 6⟩], 0, 2⟩, ⟨[⟨7, 5⟩, ⟨7, 6⟩], 0, 3⟩,
          ⟨[⟨9, 9⟩], 0, 4⟩]).length ∧
      result.Perm (Cleaning.mergedSources Cleaning.intOps Cleaning.flatCollaborators
        (Cleaning.sourcesToClean Cleaning.intOps Cleaning.flatCollaborators 2
          [⟨[⟨0, 0⟩], 0, 1⟩, ⟨[⟨5, 5⟩, ⟨5, 6⟩], 0, 2⟩, ⟨[⟨7, 5⟩, ⟨7, 6⟩], 0, 3⟩,
            ⟨[⟨9, 9⟩], 0, 4⟩])
        (Cleaning.remainingSources Cleaning.intOps Cleaning.flatCollaborators 2
          [⟨[⟨0, 0⟩], 0, 1⟩, ⟨[⟨5, 5⟩, ⟨5, 6⟩], 0, 2⟩, ⟨[⟨7, 5⟩, ⟨7, 6⟩], 0, 3⟩,
            ⟨[⟨9, 9⟩], 0, 4⟩])) ∧
      (∀ (parent : Cleaning.SourceData) (children : List Cleaning.Iterator),
        (Cleaning.mergeSources parent children).pixel_list
          = parent.pixel_list ++ children.flatMap (fun child => child.2.pixel_list)) :=
  cleaning_deblend_preserves_pixels Cleaning.intOps Cleaning.flatCollaborators 2
    (fun position => position)
    [⟨[⟨0, 0⟩], 0, 1⟩, ⟨[⟨5, 5⟩, ⟨5, 6⟩], 0, 2⟩, ⟨[⟨7, 5⟩, ⟨7, 6⟩], 0, 3⟩, ⟨[⟨9, 9⟩], 0, 4⟩]
    (by decide) (by decide)
    ⟨(1, ⟨[⟨5, 5⟩, ⟨5, 6⟩], 0, 2⟩), by decide, by decide⟩

end Claims

end SourceXtractor
